import Mathlib

/-!
# sshesame-pro: the virtual shell, its commands and the session channel

A shallow embedding of `commands.go` and `session.go`.

Conventions of the embedding:

* A Go `string` is represented by the list of its Unicode code points (`Str`); the
  strings handled here are UTF-8 text.
* `uint32` statuses are natural numbers; the only conversion that can truncate
  (`uint32(status)` in `cmdExit`) is written with an explicit `% 2 ^ 32`.
* Every effect a program goroutine attempts (a write, a channel request, a close) is
  appended to `World.trace`; whether the attempt fails is read from the oracle
  `World.outcome`, indexed by the number of effects attempted before it.
* Loops that read input take a fuel argument; `none` means the fuel ran out.
-/

set_option autoImplicit false

namespace Sshesame

/-- Go strings, as lists of code points. -/
abbrev Str := List Char

/-! ## Models of the Go standard library functions used by the sources -/

/-- Model of `strings.HasPrefix`. -/
def HasPrefix (s pre : Str) : Bool := pre.isPrefixOf s

/-- Model of `strings.TrimPrefix`. -/
def TrimPrefix (s pre : Str) : Str := if HasPrefix s pre then s.drop pre.length else s

/-- Model of `strings.Join`. -/
def Join (elems : List Str) (sep : Str) : Str := sep.intercalate elems

/-- Model of `unicode.IsSpace`: the code points with the White_Space property. -/
def isSpace (c : Char) : Bool :=
  c = '\t' || c = '\n' || c = '\x0b' || c = '\x0c' || c = '\r' || c = ' ' ||
  c.toNat = 0x85 || c.toNat = 0xA0 || c.toNat = 0x1680 ||
  (0x2000 ≤ c.toNat && c.toNat ≤ 0x200a) ||
  c.toNat = 0x2028 || c.toNat = 0x2029 || c.toNat = 0x202f || c.toNat = 0x205f ||
  c.toNat = 0x3000

/-- Model of `strings.Fields`: the maximal runs of non-space code points, in order. -/
def Fields : Str → List Str
  | [] => []
  | c :: cs =>
    if isSpace c then Fields cs
    else
      match cs with
      | [] => [[c]]
      | d :: _ =>
        if isSpace d then [c] :: Fields cs
        else
          match Fields cs with
          | w :: ws => (c :: w) :: ws
          | [] => [[c]]

/-- Splits a string at every occurrence of `sep`, keeping empty pieces. -/
def splitOn (sep : Char) : Str → List Str
  | [] => [[]]
  | c :: cs =>
    match splitOn sep cs with
    | [] => [[]]
    | w :: ws => if c = sep then [] :: w :: ws else (c :: w) :: ws

/-- Model of `filepath.IsAbs` on Unix. -/
def IsAbs (path : Str) : Bool := HasPrefix path ['/']

/-- One path element processed by `filepath.Clean`; `stack` holds the elements kept so
far, the most recent first. Empty and `.` elements are dropped, `..` removes the
previous element, is dropped at the root, and is kept at the start of a relative
path. -/
def cleanStep (rooted : Bool) (stack : List Str) (elem : Str) : List Str :=
  if elem = [] ∨ elem = ['.'] then stack
  else if elem = ['.', '.'] then
    match stack with
    | [] => if rooted then [] else [['.', '.']]
    | top :: rest => if top = ['.', '.'] then ['.', '.'] :: top :: rest else rest
  else elem :: stack

/-- The elements `filepath.Clean` keeps, in path order. -/
def cleanElems (rooted : Bool) (path : Str) : List Str :=
  ((splitOn '/' path).foldl (cleanStep rooted) []).reverse

/-- Model of `filepath.Clean` on Unix. -/
def Clean (path : Str) : Str :=
  if path = [] then ['.']
  else if HasPrefix path ['/'] then '/' :: Join (cleanElems true path) ['/']
  else if cleanElems false path = [] then ['.']
  else Join (cleanElems false path) ['/']

/-- Model of `filepath.Join` with two elements on Unix: empty leading elements are
skipped, the rest is joined with the separator and cleaned. -/
def filepathJoin (a b : Str) : Str :=
  if a ≠ [] then Clean (a ++ '/' :: b)
  else if b ≠ [] then Clean b
  else []

/-- Decimal digits of a natural number. -/
def decimal (n : Nat) : Str := Nat.toDigits 10 n

/-- Formatting of a Go `int` with the verb `%d`. -/
def fmtInt (i : Int) : Str := if i < 0 then '-' :: decimal i.natAbs else decimal i.toNat

/-- Left padding to a width, as by the verbs `%10s`, `%10d` and, with `'0'`, `%06d`. -/
def padLeft (width : Nat) (fill : Char) (s : Str) : Str :=
  List.replicate (width - s.length) fill ++ s

/-- Right padding with spaces to a width, as by the verb `%-10s`. -/
def padRight (width : Nat) (s : Str) : Str :=
  s ++ List.replicate (width - s.length) ' '

/-- The number a string of decimal digits denotes, the most significant digit first. -/
def numeralValue (s : Str) : Nat :=
  s.foldl (fun acc c => 10 * acc + (c.toNat - '0'.toNat)) 0

/-- Model of `strconv.ParseUint(s, 10, 32)`: the value, or `none` when the call returns
an error (empty input, a character that is not a decimal digit, or a value that does
not fit in 32 bits). -/
def ParseUint32 (s : Str) : Option Nat :=
  if s = [] then none
  else if s.all Char.isDigit then
    if numeralValue s < 2 ^ 32 then some (numeralValue s) else none
  else none

/-! ## Effects of a program goroutine -/

/-- Go error values that the sources tell apart: `io.EOF`, the session's `clientEOF`,
and every other error. -/
inductive GoError where
  | EOF
  | clientEOF
  | other (msg : Str)
  deriving DecidableEq, Repr

/-- The two output sinks of a command context. -/
inductive Sink where
  | stdout
  | stderr
  deriving DecidableEq, Repr

/-- An effect attempted by a program goroutine. -/
inductive Event where
  | write (sink : Sink) (data : Str)
  | channelWrite (data : Str)
  | sendRequest (name : Str) (wantReply : Bool) (payload : List Nat)
  | closeWrite
  | close
  | closeInputChan
  deriving DecidableEq, Repr

/-- The two implementations of the `readLiner` interface. -/
inductive readLiner where
  | scannerReadLiner
  | terminalReadLiner
  deriving DecidableEq, Repr

/-- Capacity of the input-logging queue: `make(chan string, 10)`. -/
def inputChanCap : Nat := 10

/-- The environment a program goroutine runs in. -/
structure World where
  /-- Effects attempted so far, oldest first. -/
  trace : List Event
  /-- Error returned by the effect attempted after `n` earlier ones. -/
  outcome : Nat → Option GoError
  /-- Tokens the `bufio.Scanner` will still deliver. -/
  scanLines : List Str
  /-- Value of `scanner.Err()` once the tokens are exhausted. -/
  scanErr : Option GoError
  /-- Results of the coming `terminal.ReadLine` calls; `io.EOF` once exhausted. -/
  termLines : List (Str × Option GoError)
  /-- Content of the input-logging queue, oldest first. -/
  inputChan : List Str
  /-- Number of entries the channel event loop takes off the queue before the send
  of the `n`-th `ReadLine` call. -/
  drained : Nat → Nat
  /-- Number of `ReadLine` calls made so far. -/
  reads : Nat
  /-- Raw values of the coming `rand.Intn` draws. -/
  rand : Nat → Nat
  /-- Number of draws made so far. -/
  randIdx : Nat
  /-- The draw made by `init` for the process-wide hostname. -/
  hostDraw : Nat
  /-- Messages given to `warningLogger`. -/
  warnings : List Str

/-- Attempt an effect: it is recorded, and the oracle says whether it failed. -/
def World.attempt (w : World) (e : Event) : Option GoError × World :=
  (w.outcome w.trace.length, { w with trace := w.trace ++ [e] })

/-- Model of `fmt.Fprint` and its variants to one of the two sinks, with the text
already formatted: a single write. -/
def Fprint (w : World) (sink : Sink) (data : Str) : Option GoError × World :=
  w.attempt (Event.write sink data)

/-- Model of `rand.Intn(n)`. -/
def Intn (w : World) (n : Nat) : Nat × World :=
  (w.rand w.randIdx % n, { w with randIdx := w.randIdx + 1 })

/-- The non-blocking send of a line to the input-logging queue: the line is enqueued
when the queue has room and dropped otherwise. -/
def trySend (queue : List Str) (line : Str) : List Str :=
  if queue.length < inputChanCap then queue ++ [line] else queue

/-- The queue and read counter after the event loop has taken its entries and the
reader has tried to send `line`. -/
def World.logInput (w : World) (line : Str) : World :=
  { w with inputChan := trySend (w.inputChan.drop (w.drained w.reads)) line,
           reads := w.reads + 1 }

/-- The method `scannerReadLiner.ReadLine`. -/
def scannerReadLiner_ReadLine (w : World) : Str × Option GoError × World :=
  match w.scanLines with
  | [] =>
    match w.scanErr with
    | some err => ([], some err, { w with reads := w.reads + 1 })
    | none => ([], some GoError.EOF, { w with reads := w.reads + 1 })
  | line :: rest => (line, none, { w with scanLines := rest }.logInput line)

/-- The method `terminalReadLiner.ReadLine`. -/
def terminalReadLiner_ReadLine (w : World) : Str × Option GoError × World :=
  let (line, err, w1) : Str × Option GoError × World :=
    match w.termLines with
    | [] => ([], some GoError.EOF, w)
    | (line, err) :: rest => (line, err, { w with termLines := rest })
  let w2 := if err = none ∨ line ≠ [] then w1.logInput line
            else { w1 with reads := w1.reads + 1 }
  if err = some GoError.EOF then (line, some GoError.clientEOF, w2)
  else (line, err, w2)

/-- Dynamic dispatch of `ReadLine` on a `readLiner` value. -/
def ReadLine (r : readLiner) (w : World) : Str × Option GoError × World :=
  match r with
  | readLiner.scannerReadLiner => scannerReadLiner_ReadLine w
  | readLiner.terminalReadLiner => terminalReadLiner_ReadLine w

/-- The process-wide hostname made by `init`: `vm-` and six digits. -/
def globalHostname (w : World) : Str :=
  "vm-".toList ++ padLeft 6 '0' (decimal (w.hostDraw % 1000000))

/-- The struct `commandContext`. The sinks `stdout` and `stderr` are the world's; `cwd`
is the content of the cell the pointer designates, `none` for a nil pointer. -/
structure commandContext where
  args : List Str
  stdin : readLiner
  pty : Bool
  user : Str
  cwd : Option Str
  hostname : Str
  deriving DecidableEq, Repr

/-- What `execute` returns, with the content of the working-directory cell and the
world after the call. -/
structure Result where
  status : Nat
  err : Option GoError
  cwd : Option Str
  world : World

/-- The method `Error` of an error value, used by the verb `%v`. -/
def GoError.Error : GoError → Str
  | GoError.EOF => "EOF".toList
  | GoError.clientEOF => "客户端EOF".toList
  | GoError.other msg => msg

/-! ## The commands of `commands.go` -/

/-- The command implementations: the types `cmdShell`, `cmdTrue`, ... -/
inductive command where
  | cmdShell | cmdTrue | cmdFalse | cmdEcho | cmdCat | cmdSu | cmdUname | cmdPwd
  | cmdId | cmdHostname | cmdCd | cmdExit | cmdWpm | cmdApt | cmdAptGet | cmdLscpu
  | cmdFree | cmdLspci
  deriving DecidableEq, Repr

/-- The registry `commands`, as an association list. -/
def commandTable : List (Str × command) :=
  [("sh".toList, command.cmdShell), ("true".toList, command.cmdTrue),
   ("false".toList, command.cmdFalse), ("echo".toList, command.cmdEcho),
   ("cat".toList, command.cmdCat), ("su".toList, command.cmdSu),
   ("uname".toList, command.cmdUname), ("pwd".toList, command.cmdPwd),
   ("id".toList, command.cmdId), ("hostname".toList, command.cmdHostname),
   ("cd".toList, command.cmdCd), ("exit".toList, command.cmdExit),
   ("wpm".toList, command.cmdWpm), ("apt".toList, command.cmdApt),
   ("apt-get".toList, command.cmdAptGet), ("lscpu".toList, command.cmdLscpu),
   ("free".toList, command.cmdFree), ("lspci".toList, command.cmdLspci)]

/-- The map lookup `commands[name]`; `none` is the nil command. -/
def commands (name : Str) : Option command := commandTable.lookup name

/-- The variable `shellProgram`. -/
def shellProgram : List Str := ["sh".toList]

/-- The constant `baseDir`. -/
def baseDir : Str := "/home/guest".toList

/-- The constant `wpmUpstream`. -/
def wpmUpstream : Str := "https://mirrors.tuna.tsinghua.edu.cn/debian".toList

/-- A result that leaves the working-directory cell as it was. -/
def commandContext.result (context : commandContext) (status : Nat) (err : Option GoError)
    (w : World) : Result :=
  { status := status, err := err, cwd := context.cwd, world := w }

/-- A write of `data` whose failure turns the status 0 into 1: the pattern
`_, err := fmt.Fprintln(...); if err != nil return 1, err; return 0, nil`. -/
def commandContext.printOrFail (context : commandContext) (w : World) (data : Str) : Result :=
  match Fprint w Sink.stdout data with
  | (some err, w1) => context.result 1 (some err) w1
  | (none, w1) => context.result 0 none w1

/-- The method `cmdExit.execute`. -/
def cmdExit_execute (context : commandContext) (w : World) : Result :=
  match context.args with
  | _ :: arg :: _ =>
    match ParseUint32 arg with
    | none =>
      let (fmtErr, w1) := Fprint w Sink.stderr
        (context.hostname ++ ": exit: ".toList ++ arg ++ ": numeric argument required\n".toList)
      context.result 255 fmtErr w1
    | some status => context.result (status % 2 ^ 32) none w
  | _ => context.result (0 % 2 ^ 32) none w

/-- The method `cmdTrue.execute`. -/
def cmdTrue_execute (context : commandContext) (w : World) : Result :=
  context.result 0 none w

/-- The method `cmdFalse.execute`. -/
def cmdFalse_execute (context : commandContext) (w : World) : Result :=
  context.result 1 none w

/-- The method `cmdEcho.execute`; `context.args[1:]` is the argument list without its
first element. -/
def cmdEcho_execute (context : commandContext) (w : World) : Result :=
  context.printOrFail w (Join (context.args.drop 1) " ".toList ++ "\n".toList)

/-- The fields printed by `uname`, with the one-element flag selection. -/
def unameOutput (context : commandContext) : Str :=
  let kernelRelease := "5.15.0-101-generic".toList
  let kernelVersion := "#1-Linux SMP Tue Mar 26 15:04:31 UTC 2024".toList
  let machine := "x86_64".toList
  let processor := "x86_64".toList
  let hwPlatform := "x86_64".toList
  let osName := "Linux".toList
  let fakeUnameAll := Join ["Linux".toList, context.hostname, kernelRelease, kernelVersion,
    machine, processor, hwPlatform, osName] " ".toList
  match context.args with
  | _ :: flag :: _ =>
    if flag = "-s".toList ∨ flag = "--kernel-name".toList then "Linux".toList
    else if flag = "-n".toList ∨ flag = "--nodename".toList then context.hostname
    else if flag = "-r".toList ∨ flag = "--kernel-release".toList then kernelRelease
    else if flag = "-v".toList ∨ flag = "--kernel-version".toList then kernelVersion
    else if flag = "-m".toList ∨ flag = "--machine".toList then machine
    else if flag = "-p".toList ∨ flag = "--processor".toList then processor
    else if flag = "-i".toList ∨ flag = "--hardware-platform".toList then hwPlatform
    else if flag = "-o".toList ∨ flag = "--operating-system".toList then osName
    else if flag = "-a".toList ∨ flag = "--all".toList then fakeUnameAll
    else fakeUnameAll
  | _ => fakeUnameAll

/-- The method `cmdUname.execute`. -/
def cmdUname_execute (context : commandContext) (w : World) : Result :=
  context.printOrFail w (unameOutput context ++ "\n".toList)

/-- The method `cmdPwd.execute`. -/
def cmdPwd_execute (context : commandContext) (w : World) : Result :=
  match context.cwd with
  | none =>
    let (err, w1) := Fprint w Sink.stderr "pwd: 无法获取当前工作目录\n".toList
    context.result 1 err w1
  | some cwd => context.printOrFail w (cwd ++ "\n".toList)

/-- The line printed by `id`. -/
def idOutput (user : Str) : Str :=
  let (uid, gid, group) : Nat × Nat × Str :=
    if user = "root".toList then (0, 0, "root".toList) else (1000, 1000, user)
  "uid=".toList ++ decimal uid ++ "(".toList ++ user ++ ") gid=".toList ++ decimal gid ++
    "(".toList ++ group ++ ") groups=".toList ++ decimal gid ++ "(".toList ++ group ++
    ")".toList

/-- The method `cmdId.execute`. -/
def cmdId_execute (context : commandContext) (w : World) : Result :=
  context.printOrFail w (idOutput context.user ++ "\n".toList)

/-- The method `cmdHostname.execute`. -/
def cmdHostname_execute (context : commandContext) (w : World) : Result :=
  context.printOrFail w (context.hostname ++ "\n".toList)

/-- The method `cmdCd.execute`. -/
def cmdCd_execute (context : commandContext) (w : World) : Result :=
  match context.cwd with
  | none =>
    let (err, w1) := Fprint w Sink.stderr "cd: 无法获取当前工作目录\n".toList
    context.result 1 err w1
  | some currentDir =>
    let targetDir := match context.args with
      | _ :: arg :: _ => arg
      | _ => baseDir
    let newDir :=
      if IsAbs targetDir then Clean targetDir
      else Clean (filepathJoin currentDir targetDir)
    if (!HasPrefix newDir baseDir && newDir ≠ baseDir) || newDir = "/".toList then
      let (err, w1) := Fprint w Sink.stderr
        (context.hostname ++ ": cd: ".toList ++ targetDir ++ ": 权限不足或目录不存在\n".toList)
      context.result 1 err w1
    else
      { status := 0, err := none, cwd := some newDir, world := w }

/-- The text `wpm update` writes to stderr: the raw string literal of the source with
`wpmUpstream` in the place of its verb. -/
def wpmKernelFault : Str :=
  List.flatten
  ["\n".toList,
   "kernel: general protection fault: 0000 [#1] SMP PTI\n".toList,
   "CPU: 0 PID: 1234 Comm: wpm Tainted: G        W        5.15.0-101-generic #1-WindOS\n".toList,
   "Hardware name: QEMU QEMU Virtual Machine, BIOS 0.0.0 02/06/2015\n".toList,
   "RIP: 0010:0x0\n".toList,
   "Code: Bad RIP value.\n".toList,
   "RSP: 0018:ffffc90000abcde0 EFLAGS: 00010246\n".toList,
   "RAX: 0000000000000000 RBX: 0000000000000001 RCX: 0000000000000000\n".toList,
   "RDX: 0000000000000000 RSI: 0000000000000000 RDI: 0000000000000000\n".toList,
   "RBP: ffffc90000abcdf0 R08: 0000000000000000 R09: 0000000000000000\n".toList,
   "R10: 0000000000000000 R11: 0000000000000000 R12: 0000000000000000\n".toList,
   "R13: 0000000000000000 R14: 0000000000000000 R15: 0000000000000000\n".toList,
   "FS:  00007f0000000000(0000) GS:ffff888888888888(0000) knlGS:0000000000000000\n".toList,
   "CS:  0010 DS: 0000 ES: 0000 CR0: 0000000080050033\n".toList,
   "CR2: 0000000000000000 CR3: 000000011abcdef0 CR4: 00000000000406f0\n".toList,
   "Call Trace:\n".toList,
   " ? panic+0x1a/0x20\n".toList,
   " ? oops_end+0xb0/0xb0\n".toList,
   " ? die+0x43/0x50\n".toList,
   " ? do_general_protection+0x74/0x80\n".toList,
   " ? general_protection_interrupt+0x2e/0x30\n".toList,
   " <IRQ>\n".toList,
   " ? net_rx_action+0x14e/0x3a0\n".toList,
   " ? __do_softirq+0xe1/0x2c2\n".toList,
   " ? irq_exit_rcu+0x95/0xc0\n".toList,
   " ? sysvec_apic_timer_interrupt+0x4d/0x90\n".toList,
   " </IRQ>\n".toList,
   " ? asm_sysvec_apic_timer_interrupt+0x12/0x20\n".toList,
   "RIP: 0010:0x0\n".toList,
   "---[ end trace ]---\n".toList,
   "错误：内核在尝试连接 ".toList, wpmUpstream, " 时发生中断错误。无法更新软件包列表。\n".toList]

/-- The method `cmdWpm.execute`. The one-second `time.Sleep` of `update` has no
counterpart here. -/
def cmdWpm_execute (context : commandContext) (w : World) : Result :=
  match context.args with
  | _ :: subCommand :: rest =>
    if subCommand = "update".toList ∨ subCommand = "upgrade".toList then
      let (_, w1) := Fprint w Sink.stdout
        ("正在获取软件包列表 ".toList ++ wpmUpstream ++ " ...\n".toList)
      let (err, w2) := Fprint w1 Sink.stderr wpmKernelFault
      context.result 1 err w2
    else if subCommand = "list".toList ∨ subCommand = "search".toList then
      let (err, w1) := Fprint w Sink.stderr
        "错误：需要先运行 'wpm update' 更新软件包列表。\n".toList
      context.result 1 err w1
    else if subCommand = "install".toList then
      match rest with
      | [] =>
        let (err, w1) := Fprint w Sink.stderr "用法: wpm install <软件包名称>\n".toList
        context.result 1 err w1
      | pkg :: _ =>
        let (err, w1) := Fprint w Sink.stderr
          ("错误：需要先运行 'wpm update' 更新软件包列表才能安装 '".toList ++ pkg ++
            "'。\n".toList)
        context.result 1 err w1
    else if subCommand = "remove".toList ∨ subCommand = "purge".toList then
      match rest with
      | [] =>
        let (err, w1) := Fprint w Sink.stderr "用法: wpm remove <软件包名称>\n".toList
        context.result 1 err w1
      | pkg :: _ =>
        let (err, w1) := Fprint w Sink.stderr
          ("错误：软件包 '".toList ++ pkg ++
            "' 是系统核心组件或受保护，此环境不允许移除。\n".toList)
        context.result 1 err w1
    else
      let (err, w1) := Fprint w Sink.stderr
        (context.hostname ++ ": wpm: 未知的指令 '".toList ++ subCommand ++ "'\n".toList)
      context.result 1 err w1
  | _ =>
    let (err, w1) := Fprint w Sink.stderr
      "用法: wpm <指令> [选项...]\n支持的指令: update, list, search, install, remove\n".toList
    context.result 1 err w1

/-- The method `cmdApt.execute`. -/
def cmdApt_execute (context : commandContext) (w : World) : Result :=
  let (err, w1) := Fprint w Sink.stderr "提示：请使用 'wpm' 指令进行包管理\n".toList
  context.result 1 err w1

/-- The method `cmdAptGet.execute`. -/
def cmdAptGet_execute (context : commandContext) (w : World) : Result :=
  cmdApt_execute context w

/-- The text printed by `lscpu`. -/
def lscpuOutput : Str :=
  List.flatten
  ["Architecture:        x86_64\n".toList,
   "CPU op-mode(s):      32-bit, 64-bit\n".toList,
   "Byte Order:          Little Endian\n".toList,
   "CPU(s):              4\n".toList,
   "On-line CPU(s) list: 0-3\n".toList,
   "Thread(s) per core:  1\n".toList,
   "Core(s) per socket:  4\n".toList,
   "Socket(s):           1\n".toList,
   "NUMA node(s):        1\n".toList,
   "Vendor ID:           AuthenticAMD\n".toList,
   "CPU family:          16\n".toList,
   "Model:               5\n".toList,
   "Model name:          AMD Athlon(tm) II X4 645 Processor\n".toList,
   "Stepping:            3\n".toList,
   "CPU MHz:             3100.000\n".toList,
   "CPU max MHz:         3100.0000\n".toList,
   "CPU min MHz:         800.0000\n".toList,
   "BogoMIPS:            6200.00\n".toList,
   "Virtualization:      AMD-V\n".toList,
   "L1d cache:           64K\n".toList,
   "L1i cache:           64K\n".toList,
   "L2 cache:            512K\n".toList,
   "NUMA node0 CPU(s):   0-3\n".toList,
   "Flags:               fpu vme de pse tsc msr pae mce cx8 apic sep mtrr pge mca cmov pat pse36 clflush mmx fxsr sse sse2 ht syscall nx mmxext fxsr_opt pdpe1gb rdtscp lm 3dnowext 3dnow constant_tsc rep_good nopl nonstop_tsc cpuid extd_apicid amd_dcm aperfmperf pni monitor cx16 popcnt lahf_lm cmp_legacy svm extapic cr8_legacy abm sse4a misalignsse 3dnowprefetch osvw ibs skinit wdt nodeid_msr npt lbrv svm_lock nrip_save\n".toList]

/-- The method `cmdLscpu.execute`. -/
def cmdLscpu_execute (context : commandContext) (w : World) : Result :=
  context.printOrFail w lscpuOutput

/-- The method `cmdLspci.execute`. -/
def cmdLspci_execute (context : commandContext) (w : World) : Result :=
  let (err, w1) := Fprint w Sink.stderr "lspci: 此环境下无法读取 PCI 设备列表。\n".toList
  context.result 1 err w1

/-- The figures `cmdFree.execute` computes from its four draws; Go `int` values. -/
structure FreeFigures where
  totalMem : Int
  usedMem : Int
  freeMem : Int
  sharedMem : Int
  buffCache : Int
  availableMem : Int
  totalSwap : Int
  usedSwap : Int
  freeSwap : Int
  deriving DecidableEq, Repr

/-- The arithmetic of `cmdFree.execute` on the values drawn for used, shared, buff/cache
and used swap (each already reduced by `rand.Intn`). -/
def freeFigures (r1 r2 r3 r4 : Nat) : FreeFigures :=
  let totalMem : Int := 524288
  let usedMem : Int := 150000 + r1
  let sharedMem : Int := 5000 + r2
  let buffCache : Int := 100000 + r3
  let freeMem0 : Int := totalMem - usedMem - buffCache
  let freeMem : Int := if freeMem0 < 0 then 0 else freeMem0
  let availableMem0 : Int := freeMem + Int.tdiv buffCache 3
  let availableMem : Int :=
    if availableMem0 > totalMem - usedMem + sharedMem then totalMem - usedMem + sharedMem
    else availableMem0
  let totalSwap : Int := 131072
  let usedSwap : Int := 1000 + r4
  let freeSwap : Int := totalSwap - usedSwap
  { totalMem := totalMem, usedMem := usedMem, freeMem := freeMem, sharedMem := sharedMem,
    buffCache := buffCache, availableMem := availableMem, totalSwap := totalSwap,
    usedSwap := usedSwap, freeSwap := freeSwap }

/-- The header line of `free`. The format has six verbs for seven operands, so
`fmt.Sprintf` appends its note about the extra operand after the newline. -/
def freeHeader : Str :=
  Join (["".toList, "total".toList, "used".toList, "free".toList, "shared".toList,
    "buff/cache".toList].map (padLeft 10 ' ')) " ".toList ++ "\n".toList ++
    "%!(EXTRA string=available)".toList

/-- The `Mem:` row of `free`. -/
def freeMemRow (f : FreeFigures) : Str :=
  Join (padRight 10 "Mem:".toList ::
    [f.totalMem, f.usedMem, f.freeMem, f.sharedMem, f.buffCache, f.availableMem].map
      (fun i => padLeft 10 ' ' (fmtInt i))) " ".toList ++ "\n".toList

/-- The `Swap:` row of `free`. -/
def freeSwapRow (f : FreeFigures) : Str :=
  Join (padRight 10 "Swap:".toList ::
    [f.totalSwap, f.usedSwap, f.freeSwap].map (fun i => padLeft 10 ' ' (fmtInt i)))
    " ".toList ++ "\n".toList

/-- The figures `cmdFree.execute` prints in the world `w`: the draws are made in the
order used, shared, buff/cache, used swap. -/
def cmdFree_figures (w : World) : FreeFigures × World :=
  let (r1, w1) := Intn w 50000
  let (r2, w2) := Intn w1 2000
  let (r3, w3) := Intn w2 30000
  let (r4, w4) := Intn w3 5000
  (freeFigures r1 r2 r3 r4, w4)

/-- The method `cmdFree.execute`. -/
def cmdFree_execute (context : commandContext) (w : World) : Result :=
  let (f, w1) := cmdFree_figures w
  context.printOrFail w1 (freeHeader ++ freeMemRow f ++ freeSwapRow f)

/-- The read loop of `cmdCat.execute`. -/
def catLoop (context : commandContext) : Nat → World → Option Result
  | 0, _ => none
  | fuel + 1, w =>
    match ReadLine context.stdin w with
    | (line, none, w1) =>
      match Fprint w1 Sink.stdout (line ++ "\n".toList) with
      | (some writeErr, w2) => some (context.result 1 (some writeErr) w2)
      | (none, w2) => catLoop context fuel w2
    | (_, some readErr, w1) =>
      if readErr = GoError.EOF then some (context.result 0 none w1)
      else some (context.result 1 (some readErr) w1)

/-- The method `cmdCat.execute`. -/
def cmdCat_execute (fuel : Nat) (context : commandContext) (w : World) : Option Result :=
  match context.args with
  | _ :: _ :: _ =>
    let (err, w1) := Fprint w Sink.stderr (context.hostname ++ ": cat: 文件操作未实现\n".toList)
    some (context.result 1 err w1)
  | _ => catLoop context fuel w

/-! ## The virtual shell -/

/-- The local variables of `cmdShell.execute` that live across loop iterations. -/
structure ShellState where
  currentCwd : Str
  currentHostname : Str
  lastStatus : Nat
  deriving DecidableEq, Repr

/-- The prompt built at the top of each iteration of the shell loop. -/
def shellPrompt (user currentHostname currentCwd : Str) : Str :=
  let homeDir := "/home/".toList ++ user
  let promptCwd :=
    if HasPrefix currentCwd homeDir then
      if currentCwd = homeDir then "~".toList
      else "~".toList ++ TrimPrefix currentCwd homeDir
    else currentCwd
  let promptSymbol := if user = "root".toList then "#".toList else "$".toList
  user ++ "@".toList ++ currentHostname ++ ":".toList ++ promptCwd ++ promptSymbol ++
    " ".toList

/-- The state in which `cmdShell.execute` enters its loop. -/
def shellInit (w : World) : ShellState :=
  { currentCwd := "/home/guest/".toList, currentHostname := globalHostname w,
    lastStatus := 0 }

/-- How one iteration of the shell loop ends: the shell returns, or the loop goes on. -/
inductive ShellStep where
  | done (r : Result)
  | next (st : ShellState) (w : World)

mutual

/-- Dynamic dispatch of `execute` on a command value. -/
def execute : Nat → command → commandContext → World → Option Result
  | 0, _, _, _ => none
  | fuel + 1, cmd, context, w =>
    match cmd with
    | command.cmdShell => cmdShell_loop fuel context (shellInit w) w
    | command.cmdSu => cmdSu_execute fuel context w
    | command.cmdCat => cmdCat_execute fuel context w
    | command.cmdTrue => some (cmdTrue_execute context w)
    | command.cmdFalse => some (cmdFalse_execute context w)
    | command.cmdEcho => some (cmdEcho_execute context w)
    | command.cmdUname => some (cmdUname_execute context w)
    | command.cmdPwd => some (cmdPwd_execute context w)
    | command.cmdId => some (cmdId_execute context w)
    | command.cmdHostname => some (cmdHostname_execute context w)
    | command.cmdCd => some (cmdCd_execute context w)
    | command.cmdExit => some (cmdExit_execute context w)
    | command.cmdWpm => some (cmdWpm_execute context w)
    | command.cmdApt => some (cmdApt_execute context w)
    | command.cmdAptGet => some (cmdAptGet_execute context w)
    | command.cmdLscpu => some (cmdLscpu_execute context w)
    | command.cmdFree => some (cmdFree_execute context w)
    | command.cmdLspci => some (cmdLspci_execute context w)

/-- The method `cmdSu.execute`: a new shell for the new user, with a nil working
directory pointer and an empty hostname; the caller's cell is not touched. -/
def cmdSu_execute : Nat → commandContext → World → Option Result
  | 0, _, _ => none
  | fuel + 1, context, w =>
    let newContextUser := match context.args with
      | _ :: user :: _ => user
      | _ => "root".toList
    let subShellContext : commandContext :=
      { args := shellProgram, stdin := context.stdin, pty := context.pty,
        user := newContextUser, cwd := none, hostname := [] }
    match cmdShell_loop fuel subShellContext (shellInit w) w with
    | none => none
    | some r => some { r with cwd := context.cwd }

/-- One iteration of the loop of `cmdShell.execute`, from the state `st`. -/
def cmdShell_step : Nat → commandContext → ShellState → World → Option ShellStep
  | 0, _, _, _ => none
  | fuel + 1, context, st, w =>
    let prompt := shellPrompt context.user st.currentHostname st.currentCwd
    let (promptErr, w1) : Option GoError × World :=
      if context.pty then Fprint w Sink.stdout prompt else (none, w)
    match promptErr with
    | some err => some (ShellStep.done (context.result st.lastStatus (some err) w1))
    | none =>
      match ReadLine context.stdin w1 with
      | (_, some err, w2) =>
        if err = GoError.EOF then
          let w3 := if context.pty then (Fprint w2 Sink.stdout "exit\n".toList).2 else w2
          some (ShellStep.done (context.result st.lastStatus none w3))
        else some (ShellStep.done (context.result st.lastStatus (some err) w2))
      | (line, none, w2) =>
        match Fields line with
        | [] => some (ShellStep.next st w2)
        | name :: rest =>
          let newContext : commandContext :=
            { context with args := name :: rest, cwd := some st.currentCwd,
                           hostname := st.currentHostname }
          match commands name with
          | none =>
            match Fprint w2 Sink.stderr
                (st.currentHostname ++ ": ".toList ++ name ++ ": 指令不存在\n".toList) with
            | (some err, w3) => some (ShellStep.done (context.result 127 (some err) w3))
            | (none, w3) => some (ShellStep.next { st with lastStatus := 127 } w3)
          | some cmd =>
            match execute fuel cmd newContext w2 with
            | none => none
            | some r =>
              if name = "exit".toList then
                some (ShellStep.done (context.result r.status none r.world))
              else
                let w3 := match r.err with
                  | some err =>
                    (Fprint r.world Sink.stderr
                      ("Shell execution error: ".toList ++ err.Error ++ "\n".toList)).2
                  | none => r.world
                some (ShellStep.next
                  { st with currentCwd := r.cwd.getD st.currentCwd,
                            lastStatus := r.status } w3)

/-- The loop of `cmdShell.execute`, entered in the state `st`. -/
def cmdShell_loop : Nat → commandContext → ShellState → World → Option Result
  | 0, _, _, _ => none
  | fuel + 1, context, st, w =>
    match cmdShell_step fuel context st w with
    | none => none
    | some (ShellStep.done r) => some r
    | some (ShellStep.next st1 w1) => cmdShell_loop fuel context st1 w1

end

/-- The method `cmdShell.execute`. -/
def cmdShell_execute (fuel : Nat) (context : commandContext) (w : World) : Option Result :=
  cmdShell_loop fuel context (shellInit w) w

/-- The function `executeProgram`. -/
def executeProgram (fuel : Nat) (context : commandContext) (w : World) : Option Result :=
  match context.args with
  | [] => some (context.result 0 none w)
  | name :: _ =>
    match commands name with
    | none =>
      let (err, w1) := Fprint w Sink.stderr
        (context.hostname ++ ": ".toList ++ name ++ ": 指令不存在\n".toList)
      some (context.result 127 err w1)
    | some cmd => execute fuel cmd context w

/-! ## Wire encoding (model of `ssh.Marshal` and `ssh.Unmarshal`) -/

/-- Big-endian encoding of a `uint32`: `ssh.Marshal` of a struct with one such field. -/
def marshalUint32 (n : Nat) : List Nat :=
  [n / 2 ^ 24 % 256, n / 2 ^ 16 % 256, n / 2 ^ 8 % 256, n % 256]

/-- Reads a big-endian `uint32` off the front of a payload. -/
def parseUint32 : List Nat → Option (Nat × List Nat)
  | b0 :: b1 :: b2 :: b3 :: rest =>
    some (b0 % 256 * 2 ^ 24 + b1 % 256 * 2 ^ 16 + b2 % 256 * 2 ^ 8 + b3 % 256, rest)
  | _ => none

/-- Reads a length-prefixed byte string off the front of a payload. -/
def parseBytes (data : List Nat) : Option (List Nat × List Nat) :=
  match parseUint32 data with
  | none => none
  | some (length, rest) =>
    if rest.length < length then none else some (rest.take length, rest.drop length)

/-- Reads a boolean (one byte) off the front of a payload. -/
def parseBool : List Nat → Option (Bool × List Nat)
  | b :: rest => some (b % 256 ≠ 0, rest)
  | [] => none

/-- Whether a byte is a UTF-8 continuation byte. -/
def isCont (b : Nat) : Bool := 0x80 ≤ b && b ≤ 0xBF

/-- Model of `utf8.DecodeRune`: the first code point of a byte string and the number of
bytes it takes; a byte that starts no valid UTF-8 sequence stands for U+FFFD and
takes one byte. -/
def DecodeRune : List Nat → Char × Nat
  | [] => (Char.ofNat 0xFFFD, 0)
  | b0 :: tl =>
    if b0 < 0x80 then (Char.ofNat b0, 1)
    else
      match tl with
      | [] => (Char.ofNat 0xFFFD, 1)
      | b1 :: tl1 =>
        if 0xC2 ≤ b0 ∧ b0 ≤ 0xDF ∧ isCont b1 then
          (Char.ofNat ((b0 - 0xC0) * 64 + (b1 - 0x80)), 2)
        else
          match tl1 with
          | [] => (Char.ofNat 0xFFFD, 1)
          | b2 :: tl2 =>
            if 0xE0 ≤ b0 ∧ b0 ≤ 0xEF ∧ isCont b1 ∧ isCont b2 ∧ (b0 = 0xE0 → 0xA0 ≤ b1) ∧
                (b0 = 0xED → b1 ≤ 0x9F) then
              (Char.ofNat ((b0 - 0xE0) * 4096 + (b1 - 0x80) * 64 + (b2 - 0x80)), 3)
            else
              match tl2 with
              | [] => (Char.ofNat 0xFFFD, 1)
              | b3 :: _ =>
                if 0xF0 ≤ b0 ∧ b0 ≤ 0xF4 ∧ isCont b1 ∧ isCont b2 ∧ isCont b3 ∧
                    (b0 = 0xF0 → 0x90 ≤ b1) ∧ (b0 = 0xF4 → b1 ≤ 0x8F) then
                  (Char.ofNat ((b0 - 0xF0) * 262144 + (b1 - 0x80) * 4096 +
                    (b2 - 0x80) * 64 + (b3 - 0x80)), 4)
                else (Char.ofNat 0xFFFD, 1)

/-- Decodes at most `fuel` code points off the front of a byte string. -/
def decodeRunes : Nat → List Nat → Str
  | 0, _ => []
  | fuel + 1, data =>
    match data with
    | [] => []
    | _ :: _ => (DecodeRune data).1 :: decodeRunes fuel (data.drop (DecodeRune data).2)

/-- The code points of a byte string, read as Go reads a string rune by rune. A string
has no more code points than bytes. -/
def decodeUTF8 (data : List Nat) : Str := decodeRunes data.length data

/-- Reads a string field off the front of a payload. -/
def parseString (data : List Nat) : Option (Str × List Nat) :=
  match parseBytes data with
  | none => none
  | some (bytes, rest) => some (decodeUTF8 bytes, rest)

/-- The struct `ptyRequestPayload`. -/
structure ptyRequestPayload where
  Term : Str
  Width : Nat
  Height : Nat
  PixelWidth : Nat
  PixelHeight : Nat
  Modes : Str
  deriving DecidableEq, Repr

/-- The struct `execRequestPayload`. -/
structure execRequestPayload where
  Command : Str
  deriving DecidableEq, Repr

/-- The struct `envRequestPayload`. -/
structure envRequestPayload where
  Name : Str
  Value : Str
  deriving DecidableEq, Repr

/-- The struct `subsystemRequestPayload`. -/
structure subsystemRequestPayload where
  Subsystem : Str
  deriving DecidableEq, Repr

/-- The struct `windowChangeRequestPayload`. -/
structure windowChangeRequestPayload where
  Width : Nat
  Height : Nat
  PixelWidth : Nat
  PixelHeight : Nat
  deriving DecidableEq, Repr

/-- Model of `ssh.Unmarshal` into a `ptyRequestPayload`: the fields in order, and no
byte left over. -/
def unmarshalPty (data : List Nat) : Option ptyRequestPayload := do
  let (term, d1) ← parseString data
  let (width, d2) ← parseUint32 d1
  let (height, d3) ← parseUint32 d2
  let (pixelWidth, d4) ← parseUint32 d3
  let (pixelHeight, d5) ← parseUint32 d4
  let (modes, d6) ← parseString d5
  if d6 = [] then
    some { Term := term, Width := width, Height := height, PixelWidth := pixelWidth,
           PixelHeight := pixelHeight, Modes := modes }
  else none

/-- Model of `ssh.Unmarshal` into an `execRequestPayload`. -/
def unmarshalExec (data : List Nat) : Option execRequestPayload := do
  let (command, d1) ← parseString data
  if d1 = [] then some { Command := command } else none

/-- Model of `ssh.Unmarshal` into an `envRequestPayload`. -/
def unmarshalEnv (data : List Nat) : Option envRequestPayload := do
  let (name, d1) ← parseString data
  let (value, d2) ← parseString d1
  if d2 = [] then some { Name := name, Value := value } else none

/-- Model of `ssh.Unmarshal` into a `subsystemRequestPayload`. -/
def unmarshalSubsystem (data : List Nat) : Option subsystemRequestPayload := do
  let (subsystem, d1) ← parseString data
  if d1 = [] then some { Subsystem := subsystem } else none

/-- Model of `ssh.Unmarshal` into a `windowChangeRequestPayload`. -/
def unmarshalWindowChange (data : List Nat) : Option windowChangeRequestPayload := do
  let (width, d1) ← parseUint32 data
  let (height, d2) ← parseUint32 d1
  let (pixelWidth, d3) ← parseUint32 d2
  let (pixelHeight, d4) ← parseUint32 d3
  if d4 = [] then
    some { Width := width, Height := height, PixelWidth := pixelWidth,
           PixelHeight := pixelHeight }
  else none

/-! ## The program goroutine of `handleProgram` -/

/-- The value of `context.RemoteAddr()`: a `*net.TCPAddr` with the text of its IP, or
another address; `full` is the result of its `String` method. -/
inductive RemoteAddr where
  | tcp (ip : Str) (full : Str)
  | other (full : Str)
  deriving DecidableEq, Repr

/-- A message handed to `warningLogger`. -/
def World.warn (w : World) (msg : Str) : World :=
  { w with warnings := w.warnings ++ [msg] }

/-- An attempted effect whose failure is only logged as a warning. -/
def World.attemptOrWarn (w : World) (e : Event) (label : Str) : World :=
  match w.attempt e with
  | (some err, w1) => w1.warn (label ++ err.Error)
  | (none, w1) => w1

/-- The body of the goroutine of `handleProgram` after `executeProgram` has returned
`(result, err)`, without the deferred close of the input queue. -/
def handleProgram_finish (pty : Bool) (result : Nat) (err : Option GoError) (w : World) :
    World :=
  if err ≠ none ∧ err ≠ some GoError.EOF ∧ err ≠ some GoError.clientEOF then
    w.warn ("执行程序时出错: ".toList ++ (err.map GoError.Error).getD [])
  else
    let w1 :=
      if err = some GoError.clientEOF ∧ pty = true then
        w.attemptOrWarn (Event.channelWrite "\r\n".toList) "发送CRLF时出错: ".toList
      else w
    let w2 := w1.attemptOrWarn
      (Event.sendRequest "exit-status".toList false (marshalUint32 result))
      "发送退出状态时出错: ".toList
    let w3 :=
      if (pty = true ∧ err = some GoError.clientEOF) ∨ err = none then
        w2.attemptOrWarn (Event.sendRequest "eow@openssh.com".toList false [])
          "发送EOW时出错: ".toList
      else w2
    let w4 := w3.attemptOrWarn Event.closeWrite "发送EOF时出错: ".toList
    w4.attemptOrWarn Event.close "关闭通道时出错: ".toList

/-- The deferred `close(context.inputChan)`. -/
def World.closeInputChan (w : World) : World :=
  { w with trace := w.trace ++ [Event.closeInputChan] }

/-- The hostname `handleProgram` puts in the command context. -/
def remoteAddrStr : RemoteAddr → Str
  | RemoteAddr.tcp ip _ => ip
  | RemoteAddr.other full => full

/-- The command context built by the goroutine of `handleProgram`. -/
def handleProgram_context (pty : Bool) (user : Str) (addr : RemoteAddr)
    (program : List Str) : commandContext :=
  { args := program,
    stdin := if pty then readLiner.terminalReadLiner else readLiner.scannerReadLiner,
    pty := pty, user := user, cwd := none, hostname := remoteAddrStr addr }

/-- The goroutine started by `handleProgram`: run the program, perform the termination
protocol, close the input queue. -/
def handleProgram_goroutine (fuel : Nat) (pty : Bool) (user : Str) (addr : RemoteAddr)
    (program : List Str) (w : World) : Option World :=
  match executeProgram fuel (handleProgram_context pty user addr program) w with
  | none => none
  | some r => some (handleProgram_finish pty r.status r.err r.world).closeInputChan

/-- The goroutine started by an `exec` request with an empty command. -/
def exec_emptyGoroutine (w : World) : World :=
  let (_, w1) := w.attempt (Event.sendRequest "exit-status".toList false (marshalUint32 0))
  let (_, w2) := w1.attempt Event.closeWrite
  let (_, w3) := w2.attempt Event.close
  w3.closeInputChan

/-! ## The request handler of the session channel -/

/-- The log entries made by the `logEntry` methods of the payload structs. -/
inductive logEntry where
  | ptyLog (channelID : Nat) (Terminal : Str) (Width Height : Nat)
  | shellLog (channelID : Nat)
  | execLog (channelID : Nat) (Command : Str)
  | envLog (channelID : Nat) (Name Value : Str)
  | subsystemLog (channelID : Nat) (Subsystem : Str)
  | windowChangeLog (channelID : Nat) (Width Height : Nat)
  deriving DecidableEq, Repr

/-- The goroutines the request handler starts. -/
inductive Goroutine where
  | program (args : List Str)
  | emptyExec
  deriving DecidableEq, Repr

/-- What the request handler does besides changing its flags. -/
inductive Action where
  | metricInc (label : Str)
  | reply (ok : Bool) (payload : List Nat)
  | logEvent (entry : logEntry)
  | warning (msg : Str)
  | go (g : Goroutine)
  deriving DecidableEq, Repr

/-- The struct `ssh.Request`. -/
structure Request where
  Type_ : Str
  WantReply : Bool
  Payload : List Nat
  deriving DecidableEq, Repr

/-- The struct `sessionContext` as the request handler sees it: the user, address and
channel identifier of the embedded `channelContext`, the two flags, the actions
performed so far, and the errors the coming replies will return. -/
structure sessionContext where
  user : Str
  remoteAddr : RemoteAddr
  channelID : Nat
  active : Bool
  pty : Bool
  actions : List Action
  replyOutcome : Nat → Option GoError

/-- Record an action of the handler. -/
def sessionContext.act (context : sessionContext) (a : Action) : sessionContext :=
  { context with actions := context.actions ++ [a] }

/-- Model of `request.Reply`: nothing is sent, and no error returned, unless the client
asked for a reply. -/
def sessionContext.Reply (context : sessionContext) (request : Request) (ok : Bool)
    (payload : List Nat) : Option GoError × sessionContext :=
  if request.WantReply then
    (context.replyOutcome context.actions.length, context.act (Action.reply ok payload))
  else (none, context)

/-- The error `ssh.Unmarshal` returns for a payload it cannot decode. -/
def unmarshalError : GoError := GoError.other "ssh: unmarshal error".toList

/-- The method `sessionContext.handleProgram`, up to the start of its goroutine. -/
def handleProgram (context : sessionContext) (program : List Str) : sessionContext :=
  { context with active := true }.act (Action.go (Goroutine.program program))

/-- A request denied with `_ = request.Reply(false, nil)` and the error `msg`. -/
def sessionContext.deny (context : sessionContext) (request : Request) (err : GoError) :
    Option GoError × sessionContext :=
  (some err, (context.Reply request false []).2)

/-- The method `sessionContext.handleRequest`. -/
def handleRequest (context : sessionContext) (request : Request) :
    Option GoError × sessionContext :=
  if request.Type_ = "pty-req".toList then
    let context := context.act (Action.metricInc request.Type_)
    if context.active then
      context.deny request (GoError.other "pty请求必须在shell或exec之前".toList)
    else if context.pty then
      context.deny request (GoError.other "已请求一个pty".toList)
    else
      match unmarshalPty request.Payload with
      | none => context.deny request unmarshalError
      | some payload =>
        let context := context.act (Action.logEvent
          (logEntry.ptyLog context.channelID payload.Term payload.Width payload.Height))
        match context.Reply request true [] with
        | (some err, context) => (some err, context)
        | (none, context) => (none, { context with pty := true })
  else if request.Type_ = "shell".toList then
    let context := context.act (Action.metricInc request.Type_)
    if context.active then
      context.deny request (GoError.other "会话已激活".toList)
    else if request.Payload.length ≠ 0 then
      context.deny request (GoError.other "无效的请求负载".toList)
    else
      let context := context.act (Action.logEvent (logEntry.shellLog context.channelID))
      match context.Reply request true [] with
      | (some err, context) => (some err, context)
      | (none, context) => (none, handleProgram context shellProgram)
  else if request.Type_ = "exec".toList then
    let context := context.act (Action.metricInc request.Type_)
    if context.active then
      context.deny request (GoError.other "会话已激活".toList)
    else
      match unmarshalExec request.Payload with
      | none => context.deny request unmarshalError
      | some payload =>
        let context := context.act (Action.logEvent
          (logEntry.execLog context.channelID payload.Command))
        match context.Reply request true [] with
        | (some err, context) => (some err, context)
        | (none, context) =>
          let program := Fields payload.Command
          if program.length = 0 then (none, context.act (Action.go Goroutine.emptyExec))
          else (none, handleProgram context program)
  else if request.Type_ = "env".toList then
    let context := context.act (Action.metricInc request.Type_)
    if context.active then
      context.deny request (GoError.other "环境变量必须在shell或exec之前设置".toList)
    else
      match unmarshalEnv request.Payload with
      | none => context.deny request unmarshalError
      | some payload =>
        let context := context.act (Action.logEvent
          (logEntry.envLog context.channelID payload.Name payload.Value))
        context.Reply request true []
  else if request.Type_ = "subsystem".toList then
    let context := context.act (Action.metricInc request.Type_)
    if context.active then
      context.deny request (GoError.other "会话已激活".toList)
    else
      match unmarshalSubsystem request.Payload with
      | none => context.deny request unmarshalError
      | some payload =>
        let context := context.act (Action.logEvent
          (logEntry.subsystemLog context.channelID payload.Subsystem))
        let context := context.act (Action.warning
          ("不支持的子系统请求: ".toList ++ payload.Subsystem))
        context.Reply request false []
  else if request.Type_ = "window-change".toList then
    let context := context.act (Action.metricInc request.Type_)
    if !context.pty then
      context.deny request (GoError.other "窗口更改仅适用于pty会话".toList)
    else
      match unmarshalWindowChange request.Payload with
      | none => (some unmarshalError, context)
      | some payload =>
        (none, context.act (Action.logEvent
          (logEntry.windowChangeLog context.channelID payload.Width payload.Height)))
  else if request.Type_ = "x11-req".toList then
    let context := context.act (Action.metricInc request.Type_)
    let context := context.act (Action.warning "不支持X11转发请求".toList)
    context.Reply request false []
  else if request.Type_ = "signal".toList then
    let context := context.act (Action.metricInc request.Type_)
    (none, context.act (Action.warning "不支持信号请求".toList))
  else
    let context := context.act (Action.metricInc "unknown".toList)
    let context := context.act (Action.warning
      ("不支持的会话请求类型: ".toList ++ request.Type_))
    context.Reply request false []

/-! ## Definitions used to state the properties -/

/-- Path elements that are non-empty and free of separators. -/
def GoodElems (stack : List Str) : Prop := ∀ x ∈ stack, x ≠ [] ∧ '/' ∉ x

/-- A path is inside the jail when it is the jail root or lies below it. -/
def inJail (path : Str) : Bool := path = baseDir || HasPrefix path (baseDir ++ ['/'])

/-- A world whose effects all succeed, with the given scanner tokens and terminal
lines, an empty input queue that the event loop never reads, and all draws zero. -/
def quietWorld (scanLines : List Str) (termLines : List (Str × Option GoError)) : World :=
  { trace := [], outcome := fun _ => none, scanLines := scanLines, scanErr := none,
    termLines := termLines, inputChan := [], drained := fun _ => 0, reads := 0,
    rand := fun _ => 0, randIdx := 0, hostDraw := 0, warnings := [] }

/-- The address used in the concrete evaluations. -/
def sampleAddr : RemoteAddr := RemoteAddr.tcp "192.0.2.7".toList "192.0.2.7:50022".toList

/-- The guest context a session hands to the shell, reading from the scanner. -/
def guestShellContext : commandContext :=
  { args := shellProgram, stdin := readLiner.scannerReadLiner, pty := false,
    user := "guest".toList, cwd := none, hostname := remoteAddrStr sampleAddr }

/-- The invariant claimed for the shell's working directory: a normalized path that
is the jail root or below it. -/
def cwdInvariant (path : Str) : Bool := Clean path = path && inJail path

/-- A string is a decimal numeral: one digit or more, nothing else. -/
def isNumeral (s : Str) : Bool := s ≠ [] && s.all Char.isDigit

/-- The line `exit` or `exit a`. -/
def exitLine : Option Str → Str
  | none => "exit".toList
  | some a => "exit ".toList ++ a

/-- The shell, in the state `st` and the world `w`, gets past its prompt and reads
`line` without error, which leaves the world `w2`. -/
def shellReads (context : commandContext) (st : ShellState) (w : World) (line : Str)
    (w2 : World) : Prop :=
  ∃ w1, (if context.pty then
          Fprint w Sink.stdout (shellPrompt context.user st.currentHostname st.currentCwd)
        else (none, w)) = (none, w1) ∧
    ReadLine context.stdin w1 = (line, none, w2)

/-- The status the shell is to return on `exit` or `exit a`: the value of a numeral
below `2 ^ 32`, 255 for any other argument, 0 without argument. -/
def exitStatusSpec : Option Str → Nat
  | none => 0
  | some a => if isNumeral a ∧ numeralValue a < 2 ^ 32 then numeralValue a % 2 ^ 32 else 255

/-- What `exit` or `exit a` writes: a complaint on stderr when the argument is not a
numeral below `2 ^ 32`, nothing otherwise. -/
def exitWritesSpec (hostname : Str) : Option Str → List Event
  | none => []
  | some a =>
    if isNumeral a ∧ numeralValue a < 2 ^ 32 then []
    else [Event.write Sink.stderr
      (hostname ++ ": exit: ".toList ++ a ++ ": numeric argument required\n".toList)]

/-- The channel actions of the termination protocol for the outcome `(status, err)`:
the CRLF write only after a client disconnect in PTY mode, the exit status, the
end-of-write notice only after a client disconnect in PTY mode or without error, then
the two closes. -/
def protocolActions (pty : Bool) (status : Nat) (err : Option GoError) : List Event :=
  (if err = some GoError.clientEOF ∧ pty = true then [Event.channelWrite "\r\n".toList]
    else []) ++
  [Event.sendRequest "exit-status".toList false (marshalUint32 status)] ++
  (if (pty = true ∧ err = some GoError.clientEOF) ∨ err = none then
      [Event.sendRequest "eow@openssh.com".toList false []]
    else []) ++
  [Event.closeWrite, Event.close]

/-- A world in which every effect fails with a broken pipe. -/
def brokenWorld : World :=
  { quietWorld [] [] with outcome := fun _ => some (GoError.other "broken pipe".toList) }

/-- The wire payload of the request `exec` for the command `echo hello world`. -/
def echoPayload : List Nat :=
  [0, 0, 0, 16, 101, 99, 104, 111, 32, 104, 101, 108, 108, 111, 32, 119, 111, 114, 108, 100]

/-- A fresh session channel of the guest user, whose replies all succeed. -/
def freshSession : sessionContext :=
  { user := "guest".toList, remoteAddr := sampleAddr, channelID := 0, active := false,
    pty := false, actions := [], replyOutcome := fun _ => none }

/-- The wire payload of a `pty-req` request: terminal `xterm`, 80 columns, 24 rows, no
pixel sizes, no modes. -/
def ptyPayload : List Nat :=
  [0, 0, 0, 5, 120, 116, 101, 114, 109, 0, 0, 0, 80, 0, 0, 0, 24, 0, 0, 0, 0, 0, 0, 0, 0,
   0, 0, 0, 0]

/-- The session channel after a first, well-formed `pty-req` request. -/
def ptySession : sessionContext :=
  (handleRequest freshSession ⟨"pty-req".toList, true, ptyPayload⟩).2

/-- The states of a channel on which the requests `requests` are handled in order,
from `context` on: the state before each request and the final state. -/
def handleRequests (context : sessionContext) : List Request → List sessionContext
  | [] => [context]
  | request :: rest => context :: handleRequests (handleRequest context request).2 rest

/-- Number of steps of a run in which `flag` goes from false to true. -/
def rises (flag : sessionContext → Bool) : List sessionContext → Nat
  | a :: b :: rest => (if flag a = false ∧ flag b = true then 1 else 0) + rises flag (b :: rest)
  | _ => 0

/-- Number of steps of a run in which `flag` goes from true to false. -/
def falls (flag : sessionContext → Bool) : List sessionContext → Nat
  | a :: b :: rest => (if flag a = true ∧ flag b = false then 1 else 0) + falls flag (b :: rest)
  | _ => 0

/-- Number of steps of a run in which `pty` goes from false to true although `active`
was already true. -/
def ptyRisesWhileActive : List sessionContext → Nat
  | a :: b :: rest =>
    (if a.pty = false ∧ b.pty = true ∧ a.active = true then 1 else 0) +
      ptyRisesWhileActive (b :: rest)
  | _ => 0

/-- The channel after the requests `requests` have been handled in order. -/
def handleAll (context : sessionContext) (requests : List Request) : sessionContext :=
  requests.foldl (fun c r => (handleRequest c r).2) context

/-- The goroutines started among the actions of a channel, in order. -/
def started (actions : List Action) : List Goroutine :=
  actions.filterMap (fun a => match a with
    | Action.go g => some g
    | _ => none)

/-- The command contexts handed to `executeProgram` by the program goroutines started
on a channel. -/
def launched (context : sessionContext) : List commandContext :=
  (started context.actions).filterMap (fun g => match g with
    | Goroutine.program program =>
      some (handleProgram_context context.pty context.user context.remoteAddr program)
    | Goroutine.emptyExec => none)

/-- Two channel states that agree on what a program gets to see: the user, the
address, the two flags and the goroutines started. -/
def Agree (c1 c2 : sessionContext) : Prop :=
  c1.user = c2.user ∧ c1.remoteAddr = c2.remoteAddr ∧ c1.active = c2.active ∧
    c1.pty = c2.pty ∧ started c1.actions = started c2.actions

/-- The wire payload of an `env` request for the variable `LANG` with the value `C`. -/
def envPayload : List Nat := [0, 0, 0, 4, 76, 65, 78, 71, 0, 0, 0, 1, 67]

/-- Whether a request is an `env` request. -/
def isEnv (request : Request) : Bool := request.Type_ = "env".toList

/-- Number of results the reader `rd` can still deliver without reaching the end of
its input. -/
def remaining (rd : readLiner) (w : World) : Nat :=
  match rd with
  | readLiner.scannerReadLiner => w.scanLines.length
  | readLiner.terminalReadLiner => w.termLines.length

/-- The world `w1` comes after the world `w`: its trace continues the trace of `w`,
its input is what is left of the input of `w`, and the oracles are the same. -/
def World.Extends (w w1 : World) : Prop :=
  (∃ tail, w1.trace = w.trace ++ tail) ∧ w1.outcome = w.outcome ∧ w1.scanErr = w.scanErr ∧
    w1.hostDraw = w.hostDraw ∧ w1.scanLines <:+ w.scanLines ∧ w1.termLines <:+ w.termLines

/-- The world in which the shell reads a line, in an iteration that starts in the state
`st` and the world `w`: the prompt has been written when there is a pty. -/
def afterPrompt (context : commandContext) (st : ShellState) (w : World) : World :=
  (if context.pty then
    Fprint w Sink.stdout (shellPrompt context.user st.currentHostname st.currentCwd)
  else (none, w)).2

/-- With at most `n` results left to read, the loop of the shell returns, the same
result for every fuel from `4 * n + 2` on, in a world that comes after its first
prompt. -/
def LoopTotal (n : Nat) : Prop :=
  ∀ (context : commandContext) (st : ShellState) (w : World),
    remaining context.stdin w ≤ n →
    ∃ r, (∀ fuel, 4 * n + 2 ≤ fuel → cmdShell_loop fuel context st w = some r) ∧
      (afterPrompt context st w).Extends r.world

/-- With at most `n` results left to read, every command returns, the same result for
every fuel from `4 * n + 4` on. -/
def ExecTotal (n : Nat) : Prop :=
  ∀ (cmd : command) (context : commandContext) (w : World),
    remaining context.stdin w ≤ n →
    ∃ r, (∀ fuel, 4 * n + 4 ≤ fuel → execute fuel cmd context w = some r) ∧
      w.Extends r.world

theorem splitOn_ne_nil (sep : Char) (s : Str) : splitOn sep s ≠ [] := by
  cases s with
  | nil => simp [splitOn]
  | cons c cs =>
    simp only [splitOn]
    split
    · simp
    · split <;> simp

theorem splitOn_no_sep (sep : Char) (s : Str) : ∀ x ∈ splitOn sep s, sep ∉ x := by
  induction s with
  | nil => simp [splitOn]
  | cons c cs ih =>
    simp only [splitOn]
    split
    · simp
    · rename_i w ws hw
      rw [hw] at ih
      split
      · intro x hx
        simp only [List.mem_cons] at hx
        rcases hx with rfl | rfl | hx
        · simp
        · exact ih _ (by simp)
        · exact ih _ (by simp [hx])
      · rename_i hne
        intro x hx
        simp only [List.mem_cons] at hx
        rcases hx with rfl | hx
        · have := ih w (by simp)
          simp only [List.mem_cons, not_or]
          exact ⟨fun h => hne h.symm, this⟩
        · exact ih _ (by simp [hx])


theorem cleanStep_good (rooted : Bool) (stack : List Str) (elem : Str)
    (hs : GoodElems stack) (he : '/' ∉ elem) : GoodElems (cleanStep rooted stack elem) := by
  unfold cleanStep
  split
  · exact hs
  · split
    · split
      · split
        · intro x hx; simp at hx
        · intro x hx
          simp only [List.mem_singleton] at hx
          subst hx
          decide
      · rename_i top rest
        split
        · intro x hx
          simp only [List.mem_cons] at hx
          rcases hx with rfl | hx
          · decide
          · exact hs x (by simpa using hx)
        · intro x hx
          exact hs x (by simp [hx])
    · rename_i h1 h2
      intro x hx
      simp only [List.mem_cons] at hx
      rcases hx with rfl | hx
      · exact ⟨fun h => h1 (Or.inl h), he⟩
      · exact hs x hx

theorem foldl_cleanStep_good (rooted : Bool) (elems : List Str) (stack : List Str)
    (hs : GoodElems stack) (he : ∀ x ∈ elems, '/' ∉ x) :
    GoodElems (elems.foldl (cleanStep rooted) stack) := by
  induction elems generalizing stack with
  | nil => simpa using hs
  | cons e es ih =>
    simp only [List.foldl_cons]
    exact ih _ (cleanStep_good rooted stack e hs (he e (by simp))) (fun x hx => he x (by simp [hx]))

theorem cleanElems_good (rooted : Bool) (path : Str) : GoodElems (cleanElems rooted path) := by
  unfold cleanElems
  intro x hx
  rw [List.mem_reverse] at hx
  exact foldl_cleanStep_good rooted _ [] (by intro x hx; simp at hx) (splitOn_no_sep '/' path) x hx

theorem Join_head_of_good (elems : List Str) (h : GoodElems elems) (hne : elems ≠ []) :
    ∃ c rest, Join elems ['/'] = c :: rest ∧ c ≠ '/' := by
  cases elems with
  | nil => exact absurd rfl hne
  | cons x xs =>
    have hx := h x (by simp)
    cases x with
    | nil => exact absurd rfl hx.1
    | cons c cs =>
      refine ⟨c, ?_⟩
      have hc : c ≠ '/' := by
        intro hc; apply hx.2; simp [hc]
      cases xs with
      | nil => exact ⟨cs, by simp [Join, List.intercalate], hc⟩
      | cons y ys => exact ⟨_, by simp [Join, List.intercalate, List.intersperse]; rfl, hc⟩

theorem Clean_eq_root_IsAbs (path : Str) (h : Clean path = ['/']) : IsAbs path = true := by
  unfold Clean at h
  split at h
  · exact absurd h (by decide)
  · split at h
    · rename_i hp; exact hp
    · split at h
      · exact absurd h (by decide)
      · rename_i hne
        obtain ⟨c, rest, hj, hc⟩ := Join_head_of_good _ (cleanElems_good false path) hne
        rw [hj] at h
        injection h with h1 h2
        exact absurd h1 hc


/-! ## The `cd` command -/

/-- C1, evaluated at the failing input: from the working directory `/home/guest/`, the
call `cd /home/guestX` returns status 0 and commits `/home/guestX`, a sibling of the
jail root that is neither the root nor below it. -/
theorem cmdCd_commits_sibling (w : World) :
    (cmdCd_execute
      { args := ["cd".toList, "/home/guestX".toList], stdin := readLiner.scannerReadLiner,
        pty := false, user := "guest".toList, cwd := some "/home/guest/".toList,
        hostname := "vm-000000".toList } w).status = 0 ∧
    (cmdCd_execute
      { args := ["cd".toList, "/home/guestX".toList], stdin := readLiner.scannerReadLiner,
        pty := false, user := "guest".toList, cwd := some "/home/guest/".toList,
        hostname := "vm-000000".toList } w).cwd = some "/home/guestX".toList ∧
    inJail "/home/guestX".toList = false := by
  exact ⟨rfl, rfl, by decide⟩

/-- C2: a `cd` whose target is `/` or normalizes to `/` is rejected whatever the
working directory: status 1, one message line written to stderr, and the
working-directory cell left as it was. -/
theorem cmdCd_rejects_root (context : commandContext) (w : World) (currentDir name target : Str)
    (rest : List Str) (hcwd : context.cwd = some currentDir)
    (hargs : context.args = name :: target :: rest) (hroot : Clean target = "/".toList) :
    cmdCd_execute context w =
      { status := 1, err := w.outcome w.trace.length, cwd := some currentDir,
        world := { w with trace := w.trace ++ [Event.write Sink.stderr
          (context.hostname ++ ": cd: ".toList ++ target ++
            ": 权限不足或目录不存在\n".toList)] } } := by
  have habs : IsAbs target = true := Clean_eq_root_IsAbs target hroot
  have hbase : HasPrefix "/".toList baseDir = false := by decide
  have hne : "/".toList ≠ baseDir := by decide
  simp [cmdCd_execute, hcwd, hargs, habs, hroot, hbase, hne, Fprint, World.attempt,
    commandContext.result]

/-- C2 at a concrete input: `cd /..` from `/home/guest/sub`. -/
theorem cmdCd_rejects_root_witness :
    cmdCd_execute
      { args := ["cd".toList, "/..".toList], stdin := readLiner.scannerReadLiner,
        pty := false, user := "guest".toList, cwd := some "/home/guest/sub".toList,
        hostname := "vm-000000".toList } (quietWorld [] []) =
      { status := 1, err := none, cwd := some "/home/guest/sub".toList,
        world := { quietWorld [] [] with trace := [Event.write Sink.stderr
          "vm-000000: cd: /..: 权限不足或目录不存在\n".toList] } } :=
  cmdCd_rejects_root _ (quietWorld [] []) "/home/guest/sub".toList "cd".toList "/..".toList []
    rfl rfl (by decide)

/-! ## The shell -/

/-- C3, evaluated at the failing inputs: the shell starts in `/home/guest/`, which is
not normalized (it ends in a slash), and a first `pwd` prints it; after the line
`cd /home/guestX` the working directory is outside the jail, as the next `pwd` shows. -/
theorem cmdShell_cwd_breaks_invariant :
    (∀ w : World, cwdInvariant (shellInit w).currentCwd = false) ∧
    cwdInvariant "/home/guestX".toList = false ∧
    (cmdShell_execute 8 guestShellContext
      (quietWorld ["pwd".toList, "cd /home/guestX".toList, "pwd".toList] [])).map
        (fun r => r.world.trace) =
      some [Event.write Sink.stdout "/home/guest/\n".toList,
            Event.write Sink.stdout "/home/guestX\n".toList] := by
  refine ⟨fun w => ?_, by decide, by decide⟩
  show cwdInvariant "/home/guest/".toList = false
  decide

theorem Fields_nil : Fields [] = [] := rfl

theorem Fields_cons (c : Char) (cs : Str) :
    Fields (c :: cs) =
      if isSpace c then Fields cs
      else
        match cs with
        | [] => [[c]]
        | d :: _ =>
          if isSpace d then [c] :: Fields cs
          else
            match Fields cs with
            | w :: ws => (c :: w) :: ws
            | [] => [[c]] := by
  cases cs <;> rfl

theorem Fields_single (a : Str) (ha : a ≠ []) (hsp : ∀ c ∈ a, isSpace c = false) :
    Fields a = [a] := by
  induction a with
  | nil => exact absurd rfl ha
  | cons c cs ih =>
    have hc : isSpace c = false := hsp c (by simp)
    cases cs with
    | nil =>
      rw [Fields_cons]
      simp only [hc]
      rfl
    | cons d ds =>
      have hd : isSpace d = false := hsp d (by simp)
      have := ih (by simp) (fun x hx => hsp x (by simp [hx]))
      rw [Fields_cons]
      simp only [hc, hd, this]
      rfl

theorem Fields_exitLine (arg : Option Str)
    (harg : ∀ a, arg = some a → a ≠ [] ∧ ∀ c ∈ a, isSpace c = false) :
    Fields (exitLine arg) = "exit".toList :: arg.toList := by
  cases arg with
  | none => decide
  | some a =>
    obtain ⟨ha, hsp⟩ := harg a rfl
    have h := Fields_single a ha hsp
    have he : isSpace 'e' = false := by decide
    have hx : isSpace 'x' = false := by decide
    have hi : isSpace 'i' = false := by decide
    have ht : isSpace 't' = false := by decide
    have hs : isSpace ' ' = true := by decide
    show Fields ('e' :: 'x' :: 'i' :: 't' :: ' ' :: a) = _
    rw [Fields_cons, Fields_cons, Fields_cons, Fields_cons, Fields_cons]
    simp only [he, hx, hi, ht, hs, h]
    rfl

theorem commands_exit : commands "exit".toList = some command.cmdExit := by decide

theorem cmdShell_exit_step (fuel : Nat) (context : commandContext) (st : ShellState)
    (w w2 : World) (line : Str) (args : List Str)
    (hread : shellReads context st w line w2)
    (hfields : Fields line = "exit".toList :: args) :
    cmdShell_loop (fuel + 3) context st w =
      some (context.result
        (cmdExit_execute { context with args := "exit".toList :: args,
                                        cwd := some st.currentCwd,
                                        hostname := st.currentHostname } w2).status none
        (cmdExit_execute { context with args := "exit".toList :: args,
                                        cwd := some st.currentCwd,
                                        hostname := st.currentHostname } w2).world) := by
  obtain ⟨w1, hp, hr⟩ := hread
  rw [cmdShell_loop, cmdShell_step]
  simp only [hp, hr, hfields, commands_exit, execute]
  simp

theorem ParseUint32_eq (a : Str) :
    ParseUint32 a =
      if isNumeral a ∧ numeralValue a < 2 ^ 32 then some (numeralValue a) else none := by
  unfold ParseUint32 isNumeral
  by_cases h1 : a = []
  · simp [h1]
  · by_cases h2 : a.all Char.isDigit = true
    · by_cases h3 : numeralValue a < 2 ^ 32
      · simp [h1, h2, h3]
      · simp [h1, h2, h3]
    · simp [h1, h2]

/-- C4, as amended: when the shell reads the line `exit a`, with `a` one token, it
returns without error, and its status is the value of `a` when `a` is a decimal
numeral below `2 ^ 32`, and 255, with a complaint written to stderr, when `a` is not a
numeral or its value does not fit in 32 bits; on the line `exit` the status is 0. -/
theorem cmdShell_exit_status (fuel : Nat) (context : commandContext) (st : ShellState)
    (w w2 : World) (arg : Option Str)
    (harg : ∀ a, arg = some a → a ≠ [] ∧ ∀ c ∈ a, isSpace c = false)
    (hread : shellReads context st w (exitLine arg) w2) :
    ∃ r, cmdShell_loop (fuel + 3) context st w = some r ∧ r.err = none ∧
      r.status = exitStatusSpec arg ∧
      r.world.trace = w2.trace ++ exitWritesSpec st.currentHostname arg := by
  refine ⟨_, cmdShell_exit_step fuel context st w w2 _ _ hread (Fields_exitLine arg harg),
    rfl, ?_, ?_⟩
  · cases arg with
    | none => rfl
    | some a =>
      by_cases hc : isNumeral a = true ∧ numeralValue a < 2 ^ 32
      · have hp : ParseUint32 a = some (numeralValue a) := by rw [ParseUint32_eq, if_pos hc]
        simp only [Option.toList, cmdExit_execute, hp, commandContext.result, exitStatusSpec,
          if_pos hc]
      · have hp : ParseUint32 a = none := by rw [ParseUint32_eq, if_neg hc]
        simp only [Option.toList, cmdExit_execute, hp, commandContext.result, exitStatusSpec,
          if_neg hc]
  · cases arg with
    | none => simp [cmdExit_execute, commandContext.result, exitWritesSpec]
    | some a =>
      by_cases hc : isNumeral a = true ∧ numeralValue a < 2 ^ 32
      · have hp : ParseUint32 a = some (numeralValue a) := by rw [ParseUint32_eq, if_pos hc]
        simp only [Option.toList, cmdExit_execute, hp, commandContext.result, exitWritesSpec,
          if_pos hc, List.append_nil]
      · have hp : ParseUint32 a = none := by rw [ParseUint32_eq, if_neg hc]
        simp only [Option.toList, cmdExit_execute, hp, commandContext.result, exitWritesSpec,
          if_neg hc, Fprint, World.attempt]

/-- C4 (amended) at a concrete input: the line `exit 42` read from the scanner. -/
theorem cmdShell_exit_status_witness :
    ∃ r, cmdShell_loop 3 guestShellContext (shellInit (quietWorld ["exit 42".toList] []))
        (quietWorld ["exit 42".toList] []) = some r ∧ r.err = none ∧
      r.status = 42 ∧
      r.world.trace = [] :=
  cmdShell_exit_status 0 guestShellContext (shellInit (quietWorld ["exit 42".toList] []))
    (quietWorld ["exit 42".toList] [])
    ({ quietWorld [] [] with inputChan := ["exit 42".toList], reads := 1 })
    (some "42".toList)
    (fun a h => by cases h; decide)
    ⟨quietWorld ["exit 42".toList] [], rfl, rfl⟩

/-- C4 as stated fails: on the line `exit 4294967296` the shell returns 255, while
`4294967296 mod 2 ^ 32` is 0. -/
theorem cmdShell_exit_overflow :
    (cmdShell_execute 3 guestShellContext (quietWorld ["exit 4294967296".toList] [])).map
        (fun r => (r.status, r.err)) = some (255, none) ∧
    isNumeral "4294967296".toList = true ∧
    numeralValue "4294967296".toList % 2 ^ 32 = 0 := by
  refine ⟨by decide, by decide, by decide⟩


/-! ## Dispatch -/

/-- C5: for an argument vector whose first element is no key of the registry,
`executeProgram` returns status 127 after a single write to stderr, of one line
holding the name; nothing goes to stdout and no command runs, since the result does
not depend on the fuel and is there even with none. -/
theorem executeProgram_unknown (fuel : Nat) (context : commandContext) (w : World)
    (name : Str) (rest : List Str) (hargs : context.args = name :: rest)
    (hname : commands name = none) :
    executeProgram fuel context w =
      some { status := 127, err := w.outcome w.trace.length, cwd := context.cwd,
             world := { w with trace := w.trace ++ [Event.write Sink.stderr
               (context.hostname ++ ": ".toList ++ name ++ ": 指令不存在\n".toList)] } } ∧
    (('\n' ∉ context.hostname ∧ '\n' ∉ name) →
      (context.hostname ++ ": ".toList ++ name ++ ": 指令不存在\n".toList).count '\n' = 1) := by
  constructor
  · simp only [executeProgram, hargs, hname, Fprint, World.attempt, commandContext.result]
  · rintro ⟨h1, h2⟩
    simp only [List.count_append, List.count_eq_zero_of_not_mem h1,
      List.count_eq_zero_of_not_mem h2]
    decide

/-- C5 at a concrete input: the unknown command `frobnicate`, with no fuel. -/
theorem executeProgram_unknown_witness :
    executeProgram 0 { guestShellContext with args := ["frobnicate".toList, "-x".toList] }
        (quietWorld [] []) =
      some { status := 127, err := none, cwd := none,
             world := { quietWorld [] [] with trace := [Event.write Sink.stderr
               "192.0.2.7: frobnicate: 指令不存在\n".toList] } } ∧
    (('\n' ∉ "192.0.2.7".toList ∧ '\n' ∉ "frobnicate".toList) →
      ("192.0.2.7".toList ++ ": ".toList ++ "frobnicate".toList ++
        ": 指令不存在\n".toList).count '\n' = 1) :=
  executeProgram_unknown 0 { guestShellContext with args := ["frobnicate".toList, "-x".toList] }
    (quietWorld [] []) "frobnicate".toList ["-x".toList] rfl (by decide)


/-! ## The introspection commands -/

theorem printOrFail_trace (context : commandContext) (w : World) (data : Str) :
    (context.printOrFail w data).world.trace = w.trace ++ [Event.write Sink.stdout data] := by
  simp only [commandContext.printOrFail, Fprint, World.attempt]
  cases w.outcome w.trace.length <;> rfl

theorem printOrFail_status (context : commandContext) (w : World) (data : Str)
    (hok : ∀ n, w.outcome n = none) : (context.printOrFail w data).status = 0 := by
  simp only [commandContext.printOrFail, Fprint, World.attempt, hok, commandContext.result]

/-- C6 as stated fails: `pwd` run at top level by an `exec` request, with every write
succeeding, returns status 1 after a complaint on stderr. -/
theorem exec_pwd_status_one :
    (executeProgram 1 (handleProgram_context false "guest".toList sampleAddr ["pwd".toList])
      (quietWorld [] [])).map (fun r => (r.status, r.world.trace)) =
      some (1, [Event.write Sink.stderr "pwd: 无法获取当前工作目录\n".toList]) := by
  decide

theorem printOrFail_ok (context : commandContext) (w : World) (data : Str)
    (hok : ∀ n, w.outcome n = none) :
    context.printOrFail w data =
      { status := 0, err := none, cwd := context.cwd,
        world := { w with trace := w.trace ++ [Event.write Sink.stdout data] } } := by
  simp only [commandContext.printOrFail, Fprint, World.attempt, hok, commandContext.result]

/-- C6, as amended: when all writes succeed, `hostname`, `id` and `uname` write their
line to stdout and return status 0 without error in every context; `pwd` does so, with
the content of the working-directory cell, in a context that has one, and in a context
without one, as is the context `handleProgram` builds for `exec`, it writes the line
`pwd: 无法获取当前工作目录` to stderr, nothing to stdout, and returns status 1. -/
theorem introspection_status (fuel : Nat) (context : commandContext) (w : World)
    (hok : ∀ n, w.outcome n = none) :
    (execute (fuel + 1) command.cmdHostname context w).map
        (fun r => (r.status, r.err, r.world.trace)) =
      some (0, none, w.trace ++ [Event.write Sink.stdout (context.hostname ++ "\n".toList)]) ∧
    (execute (fuel + 1) command.cmdId context w).map
        (fun r => (r.status, r.err, r.world.trace)) =
      some (0, none,
        w.trace ++ [Event.write Sink.stdout (idOutput context.user ++ "\n".toList)]) ∧
    (execute (fuel + 1) command.cmdUname context w).map
        (fun r => (r.status, r.err, r.world.trace)) =
      some (0, none,
        w.trace ++ [Event.write Sink.stdout (unameOutput context ++ "\n".toList)]) ∧
    (execute (fuel + 1) command.cmdPwd context w).map
        (fun r => (r.status, r.err, r.world.trace)) =
      some (match context.cwd with
        | none =>
          (1, none, w.trace ++ [Event.write Sink.stderr "pwd: 无法获取当前工作目录\n".toList])
        | some dir => (0, none, w.trace ++ [Event.write Sink.stdout (dir ++ "\n".toList)])) ∧
    (∀ (pty : Bool) (user : Str) (addr : RemoteAddr) (rest : List Str),
      (executeProgram (fuel + 1) (handleProgram_context pty user addr ("pwd".toList :: rest))
        w).map (fun r => (r.status, r.err, r.world.trace)) =
      some (1, none,
        w.trace ++ [Event.write Sink.stderr "pwd: 无法获取当前工作目录\n".toList])) := by
  refine ⟨?_, ?_, ?_, ?_, ?_⟩
  · simp only [execute, Option.map, cmdHostname_execute, printOrFail_ok _ _ _ hok]
  · simp only [execute, Option.map, cmdId_execute, printOrFail_ok _ _ _ hok]
  · simp only [execute, Option.map, cmdUname_execute, printOrFail_ok _ _ _ hok]
  · cases hc : context.cwd with
    | none =>
      simp only [execute, Option.map, cmdPwd_execute, hc, commandContext.result, Fprint,
        World.attempt, hok]
    | some c =>
      simp only [execute, Option.map, cmdPwd_execute, hc, printOrFail_ok _ _ _ hok]
  · intro pty user addr rest
    have hp : commands "pwd".toList = some command.cmdPwd := by decide
    simp only [executeProgram, handleProgram_context, hp, execute, Option.map, cmdPwd_execute,
      commandContext.result, Fprint, World.attempt, hok]

/-- C6 (amended) at a concrete input: the guest context, which has no
working-directory cell, and a world without failures. -/
theorem introspection_status_witness :
    (execute 1 command.cmdHostname guestShellContext (quietWorld [] [])).map
        (fun r => (r.status, r.err, r.world.trace)) =
      some (0, none, [Event.write Sink.stdout "192.0.2.7\n".toList]) ∧
    (execute 1 command.cmdId guestShellContext (quietWorld [] [])).map
        (fun r => (r.status, r.err, r.world.trace)) =
      some (0, none,
        [Event.write Sink.stdout "uid=1000(guest) gid=1000(guest) groups=1000(guest)\n".toList]) ∧
    (execute 1 command.cmdPwd guestShellContext (quietWorld [] [])).map
        (fun r => (r.status, r.err, r.world.trace)) =
      some (1, none, [Event.write Sink.stderr "pwd: 无法获取当前工作目录\n".toList]) ∧
    (execute 1 command.cmdPwd { guestShellContext with cwd := some "/home/guest/".toList }
      (quietWorld [] [])).map (fun r => (r.status, r.err, r.world.trace)) =
      some (0, none, [Event.write Sink.stdout "/home/guest/\n".toList]) ∧
    (executeProgram 1 (handleProgram_context true "root".toList sampleAddr ["pwd".toList])
      (quietWorld [] [])).map (fun r => (r.status, r.err, r.world.trace)) =
      some (1, none, [Event.write Sink.stderr "pwd: 无法获取当前工作目录\n".toList]) :=
  ⟨(introspection_status 0 guestShellContext (quietWorld [] []) (fun _ => rfl)).1,
    (introspection_status 0 guestShellContext (quietWorld [] []) (fun _ => rfl)).2.1,
    (introspection_status 0 guestShellContext (quietWorld [] []) (fun _ => rfl)).2.2.2.1,
    (introspection_status 0 { guestShellContext with cwd := some "/home/guest/".toList }
      (quietWorld [] []) (fun _ => rfl)).2.2.2.1,
    (introspection_status 0 guestShellContext (quietWorld [] []) (fun _ => rfl)).2.2.2.2
      true "root".toList sampleAddr []⟩

/-! ## The `free` command -/

theorem freeFigures_consistent (r1 r2 r3 r4 : Nat) (h1 : r1 < 50000) (h3 : r3 < 30000) :
    (freeFigures r1 r2 r3 r4).usedMem + (freeFigures r1 r2 r3 r4).freeMem +
        (freeFigures r1 r2 r3 r4).buffCache = (freeFigures r1 r2 r3 r4).totalMem ∧
    0 ≤ (freeFigures r1 r2 r3 r4).freeMem ∧
    (freeFigures r1 r2 r3 r4).availableMem ≤
      (freeFigures r1 r2 r3 r4).totalMem - (freeFigures r1 r2 r3 r4).usedMem +
        (freeFigures r1 r2 r3 r4).sharedMem := by
  simp only [freeFigures]
  generalize Int.tdiv (100000 + (r3 : Int)) 3 = q
  refine ⟨?_, ?_, ?_⟩
  · split <;> omega
  · split <;> omega
  · split <;> omega

theorem digitChar_props (k : Nat) (h : k < 10) :
    isSpace (Nat.digitChar k) = false ∧ (Nat.digitChar k).isDigit = true ∧
      (Nat.digitChar k).toNat - '0'.toNat = k := by
  interval_cases k <;> decide

theorem numeralValue_snoc (s : Str) (c : Char) :
    numeralValue (s ++ [c]) = 10 * numeralValue s + (c.toNat - '0'.toNat) := by
  simp only [numeralValue, List.foldl_append, List.foldl_cons, List.foldl_nil]

theorem toDigitsCore_spec (fuel : Nat) :
    ∀ (n : Nat) (ds : List Char), n < fuel →
      ∃ pre, Nat.toDigitsCore 10 fuel n ds = pre ++ ds ∧ pre ≠ [] ∧
        (∀ c ∈ pre, isSpace c = false ∧ c.isDigit = true) ∧ numeralValue pre = n := by
  induction fuel with
  | zero => intro n ds h; omega
  | succ fuel ih =>
    intro n ds h
    obtain ⟨d1, d2, d3⟩ := digitChar_props (n % 10) (Nat.mod_lt _ (by decide))
    rw [Nat.toDigitsCore]
    by_cases h0 : n / 10 = 0
    · simp only [h0, if_true]
      refine ⟨[Nat.digitChar (n % 10)], rfl, by simp, ?_, ?_⟩
      · intro c hc
        simp only [List.mem_singleton] at hc
        subst hc
        exact ⟨d1, d2⟩
      · have : numeralValue [Nat.digitChar (n % 10)] =
            10 * 0 + ((Nat.digitChar (n % 10)).toNat - '0'.toNat) := rfl
        rw [this, d3]
        omega
    · simp only [h0, if_false]
      obtain ⟨pre, hp, _, hd, hv⟩ := ih (n / 10) (Nat.digitChar (n % 10) :: ds) (by omega)
      refine ⟨pre ++ [Nat.digitChar (n % 10)], ?_, by simp, ?_, ?_⟩
      · rw [hp, List.append_assoc, List.singleton_append]
      · intro c hc
        rcases List.mem_append.mp hc with hc | hc
        · exact hd c hc
        · simp only [List.mem_singleton] at hc
          subst hc
          exact ⟨d1, d2⟩
      · rw [numeralValue_snoc, hv, d3]
        omega

theorem decimal_spec (n : Nat) :
    decimal n ≠ [] ∧ (∀ c ∈ decimal n, isSpace c = false ∧ c.isDigit = true) ∧
      numeralValue (decimal n) = n := by
  obtain ⟨pre, hp, h1, h2, h3⟩ := toDigitsCore_spec (n + 1) n [] (Nat.lt_succ_self n)
  have : decimal n = pre := by
    rw [decimal, Nat.toDigits, hp, List.append_nil]
  rw [this]
  exact ⟨h1, h2, h3⟩

theorem Fields_ne_nil (d : Char) (t : Str) (hd : isSpace d = false) : Fields (d :: t) ≠ [] := by
  rw [Fields_cons, if_neg (by simp [hd])]
  cases t with
  | nil => simp
  | cons e t2 =>
    by_cases he : isSpace e = true
    · simp [he]
    · simp only [he]
      cases Fields (e :: t2) <;> simp

theorem Fields_space_cons (c : Char) (s : Str) (hc : isSpace c = true) :
    Fields (c :: s) = Fields s := by
  rw [Fields_cons]
  simp only [hc, if_true]

theorem Fields_append_space (c : Char) (s : Str) (hc : isSpace c = true) :
    ∀ a : Str, Fields (a ++ c :: s) = Fields a ++ Fields s := by
  intro a
  induction a with
  | nil => simp [Fields_space_cons c s hc, Fields_nil]
  | cons x a2 ih =>
    by_cases hx : isSpace x = true
    · rw [List.cons_append, Fields_space_cons x _ hx, Fields_space_cons x _ hx, ih]
    · have hx2 : isSpace x = false := by simpa using hx
      cases a2 with
      | nil =>
        have h1 : Fields [x] = [[x]] := by rw [Fields_cons]; simp only [hx2]; rfl
        have h2 : Fields (x :: c :: s) = [x] :: Fields (c :: s) := by
          rw [Fields_cons]; simp only [hx2, hc]; rfl
        rw [List.cons_append, List.nil_append, h2, h1, Fields_space_cons c s hc]
        rfl
      | cons d a3 =>
        by_cases hd : isSpace d = true
        · have h1 : Fields (x :: d :: a3) = [x] :: Fields (d :: a3) := by
            rw [Fields_cons]; simp only [hx2, hd]; rfl
          have h2 : Fields (x :: (d :: a3 ++ c :: s)) = [x] :: Fields (d :: a3 ++ c :: s) := by
            rw [List.cons_append, Fields_cons]; simp only [hx2, hd]; rfl
          rw [List.cons_append, h2, ih, h1]
          rfl
        · have hd2 : isSpace d = false := by simpa using hd
          obtain ⟨w, ws, hw⟩ : ∃ w ws, Fields (d :: a3) = w :: ws := by
            cases h : Fields (d :: a3) with
            | nil => exact absurd h (Fields_ne_nil d a3 hd2)
            | cons w ws => exact ⟨w, ws, rfl⟩
          have h1 : Fields (x :: d :: a3) = (x :: w) :: ws := by
            rw [Fields_cons]; simp only [hx2, hd2, hw]; rfl
          have h2 : Fields (x :: (d :: a3 ++ c :: s)) = (x :: w) :: (ws ++ Fields s) := by
            rw [List.cons_append, Fields_cons]
            simp only [hx2, hd2]
            rw [← List.cons_append, ih, hw]
            rfl
          rw [List.cons_append, h2, h1]
          rfl

theorem Fields_spaces (k : Nat) (s : Str) : Fields (List.replicate k ' ' ++ s) = Fields s := by
  induction k with
  | zero => rfl
  | succ k ih =>
    rw [List.replicate_succ, List.cons_append, Fields_space_cons ' ' _ (by decide), ih]

theorem Fields_padLeft (a : Str) (ha : a ≠ []) (hsp : ∀ c ∈ a, isSpace c = false) :
    Fields (padLeft 10 ' ' a) = [a] := by
  rw [padLeft, Fields_spaces, Fields_single a ha hsp]

theorem Join_cons_cons (e e2 : Str) (es : List Str) :
    Join (e :: e2 :: es) " ".toList = e ++ ' ' :: Join (e2 :: es) " ".toList := by
  simp [Join, List.intercalate, List.intersperse]

theorem Fields_Join (es : List Str) :
    Fields (Join es " ".toList) = (es.map Fields).flatten := by
  induction es with
  | nil => rfl
  | cons e es ih =>
    cases es with
    | nil => simp [Join, List.intercalate, List.intersperse]
    | cons e2 es2 =>
      rw [Join_cons_cons, Fields_append_space ' ' _ (by decide), ih]
      simp

theorem Fields_fmtInt (i : Int) (hi : 0 ≤ i) :
    Fields (padLeft 10 ' ' (fmtInt i)) = [decimal i.toNat] := by
  have h : fmtInt i = decimal i.toNat := by
    rw [fmtInt, if_neg (by omega)]
  rw [h]
  exact Fields_padLeft _ (decimal_spec _).1 (fun c hc => ((decimal_spec _).2.1 c hc).1)

theorem Fields_freeOutput (f : FreeFigures)
    (h1 : 0 ≤ f.totalMem) (h2 : 0 ≤ f.usedMem) (h3 : 0 ≤ f.freeMem) (h4 : 0 ≤ f.sharedMem)
    (h5 : 0 ≤ f.buffCache) (h6 : 0 ≤ f.availableMem) (h7 : 0 ≤ f.totalSwap)
    (h8 : 0 ≤ f.usedSwap) (h9 : 0 ≤ f.freeSwap) :
    Fields (freeHeader ++ freeMemRow f ++ freeSwapRow f) =
      ["total".toList, "used".toList, "free".toList, "shared".toList, "buff/cache".toList,
       "%!(EXTRA".toList, "string=available)Mem:".toList,
       decimal f.totalMem.toNat, decimal f.usedMem.toNat, decimal f.freeMem.toNat,
       decimal f.sharedMem.toNat, decimal f.buffCache.toNat, decimal f.availableMem.toNat,
       "Swap:".toList, decimal f.totalSwap.toNat, decimal f.usedSwap.toNat,
       decimal f.freeSwap.toNat] := by
  have hH : freeHeader =
      "                total       used       free     shared buff/cache\n%!(EXTRA".toList ++
        ' ' :: "string=available)".toList := by decide
  have hM : freeMemRow f = padRight 10 "Mem:".toList ++ ' ' ::
      (Join ([f.totalMem, f.usedMem, f.freeMem, f.sharedMem, f.buffCache,
        f.availableMem].map (fun i => padLeft 10 ' ' (fmtInt i))) " ".toList ++
        '\n' :: []) := by
    rw [freeMemRow, List.map_cons, Join_cons_cons, List.append_assoc, List.cons_append]
    rfl
  have hS : freeSwapRow f = padRight 10 "Swap:".toList ++ ' ' ::
      (Join ([f.totalSwap, f.usedSwap, f.freeSwap].map
        (fun i => padLeft 10 ' ' (fmtInt i))) " ".toList ++ '\n' :: []) := by
    rw [freeSwapRow, List.map_cons, Join_cons_cons, List.append_assoc, List.cons_append]
    rfl
  have hsp : isSpace ' ' = true := by decide
  have hnl : isSpace '\n' = true := by decide
  have hout : freeHeader ++ freeMemRow f ++ freeSwapRow f =
      "                total       used       free     shared buff/cache\n%!(EXTRA".toList ++
        ' ' :: (("string=available)".toList ++ padRight 10 "Mem:".toList) ++
        ' ' :: (Join ([f.totalMem, f.usedMem, f.freeMem, f.sharedMem, f.buffCache,
            f.availableMem].map (fun i => padLeft 10 ' ' (fmtInt i))) " ".toList ++
        '\n' :: (padRight 10 "Swap:".toList ++
        ' ' :: (Join ([f.totalSwap, f.usedSwap, f.freeSwap].map
            (fun i => padLeft 10 ' ' (fmtInt i))) " ".toList ++
        '\n' :: [])))) := by
    rw [hH, hM, hS]
    simp only [List.append_assoc, List.cons_append, List.nil_append]
  rw [hout, Fields_append_space ' ' _ hsp
      "                total       used       free     shared buff/cache\n%!(EXTRA".toList,
    Fields_append_space ' ' _ hsp ("string=available)".toList ++ padRight 10 "Mem:".toList),
    Fields_append_space '\n' _ hnl (Join _ _),
    Fields_append_space ' ' _ hsp (padRight 10 "Swap:".toList),
    Fields_append_space '\n' _ hnl (Join _ _), Fields_Join, Fields_Join]
  simp only [List.map_cons, List.map_nil, Fields_fmtInt _ h1, Fields_fmtInt _ h2,
    Fields_fmtInt _ h3, Fields_fmtInt _ h4, Fields_fmtInt _ h5, Fields_fmtInt _ h6,
    Fields_fmtInt _ h7, Fields_fmtInt _ h8, Fields_fmtInt _ h9, Fields_nil]
  have e1 : Fields
      "                total       used       free     shared buff/cache\n%!(EXTRA".toList =
      ["total".toList, "used".toList, "free".toList, "shared".toList, "buff/cache".toList,
       "%!(EXTRA".toList] := by decide
  have e2 : Fields ("string=available)".toList ++ padRight 10 "Mem:".toList) =
      ["string=available)Mem:".toList] := by decide
  have e3 : Fields (padRight 10 "Swap:".toList) = ["Swap:".toList] := by decide
  rw [e1, e2, e3]
  rfl

theorem freeFigures_nonneg (r1 r2 r3 r4 : Nat) (h1 : r1 < 50000) (h3 : r3 < 30000)
    (h4 : r4 < 5000) :
    0 ≤ (freeFigures r1 r2 r3 r4).totalMem ∧ 0 ≤ (freeFigures r1 r2 r3 r4).usedMem ∧
    0 ≤ (freeFigures r1 r2 r3 r4).freeMem ∧ 0 ≤ (freeFigures r1 r2 r3 r4).sharedMem ∧
    0 ≤ (freeFigures r1 r2 r3 r4).buffCache ∧ 0 ≤ (freeFigures r1 r2 r3 r4).availableMem ∧
    0 ≤ (freeFigures r1 r2 r3 r4).totalSwap ∧ 0 ≤ (freeFigures r1 r2 r3 r4).usedSwap ∧
    0 ≤ (freeFigures r1 r2 r3 r4).freeSwap := by
  have hq : 0 ≤ Int.tdiv (100000 + (r3 : Int)) 3 := Int.tdiv_nonneg (by omega) (by omega)
  simp only [freeFigures]
  generalize Int.tdiv (100000 + (r3 : Int)) 3 = q at hq
  refine ⟨by omega, by omega, ?_, by omega, by omega, ?_, by omega, by omega, by omega⟩
  · split <;> omega
  · split <;> split <;> omega

theorem isNumeral_decimal (n : Nat) : isNumeral (decimal n) = true := by
  obtain ⟨h1, h2, _⟩ := decimal_spec n
  simp only [isNumeral, Bool.and_eq_true, decide_eq_true_eq, List.all_eq_true]
  exact ⟨h1, fun c hc => (h2 c hc).2⟩

/-- C7: whatever the draws, `free` writes one text to stdout whose fields are the five
column titles, the note of `fmt` about the extra operand `available` run together with
the label `Mem:`, the six numerals of the `Mem:` row, the label `Swap:` and its three
numerals. The numerals of the `Mem:` row, read as total, used, free, shared,
buff/cache and available, satisfy `used + free + buff/cache = total = 524288`, with
`free` a numeral without sign, and `available ≤ total - used + shared`; used, shared
and buff/cache lie in `[150000, 200000)`, `[5000, 7000)` and `[100000, 130000)`. They
are the figures computed from the draws. -/
theorem cmdFree_consistent (context : commandContext) (w : World) :
    (cmdFree_execute context w).world.trace = w.trace ++ [Event.write Sink.stdout
      (freeHeader ++ freeMemRow (cmdFree_figures w).1 ++ freeSwapRow (cmdFree_figures w).1)] ∧
    (cmdFree_figures w).1.totalMem = 524288 ∧
    (150000 ≤ (cmdFree_figures w).1.usedMem ∧ (cmdFree_figures w).1.usedMem < 200000) ∧
    (5000 ≤ (cmdFree_figures w).1.sharedMem ∧ (cmdFree_figures w).1.sharedMem < 7000) ∧
    (100000 ≤ (cmdFree_figures w).1.buffCache ∧ (cmdFree_figures w).1.buffCache < 130000) ∧
    (cmdFree_figures w).1.usedMem + (cmdFree_figures w).1.freeMem +
      (cmdFree_figures w).1.buffCache = (cmdFree_figures w).1.totalMem ∧
    0 ≤ (cmdFree_figures w).1.freeMem ∧
    (cmdFree_figures w).1.availableMem ≤
      (cmdFree_figures w).1.totalMem - (cmdFree_figures w).1.usedMem +
        (cmdFree_figures w).1.sharedMem ∧
    (∃ out total used free shared buff avail swapTotal swapUsed swapFree : Str,
      (cmdFree_execute context w).world.trace = w.trace ++ [Event.write Sink.stdout out] ∧
      Fields out =
        ["total".toList, "used".toList, "free".toList, "shared".toList,
         "buff/cache".toList, "%!(EXTRA".toList, "string=available)Mem:".toList,
         total, used, free, shared, buff, avail,
         "Swap:".toList, swapTotal, swapUsed, swapFree] ∧
      (isNumeral total = true ∧ isNumeral used = true ∧ isNumeral free = true ∧
        isNumeral shared = true ∧ isNumeral buff = true ∧ isNumeral avail = true) ∧
      ((numeralValue total : Int) = (cmdFree_figures w).1.totalMem ∧
        (numeralValue used : Int) = (cmdFree_figures w).1.usedMem ∧
        (numeralValue free : Int) = (cmdFree_figures w).1.freeMem ∧
        (numeralValue shared : Int) = (cmdFree_figures w).1.sharedMem ∧
        (numeralValue buff : Int) = (cmdFree_figures w).1.buffCache ∧
        (numeralValue avail : Int) = (cmdFree_figures w).1.availableMem) ∧
      numeralValue total = 524288 ∧
      numeralValue used + numeralValue free + numeralValue buff = numeralValue total ∧
      (numeralValue avail : Int) ≤
        (numeralValue total : Int) - numeralValue used + numeralValue shared ∧
      (150000 ≤ numeralValue used ∧ numeralValue used < 200000) ∧
      (5000 ≤ numeralValue shared ∧ numeralValue shared < 7000) ∧
      (100000 ≤ numeralValue buff ∧ numeralValue buff < 130000)) ∧
    (cmdFree_execute guestShellContext (quietWorld [] [])).world.trace =
      [Event.write Sink.stdout
        ("                total       used       free     shared buff/cache\n".toList ++
         "%!(EXTRA string=available)".toList ++
         "Mem:           524288     150000     274288       5000     100000     307621\n".toList ++
         "Swap:          131072       1000     130072\n".toList)] := by
  have h1 : w.rand w.randIdx % 50000 < 50000 := Nat.mod_lt _ (by decide)
  have h2 : w.rand (w.randIdx + 1) % 2000 < 2000 := Nat.mod_lt _ (by decide)
  have h3 : w.rand (w.randIdx + 1 + 1) % 30000 < 30000 := Nat.mod_lt _ (by decide)
  have h4 : w.rand (w.randIdx + 1 + 1 + 1) % 5000 < 5000 := Nat.mod_lt _ (by decide)
  have hf : (cmdFree_figures w).1 =
      freeFigures (w.rand w.randIdx % 50000) (w.rand (w.randIdx + 1) % 2000)
        (w.rand (w.randIdx + 1 + 1) % 30000) (w.rand (w.randIdx + 1 + 1 + 1) % 5000) := rfl
  obtain ⟨c1, c2, c3⟩ := freeFigures_consistent (w.rand w.randIdx % 50000)
    (w.rand (w.randIdx + 1) % 2000) (w.rand (w.randIdx + 1 + 1) % 30000)
    (w.rand (w.randIdx + 1 + 1 + 1) % 5000) h1 h3
  obtain ⟨n1, n2, n3, n4, n5, n6, n7, n8, n9⟩ := freeFigures_nonneg
    (w.rand w.randIdx % 50000) (w.rand (w.randIdx + 1) % 2000)
    (w.rand (w.randIdx + 1 + 1) % 30000) (w.rand (w.randIdx + 1 + 1 + 1) % 5000) h1 h3 h4
  have ht : (cmdFree_figures w).1.totalMem = 524288 := by rw [hf]; rfl
  have hu : 150000 ≤ (cmdFree_figures w).1.usedMem ∧ (cmdFree_figures w).1.usedMem < 200000 := by
    rw [hf]; simp only [freeFigures]; omega
  have hs : 5000 ≤ (cmdFree_figures w).1.sharedMem ∧ (cmdFree_figures w).1.sharedMem < 7000 := by
    rw [hf]; simp only [freeFigures]; omega
  have hb : 100000 ≤ (cmdFree_figures w).1.buffCache ∧
      (cmdFree_figures w).1.buffCache < 130000 := by
    rw [hf]; simp only [freeFigures]; omega
  rw [← hf] at c1 c2 c3 n1 n2 n3 n4 n5 n6 n7 n8 n9
  refine ⟨printOrFail_trace context (cmdFree_figures w).2 _, ht, hu, hs, hb, c1, c2, c3, ?_,
    rfl⟩
  have v := fun n => (decimal_spec n).2.2
  refine ⟨_, decimal _, decimal _, decimal _, decimal _, decimal _, decimal _, decimal _,
    decimal _, decimal _, printOrFail_trace context (cmdFree_figures w).2 _,
    Fields_freeOutput (cmdFree_figures w).1 n1 n2 n3 n4 n5 n6 n7 n8 n9,
    ⟨isNumeral_decimal _, isNumeral_decimal _, isNumeral_decimal _, isNumeral_decimal _,
      isNumeral_decimal _, isNumeral_decimal _⟩, ?_, ?_, ?_, ?_, ?_, ?_, ?_⟩
  · simp only [v]
    refine ⟨?_, ?_, ?_, ?_, ?_, ?_⟩ <;> omega
  all_goals simp only [v]
  all_goals omega


/-! ## The termination protocol -/

theorem warn_trace (w : World) (msg : Str) : (w.warn msg).trace = w.trace := rfl

theorem warn_outcome (w : World) (msg : Str) : (w.warn msg).outcome = w.outcome := rfl

theorem attemptOrWarn_trace (w : World) (e : Event) (label : Str) :
    (w.attemptOrWarn e label).trace = w.trace ++ [e] := by
  simp only [World.attemptOrWarn, World.attempt]
  cases w.outcome w.trace.length <;> rfl

theorem attemptOrWarn_outcome (w : World) (e : Event) (label : Str) :
    (w.attemptOrWarn e label).outcome = w.outcome := by
  simp only [World.attemptOrWarn, World.attempt]
  cases w.outcome w.trace.length <;> rfl

theorem handleProgram_finish_trace (pty : Bool) (status : Nat) (err : Option GoError)
    (w : World) (herr : err = none ∨ err = some GoError.EOF ∨ err = some GoError.clientEOF) :
    (handleProgram_finish pty status err w).trace = w.trace ++ protocolActions pty status err := by
  have hno : ¬(err ≠ none ∧ err ≠ some GoError.EOF ∧ err ≠ some GoError.clientEOF) := by
    rcases herr with h | h | h <;> simp [h]
  simp only [handleProgram_finish, if_neg hno, protocolActions, attemptOrWarn_trace]
  by_cases h1 : err = some GoError.clientEOF ∧ pty = true <;>
    by_cases h2 : (pty = true ∧ err = some GoError.clientEOF) ∨ err = none <;>
    simp [h1, h2, attemptOrWarn_trace]

theorem handleProgram_finish_error (pty : Bool) (status : Nat) (e : GoError) (w : World)
    (h1 : e ≠ GoError.EOF) (h2 : e ≠ GoError.clientEOF) :
    handleProgram_finish pty status (some e) w =
      w.warn ("执行程序时出错: ".toList ++ e.Error) := by
  have hyes : some e ≠ none ∧ some e ≠ some GoError.EOF ∧ some e ≠ some GoError.clientEOF :=
    ⟨by simp, by simpa using h1, by simpa using h2⟩
  simp only [handleProgram_finish, if_pos hyes, Option.map, Option.getD]

/-- C9: for a program outcome without error, with end-of-input or with a client
disconnect, the effects the goroutine of `handleProgram` attempts after the program
are, in order, the CRLF write (only after a client disconnect in PTY mode), the exit
status, the end-of-write notice (only after a client disconnect in PTY mode or without
error), close-write and close, followed by the close of the input queue; and they are
the same whichever of them fail. -/
theorem handleProgram_protocol (pty : Bool) (status : Nat) (err : Option GoError) (w : World)
    (herr : err = none ∨ err = some GoError.EOF ∨ err = some GoError.clientEOF) :
    (handleProgram_finish pty status err w).trace = w.trace ++ protocolActions pty status err ∧
    (∀ outcome : Nat → Option GoError,
      (handleProgram_finish pty status err { w with outcome := outcome }).trace =
        (handleProgram_finish pty status err w).trace) ∧
    ∀ (fuel : Nat) (user : Str) (addr : RemoteAddr) (program : List Str) (w0 : World)
      (r : Result),
      executeProgram fuel (handleProgram_context pty user addr program) w0 = some r →
      r.status = status → r.err = err →
      (handleProgram_goroutine fuel pty user addr program w0).map (fun w1 => w1.trace) =
        some (r.world.trace ++ protocolActions pty status err ++ [Event.closeInputChan]) := by
  refine ⟨handleProgram_finish_trace pty status err w herr, fun outcome => ?_, ?_⟩
  · rw [handleProgram_finish_trace pty status err w herr,
      handleProgram_finish_trace pty status err _ herr]
  · intro fuel user addr program w0 r hrun hs he
    simp only [handleProgram_goroutine, hrun, Option.map, World.closeInputChan, hs, he,
      handleProgram_finish_trace pty status err r.world herr]

/-- C9 at a concrete input: a client disconnect in PTY mode with status 3, in a world
where every effect fails. -/
theorem handleProgram_protocol_witness :
    (handleProgram_finish true 3 (some GoError.clientEOF) brokenWorld).trace =
      brokenWorld.trace ++
        [Event.channelWrite "\r\n".toList,
         Event.sendRequest "exit-status".toList false [0, 0, 0, 3],
         Event.sendRequest "eow@openssh.com".toList false [],
         Event.closeWrite, Event.close] ∧
    (∀ outcome : Nat → Option GoError,
      (handleProgram_finish true 3 (some GoError.clientEOF)
          { brokenWorld with outcome := outcome }).trace =
        (handleProgram_finish true 3 (some GoError.clientEOF) brokenWorld).trace) ∧
    ∀ (fuel : Nat) (user : Str) (addr : RemoteAddr) (program : List Str) (w0 : World)
      (r : Result),
      executeProgram fuel (handleProgram_context true user addr program) w0 = some r →
      r.status = 3 → r.err = some GoError.clientEOF →
      (handleProgram_goroutine fuel true user addr program w0).map (fun w1 => w1.trace) =
        some (r.world.trace ++ protocolActions true 3 (some GoError.clientEOF) ++
          [Event.closeInputChan]) :=
  handleProgram_protocol true 3 (some GoError.clientEOF) brokenWorld (Or.inr (Or.inr rfl))

/-- C10: when the program returns an error that is neither `io.EOF` nor `clientEOF`,
the goroutine of `handleProgram` logs a warning and attempts no exit status, no
end-of-write notice and no close; the only effect after the program is the close of
the input queue, which in every outcome is the last effect and happens once. -/
theorem handleProgram_error_stops (fuel : Nat) (pty : Bool) (user : Str) (addr : RemoteAddr)
    (program : List Str) (w : World) (r : Result) (e : GoError)
    (hrun : executeProgram fuel (handleProgram_context pty user addr program) w = some r)
    (herr : r.err = some e) (h1 : e ≠ GoError.EOF) (h2 : e ≠ GoError.clientEOF) :
    (∃ w1, handleProgram_goroutine fuel pty user addr program w = some w1 ∧
      w1.trace = r.world.trace ++ [Event.closeInputChan] ∧
      w1.warnings = r.world.warnings ++ ["执行程序时出错: ".toList ++ e.Error]) ∧
    ∀ (status : Nat) (err : Option GoError) (w0 : World),
      ∃ actions, (handleProgram_finish pty status err w0).closeInputChan.trace =
          w0.trace ++ actions ++ [Event.closeInputChan] ∧
        Event.closeInputChan ∉ actions := by
  constructor
  · refine ⟨(handleProgram_finish pty r.status r.err r.world).closeInputChan,
      by simp only [handleProgram_goroutine, hrun], ?_, ?_⟩
    · rw [herr, handleProgram_finish_error pty r.status e r.world h1 h2]; rfl
    · rw [herr, handleProgram_finish_error pty r.status e r.world h1 h2]; rfl
  · intro status err w0
    by_cases hc : err = none ∨ err = some GoError.EOF ∨ err = some GoError.clientEOF
    · refine ⟨protocolActions pty status err, ?_, ?_⟩
      · simp only [World.closeInputChan, handleProgram_finish_trace pty status err w0 hc]
      · simp only [protocolActions]
        by_cases h1 : err = some GoError.clientEOF ∧ pty = true <;>
          by_cases h2 : (pty = true ∧ err = some GoError.clientEOF) ∨ err = none <;>
          simp [h1, h2]
    · cases err with
      | none => exact absurd (Or.inl rfl) hc
      | some e0 =>
        have g1 : e0 ≠ GoError.EOF := fun h => hc (Or.inr (Or.inl (by rw [h])))
        have g2 : e0 ≠ GoError.clientEOF := fun h => hc (Or.inr (Or.inr (by rw [h])))
        refine ⟨[], ?_, by simp⟩
        rw [handleProgram_finish_error pty status e0 w0 g1 g2]
        simp [World.closeInputChan, warn_trace]

/-- C10 at a concrete input: `echo hi` run by `exec` when the write to the channel
fails with a broken pipe. -/
theorem handleProgram_error_stops_witness :
    (∃ w1, handleProgram_goroutine 1 false "guest".toList sampleAddr
        ["echo".toList, "hi".toList] brokenWorld = some w1 ∧
      w1.trace = [Event.write Sink.stdout "hi\n".toList] ++ [Event.closeInputChan] ∧
      w1.warnings = [] ++ ["执行程序时出错: ".toList ++ "broken pipe".toList]) ∧
    ∀ (status : Nat) (err : Option GoError) (w0 : World),
      ∃ actions, (handleProgram_finish false status err w0).closeInputChan.trace =
          w0.trace ++ actions ++ [Event.closeInputChan] ∧
        Event.closeInputChan ∉ actions :=
  handleProgram_error_stops 1 false "guest".toList sampleAddr ["echo".toList, "hi".toList]
    brokenWorld
    { status := 1, err := some (GoError.other "broken pipe".toList), cwd := none,
      world := { brokenWorld with trace := [Event.write Sink.stdout "hi\n".toList] } }
    (GoError.other "broken pipe".toList) rfl rfl (by decide) (by decide)


/-! ## `exec` with an `echo` command -/

theorem attemptOrWarn_ok (w : World) (e : Event) (label : Str)
    (hok : ∀ n, w.outcome n = none) :
    w.attemptOrWarn e label = { w with trace := w.trace ++ [e] } := by
  simp only [World.attemptOrWarn, World.attempt, hok]

theorem executeProgram_echo (fuel : Nat) (context : commandContext) (w : World)
    (words : List Str) (hargs : context.args = "echo".toList :: words)
    (hok : ∀ n, w.outcome n = none) :
    executeProgram (fuel + 1) context w =
      some { status := 0, err := none, cwd := context.cwd,
             world := { w with trace := w.trace ++
               [Event.write Sink.stdout (Join words " ".toList ++ "\n".toList)] } } := by
  have hc : commands "echo".toList = some command.cmdEcho := by decide
  simp only [executeProgram, hargs, hc, execute, cmdEcho_execute, commandContext.printOrFail,
    Fprint, World.attempt, hok, commandContext.result, List.drop_succ_cons, List.drop_zero]

/-- C8: an `exec` request on an inactive channel whose command tokenizes to `echo` and
the words `w1 ... wn`, with all replies and writes succeeding, is accepted and starts
the program; the program writes the words joined by single spaces and a newline to
stdout and returns status 0, and the channel then sees the exit status 0, the
end-of-write notice, close-write and close, in that order, before the input queue is
closed. -/
theorem exec_echo (fuel : Nat) (context : sessionContext) (request : Request)
    (payload : execRequestPayload) (words : List Str) (w : World)
    (htype : request.Type_ = "exec".toList) (hactive : context.active = false)
    (hpayload : unmarshalExec request.Payload = some payload)
    (hfields : Fields payload.Command = "echo".toList :: words)
    (hreply : ∀ n, context.replyOutcome n = none)
    (hok : ∀ n, w.outcome n = none) :
    (handleRequest context request).1 = none ∧
    (handleRequest context request).2.active = true ∧
    (handleRequest context request).2.pty = context.pty ∧
    (handleRequest context request).2.actions =
      context.actions ++
        [Action.metricInc "exec".toList,
         Action.logEvent (logEntry.execLog context.channelID payload.Command)] ++
        (if request.WantReply then [Action.reply true []] else []) ++
        [Action.go (Goroutine.program ("echo".toList :: words))] ∧
    (executeProgram (fuel + 1)
      (handleProgram_context context.pty context.user context.remoteAddr
        ("echo".toList :: words)) w).map (fun r => (r.status, r.err)) = some (0, none) ∧
    (handleProgram_goroutine (fuel + 1) context.pty context.user context.remoteAddr
      ("echo".toList :: words) w).map (fun w1 => w1.trace) =
      some (w.trace ++
        [Event.write Sink.stdout (Join words " ".toList ++ "\n".toList),
         Event.sendRequest "exit-status".toList false [0, 0, 0, 0],
         Event.sendRequest "eow@openssh.com".toList false [],
         Event.closeWrite, Event.close, Event.closeInputChan]) := by
  have hrun := executeProgram_echo fuel
    (handleProgram_context context.pty context.user context.remoteAddr
      ("echo".toList :: words)) w words rfl hok
  have hreq : handleRequest context request =
      (none, handleProgram
        (((context.act (Action.metricInc "exec".toList)).act
          (Action.logEvent (logEntry.execLog context.channelID payload.Command))).Reply
            request true []).2 ("echo".toList :: words)) := by
    have t1 : ¬ ("exec".toList = "pty-req".toList) := by decide
    have t2 : ¬ ("exec".toList = "shell".toList) := by decide
    simp only [handleRequest, htype, if_neg t1, if_neg t2, if_true]
    simp [sessionContext.act, hactive, hpayload, sessionContext.Reply, hreply, hfields]
    cases request.WantReply <;> simp [sessionContext.act]
  refine ⟨by rw [hreq], by rw [hreq]; rfl, ?_, ?_, by rw [hrun]; rfl, ?_⟩
  · rw [hreq]
    simp only [handleProgram, sessionContext.act, sessionContext.Reply]
    cases request.WantReply <;> rfl
  · rw [hreq]
    simp only [handleProgram, sessionContext.act, sessionContext.Reply]
    cases request.WantReply <;> simp
  · simp only [handleProgram_goroutine, hrun, Option.map, World.closeInputChan]
    rw [handleProgram_finish_trace _ _ _ _ (Or.inl rfl)]
    simp [protocolActions, marshalUint32]

/-- C8 at the input of the scenario: the payload `echo hello world` on a fresh
channel. -/
theorem exec_echo_witness :
    (handleRequest freshSession ⟨"exec".toList, true, echoPayload⟩).1 = none ∧
    (handleRequest freshSession ⟨"exec".toList, true, echoPayload⟩).2.active = true ∧
    (handleRequest freshSession ⟨"exec".toList, true, echoPayload⟩).2.pty = false ∧
    (handleRequest freshSession ⟨"exec".toList, true, echoPayload⟩).2.actions =
      [] ++
        [Action.metricInc "exec".toList,
         Action.logEvent (logEntry.execLog 0 "echo hello world".toList)] ++
        (if true then [Action.reply true []] else []) ++
        [Action.go (Goroutine.program ["echo".toList, "hello".toList, "world".toList])] ∧
    (executeProgram 1
      (handleProgram_context false "guest".toList sampleAddr
        ["echo".toList, "hello".toList, "world".toList]) (quietWorld [] [])).map
          (fun r => (r.status, r.err)) = some (0, none) ∧
    (handleProgram_goroutine 1 false "guest".toList sampleAddr
      ["echo".toList, "hello".toList, "world".toList] (quietWorld [] [])).map
        (fun w1 => w1.trace) =
      some ([] ++
        [Event.write Sink.stdout "hello world\n".toList,
         Event.sendRequest "exit-status".toList false [0, 0, 0, 0],
         Event.sendRequest "eow@openssh.com".toList false [],
         Event.closeWrite, Event.close, Event.closeInputChan]) :=
  exec_echo 0 freshSession ⟨"exec".toList, true, echoPayload⟩
    ⟨"echo hello world".toList⟩ ["hello".toList, "world".toList] (quietWorld [] [])
    rfl rfl (by decide) (by decide) (fun _ => rfl) (fun _ => rfl)

/-! ## The input-logging queue -/

theorem trySend_full (queue : List Str) (line : Str) (h : inputChanCap ≤ queue.length) :
    trySend queue line = queue := by
  simp only [trySend, if_neg (Nat.not_lt.mpr h)]

/-- C20: the line and the error returned by `ReadLine`, for both readers, and the input
left to read, do not depend on the content of the input-logging queue nor on what the
event loop takes off it. A line is offered to the queue when it was read without error
or is not empty; the queue then is the queue at the time of the send with the line
appended when there is room, and is left as it was when it is full. -/
theorem ReadLine_queue_independent (rd : readLiner) (w : World) (queue : List Str)
    (drained : Nat → Nat) :
    (ReadLine rd { w with inputChan := queue, drained := drained }).1 = (ReadLine rd w).1 ∧
    (ReadLine rd { w with inputChan := queue, drained := drained }).2.1 =
      (ReadLine rd w).2.1 ∧
    (ReadLine rd { w with inputChan := queue, drained := drained }).2.2.scanLines =
      (ReadLine rd w).2.2.scanLines ∧
    (ReadLine rd { w with inputChan := queue, drained := drained }).2.2.termLines =
      (ReadLine rd w).2.2.termLines ∧
    (ReadLine rd { w with inputChan := queue, drained := drained }).2.2.trace =
      (ReadLine rd w).2.2.trace ∧
    (ReadLine rd { w with inputChan := queue, drained := drained }).2.2.inputChan =
      (if (ReadLine rd w).2.1 = none ∨ (ReadLine rd w).1 ≠ [] then
        trySend (queue.drop (drained w.reads)) (ReadLine rd w).1
      else queue) ∧
    (∀ (q : List Str) (line : Str), inputChanCap ≤ q.length → trySend q line = q) ∧
    (∀ (q : List Str) (line : Str), q.length < inputChanCap → trySend q line = q ++ [line]) := by
  refine ⟨?_, ?_, ?_, ?_, ?_, ?_, trySend_full, fun q line h => by simp only [trySend, if_pos h]⟩
  all_goals
    cases rd with
    | scannerReadLiner =>
      simp only [ReadLine, scannerReadLiner_ReadLine]
      cases hs : w.scanLines with
      | nil => cases he : w.scanErr <;> simp
      | cons line rest => simp [World.logInput]
    | terminalReadLiner =>
      simp only [ReadLine, terminalReadLiner_ReadLine]
      cases ht : w.termLines with
      | nil => simp [ht]
      | cons head rest =>
        obtain ⟨line, err⟩ := head
        by_cases hl : line = []
        · cases err with
          | none => simp [hl, World.logInput]
          | some e => by_cases he : e = GoError.EOF <;> simp [hl, he, World.logInput]
        · cases err with
          | none => simp [hl, World.logInput]
          | some e => by_cases he : e = GoError.EOF <;> simp [hl, he, World.logInput]

/-! ## Requests on a channel with a pty -/

theorem act_active (context : sessionContext) (a : Action) :
    (context.act a).active = context.active := rfl

theorem act_pty (context : sessionContext) (a : Action) :
    (context.act a).pty = context.pty := rfl

/-- C12: on a channel with a pty and no program yet, a further `pty-req` request is
denied: the handler replies failure, returns the error `已请求一个pty` (a pty was already
requested), logs no pty entry and leaves both flags as they were; a following `shell`
request without payload, whose reply can be sent, is accepted and activates the
channel. -/
theorem ptyReq_again_denied (context : sessionContext) (request shell : Request)
    (hpty : context.pty = true) (hactive : context.active = false)
    (htype : request.Type_ = "pty-req".toList)
    (hshell : shell.Type_ = "shell".toList) (hpayload : shell.Payload = [])
    (hreply : ∀ n, context.replyOutcome n = none) :
    handleRequest context request =
      (some (GoError.other "已请求一个pty".toList),
       { context with actions := context.actions ++ [Action.metricInc "pty-req".toList] ++
           (if request.WantReply then [Action.reply false []] else []) }) ∧
    (handleRequest (handleRequest context request).2 shell).1 = none ∧
    (handleRequest (handleRequest context request).2 shell).2.active = true ∧
    (handleRequest (handleRequest context request).2 shell).2.pty = true ∧
    (handleRequest (handleRequest context request).2 shell).2.actions =
      (context.actions ++ [Action.metricInc "pty-req".toList] ++
          (if request.WantReply then [Action.reply false []] else [])) ++
        [Action.metricInc "shell".toList, Action.logEvent (logEntry.shellLog context.channelID)] ++
        (if shell.WantReply then [Action.reply true []] else []) ++
        [Action.go (Goroutine.program shellProgram)] := by
  have h1 : handleRequest context request =
      (some (GoError.other "已请求一个pty".toList),
       { context with actions := context.actions ++ [Action.metricInc "pty-req".toList] ++
           (if request.WantReply then [Action.reply false []] else []) }) := by
    simp only [handleRequest, htype, if_true, act_active, act_pty, hactive, hpty,
      sessionContext.deny, sessionContext.Reply, sessionContext.act]
    cases request.WantReply <;> simp
  have t1 : ¬ ("shell".toList = "pty-req".toList) := by decide
  refine ⟨h1, ?_, ?_, ?_, ?_⟩
  all_goals
    rw [h1]
    simp only [handleRequest, hshell, if_neg t1, if_true, hpayload, sessionContext.act,
      sessionContext.Reply, hactive, hreply, handleProgram]
    cases shell.WantReply <;> simp [hpty]

/-- C12 at the input of the scenario: a second `pty-req` on the channel whose first
`pty-req` succeeded, then `shell`. -/
theorem ptyReq_again_denied_witness :
    (handleRequest freshSession ⟨"pty-req".toList, true, ptyPayload⟩).1 = none ∧
    ptySession.pty = true ∧
    handleRequest ptySession ⟨"pty-req".toList, true, ptyPayload⟩ =
      (some (GoError.other "已请求一个pty".toList),
       { ptySession with actions := ptySession.actions ++ [Action.metricInc "pty-req".toList] ++
           (if true then [Action.reply false []] else []) }) ∧
    (handleRequest (handleRequest ptySession ⟨"pty-req".toList, true, ptyPayload⟩).2
      ⟨"shell".toList, true, []⟩).2.active = true :=
  ⟨by decide, by decide,
    (ptyReq_again_denied ptySession ⟨"pty-req".toList, true, ptyPayload⟩
      ⟨"shell".toList, true, []⟩ (by decide) (by decide) rfl rfl rfl (fun _ => rfl)).1,
    (ptyReq_again_denied ptySession ⟨"pty-req".toList, true, ptyPayload⟩
      ⟨"shell".toList, true, []⟩ (by decide) (by decide) rfl rfl rfl (fun _ => rfl)).2.2.1⟩

/-! ## The requests window-change and exec without command -/

/-- C14 as stated fails: on a channel without pty, a `window-change` request that asks
for a reply is answered with failure on the wire. -/
theorem windowChange_replies_without_pty :
    (handleRequest freshSession ⟨"window-change".toList, true, []⟩).2.actions =
      [Action.metricInc "window-change".toList, Action.reply false []] := by
  decide

/-- C14, as amended: a `window-change` request never changes `pty` or `active`; on a
channel with a pty it issues no reply, whether the payload decodes (the change is
logged) or not; on a channel without pty it is denied, which puts a failure reply on
the wire exactly when the request asked for a reply. -/
theorem windowChange_reply (context : sessionContext) (request : Request)
    (htype : request.Type_ = "window-change".toList) :
    (handleRequest context request).2.pty = context.pty ∧
    (handleRequest context request).2.active = context.active ∧
    (context.pty = true →
      (handleRequest context request).2.actions =
        context.actions ++ [Action.metricInc "window-change".toList] ++
          (match unmarshalWindowChange request.Payload with
           | some payload => [Action.logEvent
               (logEntry.windowChangeLog context.channelID payload.Width payload.Height)]
           | none => [])) ∧
    (context.pty = false →
      (handleRequest context request).2.actions =
        context.actions ++ [Action.metricInc "window-change".toList] ++
          (if request.WantReply then [Action.reply false []] else [])) := by
  have t1 : ¬ ("window-change".toList = "pty-req".toList) := by decide
  have t2 : ¬ ("window-change".toList = "shell".toList) := by decide
  have t3 : ¬ ("window-change".toList = "exec".toList) := by decide
  have t4 : ¬ ("window-change".toList = "env".toList) := by decide
  have t5 : ¬ ("window-change".toList = "subsystem".toList) := by decide
  simp only [handleRequest, htype, if_neg t1, if_neg t2, if_neg t3, if_neg t4, if_neg t5,
    if_true, act_pty]
  cases hp : context.pty
  · simp only [sessionContext.deny, sessionContext.Reply, sessionContext.act]
    cases request.WantReply <;> simp [hp]
  · cases hu : unmarshalWindowChange request.Payload <;>
      simp [sessionContext.act, hp]

/-- C14 (amended) at a concrete input: a `window-change` request with an undecodable
payload on the channel that has a pty. -/
theorem windowChange_reply_witness :
    (handleRequest ptySession ⟨"window-change".toList, true, [1, 2, 3]⟩).2.pty =
      ptySession.pty ∧
    (handleRequest ptySession ⟨"window-change".toList, true, [1, 2, 3]⟩).2.active =
      ptySession.active ∧
    (ptySession.pty = true →
      (handleRequest ptySession ⟨"window-change".toList, true, [1, 2, 3]⟩).2.actions =
        ptySession.actions ++ [Action.metricInc "window-change".toList] ++
          (match unmarshalWindowChange [1, 2, 3] with
           | some payload => [Action.logEvent
               (logEntry.windowChangeLog ptySession.channelID payload.Width payload.Height)]
           | none => [])) ∧
    (ptySession.pty = false →
      (handleRequest ptySession ⟨"window-change".toList, true, [1, 2, 3]⟩).2.actions =
        ptySession.actions ++ [Action.metricInc "window-change".toList] ++
          (if true then [Action.reply false []] else [])) :=
  windowChange_reply ptySession ⟨"window-change".toList, true, [1, 2, 3]⟩ rfl

/-- C15 as stated fails: the goroutine of an `exec` request with an empty command
sends the exit status 0 and closes, without the end-of-write notice that the
termination protocol of `handleProgram` sends for the outcome `(0, nil)`. -/
theorem exec_empty_no_eow :
    (handleRequest freshSession ⟨"exec".toList, true, [0, 0, 0, 2, 32, 9]⟩).2.actions.getLast? =
      some (Action.go Goroutine.emptyExec) ∧
    (exec_emptyGoroutine (quietWorld [] [])).trace =
      [Event.sendRequest "exit-status".toList false [0, 0, 0, 0],
       Event.closeWrite, Event.close, Event.closeInputChan] ∧
    (handleProgram_finish false 0 none (quietWorld [] [])).closeInputChan.trace =
      [Event.sendRequest "exit-status".toList false [0, 0, 0, 0],
       Event.sendRequest "eow@openssh.com".toList false [],
       Event.closeWrite, Event.close, Event.closeInputChan] := by
  refine ⟨by decide, by decide, by decide⟩

/-- C15, as amended: an `exec` request on an inactive channel whose command has no
token, and whose reply can be sent, starts no program: the handler only starts the
goroutine that sends the exit status 0, closes the write side and closes the channel,
which is the effect sequence of `handleProgram` for the outcome `(0, nil)` without the
end-of-write notice, and then closes the input queue. -/
theorem exec_empty_protocol (context : sessionContext) (request : Request)
    (payload : execRequestPayload) (w : World)
    (htype : request.Type_ = "exec".toList) (hactive : context.active = false)
    (hpayload : unmarshalExec request.Payload = some payload)
    (hfields : Fields payload.Command = [])
    (hreply : ∀ n, context.replyOutcome n = none) :
    (handleRequest context request).1 = none ∧
    (handleRequest context request).2.active = false ∧
    (handleRequest context request).2.actions =
      context.actions ++
        [Action.metricInc "exec".toList,
         Action.logEvent (logEntry.execLog context.channelID payload.Command)] ++
        (if request.WantReply then [Action.reply true []] else []) ++
        [Action.go Goroutine.emptyExec] ∧
    (exec_emptyGoroutine w).trace =
      w.trace ++ [Event.sendRequest "exit-status".toList false (marshalUint32 0),
        Event.closeWrite, Event.close, Event.closeInputChan] ∧
    (exec_emptyGoroutine w).trace =
      w.trace ++
        (protocolActions context.pty 0 none).filter
          (fun e => e ≠ Event.sendRequest "eow@openssh.com".toList false []) ++
        [Event.closeInputChan] := by
  have t1 : ¬ ("exec".toList = "pty-req".toList) := by decide
  have t2 : ¬ ("exec".toList = "shell".toList) := by decide
  have hreq : handleRequest context request =
      (none, (((context.act (Action.metricInc "exec".toList)).act
          (Action.logEvent (logEntry.execLog context.channelID payload.Command))).Reply
            request true []).2.act (Action.go Goroutine.emptyExec)) := by
    simp only [handleRequest, htype, if_neg t1, if_neg t2, if_true]
    simp [sessionContext.act, hactive, hpayload, sessionContext.Reply, hreply, hfields]
    cases request.WantReply <;> simp [sessionContext.act]
  refine ⟨by rw [hreq], ?_, ?_, ?_, ?_⟩
  · rw [hreq]
    simp only [sessionContext.act, sessionContext.Reply]
    cases request.WantReply <;> simp [hactive]
  · rw [hreq]
    simp only [sessionContext.act, sessionContext.Reply]
    cases request.WantReply <;> simp
  · simp [exec_emptyGoroutine, World.attempt, World.closeInputChan]
  · have hf : (protocolActions context.pty 0 none).filter
          (fun e => e ≠ Event.sendRequest "eow@openssh.com".toList false []) =
        [Event.sendRequest "exit-status".toList false (marshalUint32 0),
          Event.closeWrite, Event.close] := by
      cases context.pty <;> decide
    rw [hf]
    simp [exec_emptyGoroutine, World.attempt, World.closeInputChan]

/-- C15 (amended) at a concrete input: the command of two blanks on a fresh channel. -/
theorem exec_empty_protocol_witness :
    (handleRequest freshSession ⟨"exec".toList, true, [0, 0, 0, 2, 32, 9]⟩).1 = none ∧
    (handleRequest freshSession ⟨"exec".toList, true, [0, 0, 0, 2, 32, 9]⟩).2.active = false ∧
    (handleRequest freshSession ⟨"exec".toList, true, [0, 0, 0, 2, 32, 9]⟩).2.actions =
      freshSession.actions ++
        [Action.metricInc "exec".toList,
         Action.logEvent (logEntry.execLog freshSession.channelID [' ', '\t'])] ++
        (if true then [Action.reply true []] else []) ++
        [Action.go Goroutine.emptyExec] ∧
    (exec_emptyGoroutine brokenWorld).trace =
      brokenWorld.trace ++ [Event.sendRequest "exit-status".toList false (marshalUint32 0),
        Event.closeWrite, Event.close, Event.closeInputChan] ∧
    (exec_emptyGoroutine brokenWorld).trace =
      brokenWorld.trace ++
        (protocolActions freshSession.pty 0 none).filter
          (fun e => e ≠ Event.sendRequest "eow@openssh.com".toList false []) ++
        [Event.closeInputChan] :=
  exec_empty_protocol freshSession ⟨"exec".toList, true, [0, 0, 0, 2, 32, 9]⟩
    ⟨[' ', '\t']⟩ brokenWorld rfl rfl (by decide) (by decide) (fun _ => rfl)

/-! ## The command pwd and the prompt -/

theorem printOrFail_cwd (context : commandContext) (w : World) (data : Str) :
    (context.printOrFail w data).cwd = context.cwd := by
  simp only [commandContext.printOrFail, Fprint, World.attempt]
  cases w.outcome w.trace.length <;> rfl

theorem commands_pwd : commands "pwd".toList = some command.cmdPwd := by decide

theorem cmdShell_pwd_step (fuel : Nat) (context : commandContext) (st : ShellState)
    (w w2 : World) (line : Str) (args : List Str)
    (hread : shellReads context st w line w2)
    (hfields : Fields line = "pwd".toList :: args) :
    ∃ st1 w3, cmdShell_step (fuel + 2) context st w = some (ShellStep.next st1 w3) ∧
      st1.currentCwd = st.currentCwd ∧ st1.currentHostname = st.currentHostname ∧
      ∃ report, w3.trace =
          w2.trace ++ Event.write Sink.stdout (st.currentCwd ++ "\n".toList) :: report ∧
        ∀ e ∈ report, ∃ data, e = Event.write Sink.stderr data := by
  obtain ⟨w1, hp, hr⟩ := hread
  have hne : ¬ ("pwd".toList = "exit".toList) := by decide
  rw [cmdShell_step]
  simp only [hp, hr, hfields, commands_pwd, execute, if_neg hne]
  simp only [cmdPwd_execute, commandContext.printOrFail, Fprint, World.attempt]
  cases ho : w2.outcome w2.trace.length with
  | none =>
    simp only [commandContext.result]
    refine ⟨_, _, rfl, rfl, rfl, [], rfl, ?_⟩
    intro e he; simp at he
  | some err =>
    simp only [commandContext.result]
    refine ⟨_, _, rfl, rfl, rfl,
      [Event.write Sink.stderr
        ("Shell execution error: ".toList ++ err.Error ++ "\n".toList)], ?_, ?_⟩
    · simp only [List.append_assoc, List.singleton_append]
    · intro e he
      simp only [List.mem_singleton] at he
      exact ⟨_, he⟩

/-- C17: two consecutive lines `pwd` read by one shell write the same text to stdout,
the working directory followed by a newline, and leave the working directory as it
was; `cmdPwd.execute` itself never changes the working-directory cell. -/
theorem cmdShell_pwd_twice (fuel : Nat) (context : commandContext) (st : ShellState)
    (w w2 : World) (line1 : Str) (args1 : List Str)
    (hread1 : shellReads context st w line1 w2)
    (hfields1 : Fields line1 = "pwd".toList :: args1) :
    (∀ (c : commandContext) (w0 : World), (cmdPwd_execute c w0).cwd = c.cwd) ∧
    ∃ st1 w3, cmdShell_step (fuel + 2) context st w = some (ShellStep.next st1 w3) ∧
      st1.currentCwd = st.currentCwd ∧
      (∃ report, w3.trace =
          w2.trace ++ Event.write Sink.stdout (st.currentCwd ++ "\n".toList) :: report ∧
        ∀ e ∈ report, ∃ data, e = Event.write Sink.stderr data) ∧
      ∀ (line2 : Str) (args2 : List Str) (w4 : World),
        shellReads context st1 w3 line2 w4 → Fields line2 = "pwd".toList :: args2 →
        ∃ st2 w5, cmdShell_step (fuel + 2) context st1 w3 = some (ShellStep.next st2 w5) ∧
          st2.currentCwd = st.currentCwd ∧
          ∃ report, w5.trace =
              w4.trace ++ Event.write Sink.stdout (st.currentCwd ++ "\n".toList) :: report ∧
            ∀ e ∈ report, ∃ data, e = Event.write Sink.stderr data := by
  constructor
  · intro c w0
    simp only [cmdPwd_execute]
    cases hc : c.cwd with
    | none => simp only [commandContext.result, hc]
    | some d => simp only [printOrFail_cwd, hc]
  · obtain ⟨st1, w3, hstep, hcwd, hhost, hrep⟩ :=
      cmdShell_pwd_step fuel context st w w2 line1 args1 hread1 hfields1
    refine ⟨st1, w3, hstep, hcwd, hrep, ?_⟩
    intro line2 args2 w4 hread2 hfields2
    obtain ⟨st2, w5, hstep2, hcwd2, _, hrep2⟩ :=
      cmdShell_pwd_step fuel context st1 w3 w4 line2 args2 hread2 hfields2
    rw [hcwd] at hcwd2 hrep2
    exact ⟨st2, w5, hstep2, hcwd2, hrep2⟩

/-- C17 at a concrete input: a fresh guest shell reading `pwd` twice from the scanner. -/
theorem cmdShell_pwd_twice_witness :
    (∃ st1 w3,
      cmdShell_step 2 guestShellContext
          (shellInit (quietWorld ["pwd".toList, "pwd".toList] []))
          (quietWorld ["pwd".toList, "pwd".toList] []) = some (ShellStep.next st1 w3) ∧
        st1.currentCwd = "/home/guest/".toList) ∧
    (cmdShell_execute 6 guestShellContext
      (quietWorld ["pwd".toList, "pwd".toList] [])).map (fun r => r.world.trace) =
      some [Event.write Sink.stdout "/home/guest/\n".toList,
            Event.write Sink.stdout "/home/guest/\n".toList] :=
  ⟨(let ⟨st1, w3, h, hc, _⟩ :=
      (cmdShell_pwd_twice 0 guestShellContext
        (shellInit (quietWorld ["pwd".toList, "pwd".toList] []))
        (quietWorld ["pwd".toList, "pwd".toList] [])
        { quietWorld ["pwd".toList] [] with inputChan := ["pwd".toList], reads := 1 }
        "pwd".toList [] ⟨quietWorld ["pwd".toList, "pwd".toList] [], rfl, rfl⟩ (by decide)).2
    ⟨st1, w3, h, hc⟩), by decide⟩

/-- C18, evaluated at the failing inputs: for the user `gu` in the directory
`/home/guest/`, which is neither `/home/gu` nor below it, the prompt shows `~est/`, not
the directory; for the user `guest` in `/home/guestX` it shows `~X`. The first is the
prompt of the shell that `su gu` starts in PTY mode. -/
theorem shellPrompt_sibling_home :
    shellPrompt "gu".toList "vm-000000".toList "/home/guest/".toList =
      "gu@vm-000000:~est/$ ".toList ∧
    shellPrompt "guest".toList "vm-000000".toList "/home/guestX".toList =
      "guest@vm-000000:~X$ ".toList ∧
    (cmdSu_execute 3
      { guestShellContext with args := ["su".toList, "gu".toList], pty := true,
                               stdin := readLiner.terminalReadLiner }
      (quietWorld [] [])).map (fun r => r.world.trace) =
      some [Event.write Sink.stdout "gu@vm-000000:~est/$ ".toList] := by
  refine ⟨by decide, by decide, by decide⟩

/-! ## The flags of a channel along a run of requests -/

theorem Reply_active (context : sessionContext) (request : Request) (ok : Bool)
    (payload : List Nat) : (context.Reply request ok payload).2.active = context.active := by
  simp only [sessionContext.Reply]; split <;> rfl

theorem Reply_pty (context : sessionContext) (request : Request) (ok : Bool)
    (payload : List Nat) : (context.Reply request ok payload).2.pty = context.pty := by
  simp only [sessionContext.Reply]; split <;> rfl

theorem deny_active (context : sessionContext) (request : Request) (err : GoError) :
    (context.deny request err).2.active = context.active := Reply_active _ _ _ _

theorem deny_pty (context : sessionContext) (request : Request) (err : GoError) :
    (context.deny request err).2.pty = context.pty := Reply_pty _ _ _ _

theorem Reply_eq (context : sessionContext) (request : Request) (ok : Bool)
    (payload : List Nat) :
    ∃ e c, context.Reply request ok payload = (e, c) ∧ c.active = context.active ∧
      c.pty = context.pty :=
  ⟨_, _, rfl, Reply_active _ _ _ _, Reply_pty _ _ _ _⟩

theorem flags_same {context c : sessionContext} (h1 : c.active = context.active)
    (h2 : c.pty = context.pty) :
    (context.active = true → c.active = true) ∧ (context.pty = true → c.pty = true) ∧
    (c.pty = true → context.pty = false → context.active = false) := by
  rw [h1, h2]
  refine ⟨fun h => h, fun h => h, fun h g => ?_⟩
  rw [h] at g
  exact absurd g (by decide)

theorem handleRequest_flags (context : sessionContext) (request : Request) :
    (context.active = true → (handleRequest context request).2.active = true) ∧
    (context.pty = true → (handleRequest context request).2.pty = true) ∧
    ((handleRequest context request).2.pty = true → context.pty = false →
      context.active = false) := by
  unfold handleRequest
  by_cases h1 : request.Type_ = "pty-req".toList
  · simp only [if_pos h1, act_active, act_pty]
    by_cases ha : context.active = true
    · simp only [if_pos ha]
      simp [deny_active, deny_pty, act_active, act_pty, ha]
    · simp only [if_neg ha]
      by_cases hp : context.pty = true
      · simp only [if_pos hp]
        simp [deny_active, deny_pty, act_active, act_pty, ha, hp]
      · simp only [if_neg hp]
        cases unmarshalPty request.Payload with
        | none => simp [deny_active, deny_pty, act_active, act_pty, ha, hp]
        | some payload =>
          obtain ⟨e, c, hR, hca, hcp⟩ := Reply_eq
            ((context.act (Action.metricInc request.Type_)).act (Action.logEvent
              (logEntry.ptyLog (context.act (Action.metricInc request.Type_)).channelID
                payload.Term payload.Width payload.Height))) request true []
          simp only [hR]
          cases e <;> simp [hca, hcp, act_active, act_pty, ha, hp]
  · simp only [if_neg h1]
    by_cases h2 : request.Type_ = "shell".toList
    · simp only [if_pos h2, act_active]
      by_cases ha : context.active = true
      · simp only [if_pos ha]
        simp [deny_active, deny_pty, act_active, act_pty, ha]
      · simp only [if_neg ha]
        split_ifs
        · simp [deny_active, deny_pty, act_active, act_pty, ha]
        · obtain ⟨e, c, hR, hca, hcp⟩ := Reply_eq
            ((context.act (Action.metricInc request.Type_)).act (Action.logEvent
              (logEntry.shellLog (context.act (Action.metricInc request.Type_)).channelID)))
            request true []
          simp only [hR]
          cases e <;> simp [hca, hcp, act_active, act_pty, ha, handleProgram]
    · simp only [if_neg h2]
      by_cases h3 : request.Type_ = "exec".toList
      · simp only [if_pos h3, act_active]
        by_cases ha : context.active = true
        · simp only [if_pos ha]
          simp [deny_active, deny_pty, act_active, act_pty, ha]
        · simp only [if_neg ha]
          cases unmarshalExec request.Payload with
          | none => simp [deny_active, deny_pty, act_active, act_pty, ha]
          | some payload =>
            obtain ⟨e, c, hR, hca, hcp⟩ := Reply_eq
              ((context.act (Action.metricInc request.Type_)).act (Action.logEvent
                (logEntry.execLog (context.act (Action.metricInc request.Type_)).channelID
                  payload.Command))) request true []
            simp only [hR]
            cases e with
            | some err => simp [hca, hcp, act_active, act_pty, ha]
            | none =>
              split_ifs <;> simp [hca, hcp, act_active, act_pty, ha, handleProgram]
      · simp only [if_neg h3]
        split_ifs <;> (try split) <;>
          first
          | exact flags_same (deny_active _ _ _) (deny_pty _ _ _)
          | exact flags_same (Reply_active _ _ _ _) (Reply_pty _ _ _ _)
          | exact flags_same rfl rfl

theorem handleRequests_cons (context : sessionContext) (requests : List Request) :
    ∃ tail, handleRequests context requests = context :: tail := by
  cases requests with
  | nil => exact ⟨[], rfl⟩
  | cons r rest => exact ⟨_, rfl⟩

theorem monotone_run (flag : sessionContext → Bool)
    (hmono : ∀ c r, flag c = true → flag (handleRequest c r).2 = true)
    (requests : List Request) :
    ∀ context, falls flag (handleRequests context requests) = 0 ∧
      rises flag (handleRequests context requests) ≤ 1 ∧
      (flag context = true → rises flag (handleRequests context requests) = 0) := by
  induction requests with
  | nil => intro context; simp [handleRequests, falls, rises]
  | cons r rest ih =>
    intro context
    obtain ⟨tail, ht⟩ := handleRequests_cons (handleRequest context r).2 rest
    obtain ⟨i1, i2, i3⟩ := ih (handleRequest context r).2
    rw [ht] at i1 i2 i3
    simp only [handleRequests, ht, falls, rises]
    cases h0 : flag context <;> cases h1 : flag (handleRequest context r).2
    · simp [i1, i2]
    · have := i3 h1
      simp [i1, this]
    · have := hmono context r h0
      rw [h1] at this
      exact absurd this (by decide)
    · have := i3 h1
      simp [i1, this]

theorem ptyRises_run (requests : List Request) :
    ∀ context, ptyRisesWhileActive (handleRequests context requests) = 0 := by
  induction requests with
  | nil => intro context; simp [handleRequests, ptyRisesWhileActive]
  | cons r rest ih =>
    intro context
    obtain ⟨tail, ht⟩ := handleRequests_cons (handleRequest context r).2 rest
    have i1 := ih (handleRequest context r).2
    rw [ht] at i1
    simp only [handleRequests, ht, ptyRisesWhileActive, i1, Nat.add_zero]
    have h := (handleRequest_flags context r).2.2
    split
    · rename_i hc
      have := h hc.2.1 hc.1
      rw [hc.2.2] at this
      exact absurd this (by decide)
    · rfl

/-- C13: along the states a channel goes through while `handleRequest` handles any
sequence of requests, `active` never goes from true to false and goes from false to
true at most once, `pty` never goes from true to false and goes from false to true at
most once, and never in a step that starts with `active` true. -/
theorem handleRequests_flags (context : sessionContext) (requests : List Request) :
    falls (fun c => c.active) (handleRequests context requests) = 0 ∧
    rises (fun c => c.active) (handleRequests context requests) ≤ 1 ∧
    falls (fun c => c.pty) (handleRequests context requests) = 0 ∧
    rises (fun c => c.pty) (handleRequests context requests) ≤ 1 ∧
    ptyRisesWhileActive (handleRequests context requests) = 0 := by
  obtain ⟨a1, a2, _⟩ := monotone_run (fun c => c.active)
    (fun c r h => (handleRequest_flags c r).1 h) requests context
  obtain ⟨p1, p2, _⟩ := monotone_run (fun c => c.pty)
    (fun c r h => (handleRequest_flags c r).2.1 h) requests context
  exact ⟨a1, a2, p1, p2, ptyRises_run requests context⟩

/-- C13 on a concrete run: `pty-req`, `shell`, `pty-req` on a fresh channel; each flag
rises once. -/
theorem handleRequests_flags_example :
    rises (fun c => c.active)
      (handleRequests freshSession
        [⟨"pty-req".toList, true, ptyPayload⟩, ⟨"shell".toList, true, []⟩,
         ⟨"pty-req".toList, true, ptyPayload⟩]) = 1 ∧
    rises (fun c => c.pty)
      (handleRequests freshSession
        [⟨"pty-req".toList, true, ptyPayload⟩, ⟨"shell".toList, true, []⟩,
         ⟨"pty-req".toList, true, ptyPayload⟩]) = 1 := by
  refine ⟨by decide, by decide⟩

/-! ## Requests env and the context of the program -/

theorem Reply_ok (context : sessionContext) (request : Request) (ok : Bool)
    (payload : List Nat) (h : ∀ n, context.replyOutcome n = none) :
    context.Reply request ok payload =
      (none, if request.WantReply then context.act (Action.reply ok payload) else context) := by
  simp only [sessionContext.Reply, h]
  split <;> rfl

theorem handleRequest_frame (c : sessionContext) (r : Request)
    (h : ∀ n, c.replyOutcome n = none) :
    ∃ e delta a p, ∀ acts, handleRequest { c with actions := acts } r =
      (e, { c with actions := acts ++ delta, active := a, pty := p }) := by
  unfold handleRequest
  by_cases h0 : r.Type_ = "pty-req".toList
  · simp only [if_pos h0, act_active, act_pty]
    split_ifs <;> (try split) <;>
      (try simp only [sessionContext.deny, sessionContext.Reply, sessionContext.act,
          handleProgram, h]) <;>
        cases r.WantReply <;>
        (try simp only [if_true, if_false, Bool.false_eq_true, List.append_assoc,
          List.singleton_append, List.cons_append, List.nil_append]) <;>
        exact ⟨_, _, _, _, fun acts => rfl⟩
  · simp only [if_neg h0]
    by_cases h1 : r.Type_ = "shell".toList
    · simp only [if_pos h1, act_active, act_pty]
      split_ifs <;>
        (try simp only [sessionContext.deny, sessionContext.Reply, sessionContext.act,
            handleProgram, h]) <;>
          cases r.WantReply <;>
          (try simp only [if_true, if_false, Bool.false_eq_true, List.append_assoc,
            List.singleton_append, List.cons_append, List.nil_append]) <;>
          exact ⟨_, _, _, _, fun acts => rfl⟩
    · simp only [if_neg h1]
      by_cases h2 : r.Type_ = "exec".toList
      · simp only [if_pos h2, act_active, act_pty]
        split_ifs <;> (try split) <;> (try split_ifs) <;>
          (try simp only [sessionContext.deny, sessionContext.Reply, sessionContext.act,
              handleProgram, h]) <;>
            cases r.WantReply <;>
            (try simp only [if_true, if_false, Bool.false_eq_true, List.append_assoc,
              List.singleton_append, List.cons_append, List.nil_append]) <;>
            exact ⟨_, _, _, _, fun acts => rfl⟩
      · simp only [if_neg h2]
        by_cases h3 : r.Type_ = "env".toList
        · simp only [if_pos h3, act_active, act_pty]
          split_ifs <;> (try split) <;>
            (try simp only [sessionContext.deny, sessionContext.Reply, sessionContext.act,
                handleProgram, h]) <;>
              cases r.WantReply <;>
              (try simp only [if_true, if_false, Bool.false_eq_true, List.append_assoc,
                List.singleton_append, List.cons_append, List.nil_append]) <;>
              exact ⟨_, _, _, _, fun acts => rfl⟩
        · simp only [if_neg h3]
          by_cases h4 : r.Type_ = "subsystem".toList
          · simp only [if_pos h4, act_active, act_pty]
            split_ifs <;> (try split) <;>
              (try simp only [sessionContext.deny, sessionContext.Reply, sessionContext.act,
                  handleProgram, h]) <;>
                cases r.WantReply <;>
                (try simp only [if_true, if_false, Bool.false_eq_true, List.append_assoc,
                  List.singleton_append, List.cons_append, List.nil_append]) <;>
                exact ⟨_, _, _, _, fun acts => rfl⟩
          · simp only [if_neg h4]
            by_cases h5 : r.Type_ = "window-change".toList
            · simp only [if_pos h5, act_active, act_pty]
              split_ifs <;> (try split) <;>
                (try simp only [sessionContext.deny, sessionContext.Reply, sessionContext.act,
                    handleProgram, h]) <;>
                  cases r.WantReply <;>
                  (try simp only [if_true, if_false, Bool.false_eq_true, List.append_assoc,
                    List.singleton_append, List.cons_append, List.nil_append]) <;>
                  exact ⟨_, _, _, _, fun acts => rfl⟩
            · simp only [if_neg h5]
              by_cases h6 : r.Type_ = "x11-req".toList
              · simp only [if_pos h6, act_active, act_pty]
                simp only [sessionContext.Reply, sessionContext.act, h]
                cases r.WantReply <;>
                  (try simp only [if_true, if_false, Bool.false_eq_true, List.append_assoc,
                    List.singleton_append, List.cons_append, List.nil_append]) <;>
                  exact ⟨_, _, _, _, fun acts => rfl⟩
              · simp only [if_neg h6]
                by_cases h7 : r.Type_ = "signal".toList
                · simp only [if_pos h7, act_active, act_pty]
                  exact ⟨_, _, _, _, fun acts => by simp only [sessionContext.act, List.append_assoc]; rfl⟩
                · simp only [if_neg h7]
                  simp only [sessionContext.Reply, sessionContext.act, h]
                  cases r.WantReply <;>
                    (try simp only [if_true, if_false, Bool.false_eq_true, List.append_assoc,
                      List.singleton_append, List.cons_append, List.nil_append]) <;>
                    exact ⟨_, _, _, _, fun acts => rfl⟩

theorem handleAll_frame (requests : List Request) :
    ∀ c : sessionContext, (∀ n, c.replyOutcome n = none) →
      ∃ delta a p, ∀ acts, handleAll { c with actions := acts } requests =
        { c with actions := acts ++ delta, active := a, pty := p } := by
  induction requests with
  | nil =>
    intro c _
    exact ⟨[], c.active, c.pty, fun acts => by simp [handleAll]⟩
  | cons r rest ih =>
    intro c h
    obtain ⟨e, d1, a1, p1, h1⟩ := handleRequest_frame c r h
    obtain ⟨d2, a2, p2, h2⟩ := ih { c with actions := [], active := a1, pty := p1 } h
    refine ⟨d1 ++ d2, a2, p2, fun acts => ?_⟩
    have := h2 (acts ++ d1)
    simp only [handleAll, List.foldl_cons, h1] at this ⊢
    rw [this, List.append_assoc]

theorem started_append (l1 l2 : List Action) : started (l1 ++ l2) = started l1 ++ started l2 := by
  simp only [started, List.filterMap_append]

theorem handleRequest_env (c : sessionContext) (r : Request) (henv : r.Type_ = "env".toList)
    (h : ∀ n, c.replyOutcome n = none) :
    ∃ e delta, started delta = [] ∧ ∀ acts, handleRequest { c with actions := acts } r =
      (e, { c with actions := acts ++ delta }) := by
  have t1 : ¬ ("env".toList = "pty-req".toList) := by decide
  have t2 : ¬ ("env".toList = "shell".toList) := by decide
  have t3 : ¬ ("env".toList = "exec".toList) := by decide
  unfold handleRequest
  simp only [henv, if_neg t1, if_neg t2, if_neg t3, if_true, act_active]
  split_ifs <;> (try split) <;>
    (try simp only [sessionContext.deny, sessionContext.Reply, sessionContext.act, h]) <;>
    cases r.WantReply <;>
    (try simp only [if_true, if_false, Bool.false_eq_true, List.append_assoc,
      List.singleton_append, List.cons_append, List.nil_append]) <;>
    exact ⟨_, _, by simp [started], fun acts => rfl⟩

theorem Agree.trans {c1 c2 c3 : sessionContext} (h12 : Agree c1 c2) (h23 : Agree c2 c3) :
    Agree c1 c3 :=
  ⟨h12.1.trans h23.1, h12.2.1.trans h23.2.1, h12.2.2.1.trans h23.2.2.1,
    h12.2.2.2.1.trans h23.2.2.2.1, h12.2.2.2.2.trans h23.2.2.2.2⟩

theorem handleAll_env_skip (c : sessionContext) (r : Request) (rest : List Request)
    (henv : r.Type_ = "env".toList) (h : ∀ n, c.replyOutcome n = none) :
    Agree (handleAll c (r :: rest)) (handleAll c rest) := by
  obtain ⟨e, delta, hd, h1⟩ := handleRequest_env c r henv h
  obtain ⟨D, a, p, h2⟩ := handleAll_frame rest c h
  have e1 := h1 c.actions
  have e2 := h2 (c.actions ++ delta)
  have e3 := h2 c.actions
  have hc : ({ c with actions := c.actions } : sessionContext) = c := rfl
  rw [hc] at e1 e3
  simp only [handleAll, List.foldl_cons, e1] at e2 e3 ⊢
  rw [e2, e3]
  refine ⟨rfl, rfl, rfl, rfl, ?_⟩
  simp only [started_append, hd, List.append_nil]

theorem handleRequest_replyOutcome (c : sessionContext) (r : Request)
    (h : ∀ n, c.replyOutcome n = none) : ∀ n, (handleRequest c r).2.replyOutcome n = none := by
  obtain ⟨e, d, a, p, h1⟩ := handleRequest_frame c r h
  have e1 := h1 c.actions
  have hc : ({ c with actions := c.actions } : sessionContext) = c := rfl
  rw [hc] at e1
  rw [e1]
  exact h

theorem handleAll_strip (requests : List Request) :
    ∀ c : sessionContext, (∀ n, c.replyOutcome n = none) →
      Agree (handleAll c requests) (handleAll c (requests.filter (fun r => !isEnv r))) := by
  induction requests with
  | nil => intro c _; exact ⟨rfl, rfl, rfl, rfl, rfl⟩
  | cons r rest ih =>
    intro c h
    by_cases henv : r.Type_ = "env".toList
    · have hb : ¬ ((!isEnv r) = true) := by
        simp only [isEnv, Bool.not_eq_true', decide_eq_false_iff_not, not_not]
        exact henv
      have hf : (r :: rest).filter (fun r => !isEnv r) = rest.filter (fun r => !isEnv r) := by
        rw [List.filter_cons, if_neg hb]
      rw [hf]
      exact (handleAll_env_skip c r rest henv h).trans (ih c h)
    · have hb : (!isEnv r) = true := by
        simp only [isEnv, Bool.not_eq_true', decide_eq_false_iff_not]
        exact henv
      have hf : (r :: rest).filter (fun r => !isEnv r) =
          r :: rest.filter (fun r => !isEnv r) := by
        rw [List.filter_cons, if_pos hb]
      rw [hf]
      simp only [handleAll, List.foldl_cons]
      exact ih _ (handleRequest_replyOutcome c r h)

theorem launched_of_agree {c1 c2 : sessionContext} (h : Agree c1 c2) :
    launched c1 = launched c2 := by
  obtain ⟨h1, h2, _, h4, h5⟩ := h
  simp only [launched, h1, h2, h4, h5]

/-- C19: two runs of requests on one channel that differ only in their `env` requests
hand the same command contexts to `executeProgram`, start the same goroutines and end
with the same flags, the replies being sent without error; and every well-formed `env`
request on an inactive channel is logged and replied with success, and leaves `pty`
and `active` as they were. -/
theorem env_nonpropagation (c : sessionContext) (s1 s2 : List Request)
    (hreply : ∀ n, c.replyOutcome n = none)
    (hsame : s1.filter (fun r => !isEnv r) = s2.filter (fun r => !isEnv r)) :
    launched (handleAll c s1) = launched (handleAll c s2) ∧
    started (handleAll c s1).actions = started (handleAll c s2).actions ∧
    (handleAll c s1).pty = (handleAll c s2).pty ∧
    (handleAll c s1).active = (handleAll c s2).active ∧
    ∀ (c0 : sessionContext) (e : Request) (payload : envRequestPayload),
      e.Type_ = "env".toList → c0.active = false → unmarshalEnv e.Payload = some payload →
      (handleRequest c0 e).2.actions =
        c0.actions ++
          [Action.metricInc "env".toList,
           Action.logEvent (logEntry.envLog c0.channelID payload.Name payload.Value)] ++
          (if e.WantReply then [Action.reply true []] else []) ∧
      (handleRequest c0 e).2.pty = c0.pty ∧ (handleRequest c0 e).2.active = c0.active ∧
      (handleRequest c0 e).1 =
        (if e.WantReply then c0.replyOutcome (c0.actions.length + 2) else none) := by
  have hag : Agree (handleAll c s1) (handleAll c s2) := by
    have a1 := handleAll_strip s1 c hreply
    have a2 := handleAll_strip s2 c hreply
    rw [hsame] at a1
    exact a1.trans ⟨a2.1.symm, a2.2.1.symm, a2.2.2.1.symm, a2.2.2.2.1.symm, a2.2.2.2.2.symm⟩
  refine ⟨launched_of_agree hag, hag.2.2.2.2, hag.2.2.2.1, hag.2.2.1, ?_⟩
  intro c0 e payload henv hact hpay
  have t1 : ¬ ("env".toList = "pty-req".toList) := by decide
  have t2 : ¬ ("env".toList = "shell".toList) := by decide
  have t3 : ¬ ("env".toList = "exec".toList) := by decide
  simp only [handleRequest, henv, if_neg t1, if_neg t2, if_neg t3, if_true, act_active, hact,
    hpay, sessionContext.Reply, sessionContext.act]
  cases e.WantReply <;> simp

/-- C19 at a concrete input: `env`, `pty-req`, `env`, `shell` against `pty-req`,
`shell` on a fresh channel; in both runs the shell gets the same context. -/
theorem env_nonpropagation_witness :
    launched (handleAll freshSession
        [⟨"env".toList, true, envPayload⟩, ⟨"pty-req".toList, true, ptyPayload⟩,
         ⟨"env".toList, false, envPayload⟩, ⟨"shell".toList, true, []⟩]) =
      launched (handleAll freshSession
        [⟨"pty-req".toList, true, ptyPayload⟩, ⟨"shell".toList, true, []⟩]) ∧
    launched (handleAll freshSession
        [⟨"pty-req".toList, true, ptyPayload⟩, ⟨"shell".toList, true, []⟩]) =
      [handleProgram_context true "guest".toList sampleAddr shellProgram] :=
  ⟨(env_nonpropagation freshSession
      [⟨"env".toList, true, envPayload⟩, ⟨"pty-req".toList, true, ptyPayload⟩,
       ⟨"env".toList, false, envPayload⟩, ⟨"shell".toList, true, []⟩]
      [⟨"pty-req".toList, true, ptyPayload⟩, ⟨"shell".toList, true, []⟩]
      (fun _ => rfl) (by decide)).1, by decide⟩

/-! ## Termination of the shell -/

theorem Extends_refl (w : World) : w.Extends w :=
  ⟨⟨[], (List.append_nil _).symm⟩, rfl, rfl, rfl, List.suffix_refl _, List.suffix_refl _⟩

theorem Extends_trans {w w1 w2 : World} (h1 : w.Extends w1) (h2 : w1.Extends w2) :
    w.Extends w2 := by
  obtain ⟨⟨t1, e1⟩, o1, s1, d1, l1, m1⟩ := h1
  obtain ⟨⟨t2, e2⟩, o2, s2, d2, l2, m2⟩ := h2
  refine ⟨⟨t1 ++ t2, ?_⟩, o2.trans o1, s2.trans s1, d2.trans d1, l2.trans l1, m2.trans m1⟩
  rw [e2, e1, List.append_assoc]

theorem Extends_remaining_le {w w1 : World} (h : w.Extends w1) (rd : readLiner) :
    remaining rd w1 ≤ remaining rd w := by
  cases rd
  · exact h.2.2.2.2.1.length_le
  · exact h.2.2.2.2.2.length_le

theorem attempt_extends (w : World) (e : Event) : w.Extends (w.attempt e).2 :=
  ⟨⟨[e], rfl⟩, rfl, rfl, rfl, List.suffix_refl _, List.suffix_refl _⟩

theorem Fprint_extends (w : World) (sink : Sink) (data : Str) :
    w.Extends (Fprint w sink data).2 := attempt_extends w _

theorem Intn_extends (w : World) (n : Nat) : w.Extends (Intn w n).2 :=
  ⟨⟨[], (List.append_nil _).symm⟩, rfl, rfl, rfl, List.suffix_refl _, List.suffix_refl _⟩

theorem prompt_extends (b : Bool) (w : World) (data : Str) :
    w.Extends (if b = true then Fprint w Sink.stdout data else (none, w)).2 := by
  cases b
  · exact Extends_refl w
  · exact Fprint_extends w _ _

theorem ReadLine_extends (rd : readLiner) (w : World) : w.Extends (ReadLine rd w).2.2 := by
  cases rd with
  | scannerReadLiner =>
    simp only [ReadLine, scannerReadLiner_ReadLine, World.Extends]
    cases hs : w.scanLines with
    | nil => cases he : w.scanErr <;> simp
    | cons line rest => simp [World.logInput]
  | terminalReadLiner =>
    simp only [ReadLine, terminalReadLiner_ReadLine, World.Extends]
    cases ht : w.termLines with
    | nil => simp [ht]
    | cons head rest =>
      obtain ⟨line, err⟩ := head
      by_cases hl : line = []
      · cases err with
        | none => simp [hl, World.logInput]
        | some e => by_cases he : e = GoError.EOF <;> simp [hl, he, World.logInput]
      · cases err with
        | none => simp [hl, World.logInput]
        | some e => by_cases he : e = GoError.EOF <;> simp [hl, he, World.logInput]

theorem ReadLine_progress (rd : readLiner) (w : World) (h : (ReadLine rd w).2.1 = none) :
    remaining rd (ReadLine rd w).2.2 < remaining rd w := by
  cases rd with
  | scannerReadLiner =>
    simp only [ReadLine, scannerReadLiner_ReadLine] at h ⊢
    cases hs : w.scanLines with
    | nil => rw [hs] at h; cases he : w.scanErr <;> rw [he] at h <;> simp at h
    | cons line rest => simp [remaining, World.logInput, hs]
  | terminalReadLiner =>
    simp only [ReadLine, terminalReadLiner_ReadLine] at h ⊢
    cases ht : w.termLines with
    | nil => rw [ht] at h; simp at h
    | cons head rest =>
      obtain ⟨line, err⟩ := head
      rw [ht] at h
      cases err with
      | none => simp [remaining, World.logInput, ht]
      | some e => by_cases he : e = GoError.EOF <;> simp [he] at h

theorem loop_prompt_err (k : Nat) (context : commandContext) (st : ShellState) (w w1 : World)
    (err : GoError)
    (hp : (if context.pty then
            Fprint w Sink.stdout (shellPrompt context.user st.currentHostname st.currentCwd)
          else (none, w)) = (some err, w1)) :
    cmdShell_loop (k + 2) context st w = some (context.result st.lastStatus (some err) w1) := by
  rw [cmdShell_loop, cmdShell_step]
  simp only [hp]

theorem loop_read_eof (k : Nat) (context : commandContext) (st : ShellState) (w w1 w2 : World)
    (line : Str)
    (hp : (if context.pty then
            Fprint w Sink.stdout (shellPrompt context.user st.currentHostname st.currentCwd)
          else (none, w)) = (none, w1))
    (hr : ReadLine context.stdin w1 = (line, some GoError.EOF, w2)) :
    cmdShell_loop (k + 2) context st w =
      some (context.result st.lastStatus none
        (if context.pty then (Fprint w2 Sink.stdout "exit\n".toList).2 else w2)) := by
  rw [cmdShell_loop, cmdShell_step]
  simp only [hp, hr, if_true]

theorem loop_read_err (k : Nat) (context : commandContext) (st : ShellState) (w w1 w2 : World)
    (line : Str) (err : GoError)
    (hp : (if context.pty then
            Fprint w Sink.stdout (shellPrompt context.user st.currentHostname st.currentCwd)
          else (none, w)) = (none, w1))
    (hr : ReadLine context.stdin w1 = (line, some err, w2)) (he : err ≠ GoError.EOF) :
    cmdShell_loop (k + 2) context st w = some (context.result st.lastStatus (some err) w2) := by
  rw [cmdShell_loop, cmdShell_step]
  simp only [hp, hr, if_neg he]

theorem loop_blank (k : Nat) (context : commandContext) (st : ShellState) (w w2 : World)
    (line : Str) (hread : shellReads context st w line w2) (hfields : Fields line = []) :
    cmdShell_loop (k + 2) context st w = cmdShell_loop (k + 1) context st w2 := by
  obtain ⟨w1, hp, hr⟩ := hread
  rw [cmdShell_loop, cmdShell_step]
  simp only [hp, hr, hfields]

theorem loop_unknown_err (k : Nat) (context : commandContext) (st : ShellState)
    (w w2 w3 : World) (line name : Str) (rest : List Str) (err : GoError)
    (hread : shellReads context st w line w2) (hfields : Fields line = name :: rest)
    (hcmd : commands name = none)
    (hwrite : Fprint w2 Sink.stderr
      (st.currentHostname ++ ": ".toList ++ name ++ ": 指令不存在\n".toList) = (some err, w3)) :
    cmdShell_loop (k + 2) context st w = some (context.result 127 (some err) w3) := by
  obtain ⟨w1, hp, hr⟩ := hread
  rw [cmdShell_loop, cmdShell_step]
  simp only [hp, hr, hfields, hcmd, hwrite]

theorem loop_unknown (k : Nat) (context : commandContext) (st : ShellState)
    (w w2 w3 : World) (line name : Str) (rest : List Str)
    (hread : shellReads context st w line w2) (hfields : Fields line = name :: rest)
    (hcmd : commands name = none)
    (hwrite : Fprint w2 Sink.stderr
      (st.currentHostname ++ ": ".toList ++ name ++ ": 指令不存在\n".toList) = (none, w3)) :
    cmdShell_loop (k + 2) context st w =
      cmdShell_loop (k + 1) context { st with lastStatus := 127 } w3 := by
  obtain ⟨w1, hp, hr⟩ := hread
  rw [cmdShell_loop, cmdShell_step]
  simp only [hp, hr, hfields, hcmd, hwrite]

theorem loop_exit (k : Nat) (context : commandContext) (st : ShellState)
    (w w2 : World) (line name : Str) (rest : List Str) (cmd : command) (r : Result)
    (hread : shellReads context st w line w2) (hfields : Fields line = name :: rest)
    (hcmd : commands name = some cmd)
    (hexec : execute k cmd { context with args := name :: rest, cwd := some st.currentCwd,
                                          hostname := st.currentHostname } w2 = some r)
    (hname : name = "exit".toList) :
    cmdShell_loop (k + 2) context st w = some (context.result r.status none r.world) := by
  obtain ⟨w1, hp, hr⟩ := hread
  rw [cmdShell_loop, cmdShell_step]
  simp only [hp, hr, hfields, hcmd, hexec, if_pos hname]

theorem loop_run (k : Nat) (context : commandContext) (st : ShellState)
    (w w2 : World) (line name : Str) (rest : List Str) (cmd : command) (r : Result)
    (hread : shellReads context st w line w2) (hfields : Fields line = name :: rest)
    (hcmd : commands name = some cmd)
    (hexec : execute k cmd { context with args := name :: rest, cwd := some st.currentCwd,
                                          hostname := st.currentHostname } w2 = some r)
    (hname : name ≠ "exit".toList) :
    cmdShell_loop (k + 2) context st w =
      cmdShell_loop (k + 1) context
        { st with currentCwd := r.cwd.getD st.currentCwd, lastStatus := r.status }
        (match r.err with
          | some err =>
            (Fprint r.world Sink.stderr
              ("Shell execution error: ".toList ++ err.Error ++ "\n".toList)).2
          | none => r.world) := by
  obtain ⟨w1, hp, hr⟩ := hread
  rw [cmdShell_loop, cmdShell_step]
  simp only [hp, hr, hfields, hcmd, hexec, if_neg hname]

theorem printOrFail_extends (context : commandContext) (w : World) (data : Str) :
    w.Extends (context.printOrFail w data).world := by
  simp only [commandContext.printOrFail, Fprint, World.attempt]
  cases w.outcome w.trace.length <;> exact attempt_extends w _

theorem cmdExit_extends (context : commandContext) (w : World) :
    w.Extends (cmdExit_execute context w).world := by
  unfold cmdExit_execute
  split
  · split
    · exact Fprint_extends w _ _
    · exact Extends_refl w
  · exact Extends_refl w

theorem cmdPwd_extends (context : commandContext) (w : World) :
    w.Extends (cmdPwd_execute context w).world := by
  unfold cmdPwd_execute
  split
  · exact Fprint_extends w _ _
  · exact printOrFail_extends _ _ _

theorem cmdCd_extends (context : commandContext) (w : World) :
    w.Extends (cmdCd_execute context w).world := by
  unfold cmdCd_execute
  split
  · exact Fprint_extends w _ _
  · dsimp only
    split_ifs <;> first | exact Fprint_extends w _ _ | exact Extends_refl w

theorem cmdWpm_extends (context : commandContext) (w : World) :
    w.Extends (cmdWpm_execute context w).world := by
  unfold cmdWpm_execute
  split
  · split_ifs
    · exact Extends_trans (Fprint_extends w _ _) (Fprint_extends _ _ _)
    · exact Fprint_extends w _ _
    · split <;> exact Fprint_extends w _ _
    · split <;> exact Fprint_extends w _ _
    · exact Fprint_extends w _ _
  · exact Fprint_extends w _ _

theorem cmdFree_figures_extends (w : World) : w.Extends (cmdFree_figures w).2 :=
  ⟨⟨[], (List.append_nil _).symm⟩, rfl, rfl, rfl, List.suffix_refl _, List.suffix_refl _⟩

theorem cmdFree_extends (context : commandContext) (w : World) :
    w.Extends (cmdFree_execute context w).world :=
  Extends_trans (cmdFree_figures_extends w) (printOrFail_extends context _ _)

theorem execute_simple (cmd : command) (context : commandContext) (w : World)
    (h1 : cmd ≠ command.cmdShell) (h2 : cmd ≠ command.cmdSu) (h3 : cmd ≠ command.cmdCat) :
    ∃ r, (∀ k, execute (k + 1) cmd context w = some r) ∧ w.Extends r.world := by
  cases cmd with
  | cmdShell => exact absurd rfl h1
  | cmdSu => exact absurd rfl h2
  | cmdCat => exact absurd rfl h3
  | cmdTrue => exact ⟨_, fun k => by rw [execute], Extends_refl w⟩
  | cmdFalse => exact ⟨_, fun k => by rw [execute], Extends_refl w⟩
  | cmdEcho => exact ⟨cmdEcho_execute context w, fun k => by rw [execute], printOrFail_extends _ _ _⟩
  | cmdUname => exact ⟨cmdUname_execute context w, fun k => by rw [execute], printOrFail_extends _ _ _⟩
  | cmdPwd => exact ⟨_, fun k => by rw [execute], cmdPwd_extends _ _⟩
  | cmdId => exact ⟨cmdId_execute context w, fun k => by rw [execute], printOrFail_extends _ _ _⟩
  | cmdHostname => exact ⟨cmdHostname_execute context w, fun k => by rw [execute], printOrFail_extends _ _ _⟩
  | cmdCd => exact ⟨_, fun k => by rw [execute], cmdCd_extends _ _⟩
  | cmdExit => exact ⟨_, fun k => by rw [execute], cmdExit_extends _ _⟩
  | cmdWpm => exact ⟨_, fun k => by rw [execute], cmdWpm_extends _ _⟩
  | cmdApt => exact ⟨cmdApt_execute context w, fun k => by rw [execute], Fprint_extends w _ _⟩
  | cmdAptGet => exact ⟨cmdAptGet_execute context w, fun k => by rw [execute], Fprint_extends w _ _⟩
  | cmdLscpu => exact ⟨cmdLscpu_execute context w, fun k => by rw [execute], printOrFail_extends _ _ _⟩
  | cmdFree => exact ⟨_, fun k => by rw [execute], cmdFree_extends _ _⟩
  | cmdLspci => exact ⟨cmdLspci_execute context w, fun k => by rw [execute], Fprint_extends w _ _⟩

theorem catLoop_total (context : commandContext) (n : Nat) :
    ∀ w, remaining context.stdin w ≤ n →
      ∃ r, (∀ fuel, n + 1 ≤ fuel → catLoop context fuel w = some r) ∧ w.Extends r.world := by
  induction n with
  | zero =>
    intro w hrem
    rcases hR : ReadLine context.stdin w with ⟨line, re, w1⟩
    have hw1 : w.Extends w1 := by
      have h := ReadLine_extends context.stdin w; rw [hR] at h; exact h
    cases re with
    | none =>
      have h := ReadLine_progress context.stdin w (by rw [hR])
      omega
    | some err =>
      by_cases he : err = GoError.EOF
      · refine ⟨context.result 0 none w1, fun fuel hf => ?_, hw1⟩
        obtain ⟨k, rfl⟩ : ∃ k, fuel = k + 1 := ⟨fuel - 1, by omega⟩
        rw [catLoop]; simp only [hR, if_pos he]
      · refine ⟨context.result 1 (some err) w1, fun fuel hf => ?_, hw1⟩
        obtain ⟨k, rfl⟩ : ∃ k, fuel = k + 1 := ⟨fuel - 1, by omega⟩
        rw [catLoop]; simp only [hR, if_neg he]
  | succ m ih =>
    intro w hrem
    rcases hR : ReadLine context.stdin w with ⟨line, re, w1⟩
    have hw1 : w.Extends w1 := by
      have h := ReadLine_extends context.stdin w; rw [hR] at h; exact h
    cases re with
    | none =>
      have hlt := ReadLine_progress context.stdin w (by rw [hR])
      rw [hR] at hlt
      rcases hW : Fprint w1 Sink.stdout (line ++ "\n".toList) with ⟨we, w2⟩
      have hw2 : w1.Extends w2 := by
        have h := Fprint_extends w1 Sink.stdout (line ++ "\n".toList); rw [hW] at h; exact h
      cases we with
      | some werr =>
        refine ⟨context.result 1 (some werr) w2, fun fuel hf => ?_, Extends_trans hw1 hw2⟩
        obtain ⟨k, rfl⟩ : ∃ k, fuel = k + 1 := ⟨fuel - 1, by omega⟩
        rw [catLoop]; simp only [hR, hW]
      | none =>
        have hle := Extends_remaining_le hw2 context.stdin
        obtain ⟨r, hr, hext⟩ := ih w2 (by simp only at hlt; omega)
        refine ⟨r, fun fuel hf => ?_, Extends_trans hw1 (Extends_trans hw2 hext)⟩
        obtain ⟨k, rfl⟩ : ∃ k, fuel = k + 1 := ⟨fuel - 1, by omega⟩
        rw [catLoop]; simp only [hR, hW]
        exact hr k (by omega)
    | some err =>
      by_cases he : err = GoError.EOF
      · refine ⟨context.result 0 none w1, fun fuel hf => ?_, hw1⟩
        obtain ⟨k, rfl⟩ : ∃ k, fuel = k + 1 := ⟨fuel - 1, by omega⟩
        rw [catLoop]; simp only [hR, if_pos he]
      · refine ⟨context.result 1 (some err) w1, fun fuel hf => ?_, hw1⟩
        obtain ⟨k, rfl⟩ : ∃ k, fuel = k + 1 := ⟨fuel - 1, by omega⟩
        rw [catLoop]; simp only [hR, if_neg he]

theorem afterPrompt_extends (context : commandContext) (st : ShellState) (w : World) :
    w.Extends (afterPrompt context st w) := prompt_extends _ _ _

theorem loop_total_of (n : Nat) (ihL : ∀ m, m < n → LoopTotal m)
    (ihE : ∀ m, m < n → ExecTotal m) : LoopTotal n := by
  intro context st w hrem
  rcases hP : (if context.pty then
      Fprint w Sink.stdout (shellPrompt context.user st.currentHostname st.currentCwd)
    else (none, w)) with ⟨pe, w1⟩
  have hw1 : w.Extends w1 := by
    have h := prompt_extends context.pty w
      (shellPrompt context.user st.currentHostname st.currentCwd)
    rw [hP] at h; exact h
  have hA : afterPrompt context st w = w1 := by simp only [afterPrompt, hP]
  rw [hA]
  cases pe with
  | some err =>
    refine ⟨context.result st.lastStatus (some err) w1, fun fuel hf => ?_,
      Extends_refl w1⟩
    obtain ⟨k, rfl⟩ : ∃ k, fuel = k + 2 := ⟨fuel - 2, by omega⟩
    exact loop_prompt_err k context st w w1 err hP
  | none =>
    rcases hR : ReadLine context.stdin w1 with ⟨line, re, w2⟩
    have hw2 : w1.Extends w2 := by
      have h := ReadLine_extends context.stdin w1; rw [hR] at h; exact h
    cases re with
    | some err =>
      by_cases he : err = GoError.EOF
      · subst he
        refine ⟨context.result st.lastStatus none
          (if context.pty then (Fprint w2 Sink.stdout "exit\n".toList).2 else w2),
          fun fuel hf => ?_, ?_⟩
        · obtain ⟨k, rfl⟩ : ∃ k, fuel = k + 2 := ⟨fuel - 2, by omega⟩
          exact loop_read_eof k context st w w1 w2 line hP hR
        · refine Extends_trans hw2 ?_
          show w2.Extends (if context.pty then _ else w2)
          cases context.pty
          · exact Extends_refl w2
          · exact Fprint_extends w2 _ _
      · refine ⟨context.result st.lastStatus (some err) w2, fun fuel hf => ?_, hw2⟩
        obtain ⟨k, rfl⟩ : ∃ k, fuel = k + 2 := ⟨fuel - 2, by omega⟩
        exact loop_read_err k context st w w1 w2 line err hP hR he
    | none =>
      have hread : shellReads context st w line w2 := ⟨w1, hP, hR⟩
      have hlt := ReadLine_progress context.stdin w1 (by rw [hR])
      rw [hR] at hlt
      have hle1 := Extends_remaining_le hw1 context.stdin
      obtain ⟨m, rfl⟩ : ∃ m, n = m + 1 := ⟨n - 1, by simp only at hlt; omega⟩
      have hrem2 : remaining context.stdin w2 ≤ m := by simp only at hlt; omega
      have hL := ihL m (Nat.lt_succ_self m)
      have hE := ihE m (Nat.lt_succ_self m)
      cases hF : Fields line with
      | nil =>
        obtain ⟨r, hr, hext⟩ := hL context st w2 hrem2
        refine ⟨r, fun fuel hf => ?_, ?_⟩
        · obtain ⟨k, rfl⟩ : ∃ k, fuel = k + 2 := ⟨fuel - 2, by omega⟩
          rw [loop_blank k context st w w2 line hread hF]
          exact hr (k + 1) (by omega)
        · exact Extends_trans hw2
            (Extends_trans (afterPrompt_extends context st w2) hext)
      | cons name rest =>
        cases hC : commands name with
        | none =>
          rcases hW : Fprint w2 Sink.stderr
            (st.currentHostname ++ ": ".toList ++ name ++ ": 指令不存在\n".toList) with ⟨we, w3⟩
          have hw3 : w2.Extends w3 := by
            have h := Fprint_extends w2 Sink.stderr
              (st.currentHostname ++ ": ".toList ++ name ++ ": 指令不存在\n".toList)
            rw [hW] at h; exact h
          cases we with
          | some err =>
            refine ⟨context.result 127 (some err) w3, fun fuel hf => ?_,
              Extends_trans hw2 hw3⟩
            obtain ⟨k, rfl⟩ : ∃ k, fuel = k + 2 := ⟨fuel - 2, by omega⟩
            exact loop_unknown_err k context st w w2 w3 line name rest err hread hF hC hW
          | none =>
            have hle3 := Extends_remaining_le hw3 context.stdin
            obtain ⟨r, hr, hext⟩ := hL context { st with lastStatus := 127 } w3
              (by omega)
            refine ⟨r, fun fuel hf => ?_, ?_⟩
            · obtain ⟨k, rfl⟩ : ∃ k, fuel = k + 2 := ⟨fuel - 2, by omega⟩
              rw [loop_unknown k context st w w2 w3 line name rest hread hF hC hW]
              exact hr (k + 1) (by omega)
            · exact Extends_trans hw2 (Extends_trans hw3
                (Extends_trans (afterPrompt_extends context _ w3) hext))
        | some cmd =>
          obtain ⟨r1, hr1, hext1⟩ := hE cmd
            { context with args := name :: rest, cwd := some st.currentCwd,
                           hostname := st.currentHostname } w2 hrem2
          by_cases hx : name = "exit".toList
          · refine ⟨context.result r1.status none r1.world, fun fuel hf => ?_,
              Extends_trans hw2 hext1⟩
            obtain ⟨k, rfl⟩ : ∃ k, fuel = k + 2 := ⟨fuel - 2, by omega⟩
            exact loop_exit k context st w w2 line name rest cmd r1 hread hF hC
              (hr1 k (by omega)) hx
          · have hw3 : r1.world.Extends (match r1.err with
                | some err =>
                  (Fprint r1.world Sink.stderr
                    ("Shell execution error: ".toList ++ err.Error ++ "\n".toList)).2
                | none => r1.world) := by
              cases r1.err with
              | none => exact Extends_refl _
              | some err => exact Fprint_extends _ _ _
            have hle1 := Extends_remaining_le hext1 context.stdin
            have hle3 := Extends_remaining_le hw3 context.stdin
            obtain ⟨r, hr, hext⟩ := hL context
              { st with currentCwd := r1.cwd.getD st.currentCwd, lastStatus := r1.status }
              _ (le_trans hle3 (le_trans hle1 hrem2))
            refine ⟨r, fun fuel hf => ?_, ?_⟩
            · obtain ⟨k, rfl⟩ : ∃ k, fuel = k + 2 := ⟨fuel - 2, by omega⟩
              rw [loop_run k context st w w2 line name rest cmd r1 hread hF hC
                (hr1 k (by omega)) hx]
              exact hr (k + 1) (by omega)
            · exact Extends_trans hw2 (Extends_trans hext1
                (Extends_trans hw3
                  (Extends_trans (afterPrompt_extends context _ _) hext)))

theorem exec_total_of (n : Nat) (hL : LoopTotal n) : ExecTotal n := by
  intro cmd context w hrem
  by_cases h1 : cmd = command.cmdShell
  · subst h1
    obtain ⟨r, hr, hext⟩ := hL context (shellInit w) w hrem
    refine ⟨r, fun fuel hf => ?_, Extends_trans (afterPrompt_extends _ _ _) hext⟩
    obtain ⟨k, rfl⟩ : ∃ k, fuel = k + 1 := ⟨fuel - 1, by omega⟩
    rw [execute]
    exact hr k (by omega)
  by_cases h2 : cmd = command.cmdSu
  · subst h2
    obtain ⟨r, hr, hext⟩ := hL
      { args := shellProgram, stdin := context.stdin, pty := context.pty,
        user := (match context.args with
          | _ :: user :: _ => user
          | _ => "root".toList),
        cwd := none, hostname := [] } (shellInit w) w hrem
    refine ⟨{ r with cwd := context.cwd }, fun fuel hf => ?_,
      Extends_trans (afterPrompt_extends _ _ _) hext⟩
    obtain ⟨k, rfl⟩ : ∃ k, fuel = k + 2 := ⟨fuel - 2, by omega⟩
    have h := hr k (by omega)
    rw [execute, cmdSu_execute]
    split
    · rename_i heq
      exact absurd (h.symm.trans heq) (by simp)
    · rename_i r2 heq
      have hrr : r = r2 := Option.some.inj (h.symm.trans heq)
      subst hrr
      rfl
  by_cases h3 : cmd = command.cmdCat
  · subst h3
    obtain ⟨r, hr, hext⟩ := catLoop_total context n w hrem
    cases hargs : context.args with
    | nil =>
      refine ⟨r, fun fuel hf => ?_, hext⟩
      obtain ⟨k, rfl⟩ : ∃ k, fuel = k + 1 := ⟨fuel - 1, by omega⟩
      rw [execute]
      simp only [cmdCat_execute, hargs]
      exact hr k (by omega)
    | cons a rest =>
      cases rest with
      | nil =>
        refine ⟨r, fun fuel hf => ?_, hext⟩
        obtain ⟨k, rfl⟩ : ∃ k, fuel = k + 1 := ⟨fuel - 1, by omega⟩
        rw [execute]
        simp only [cmdCat_execute, hargs]
        exact hr k (by omega)
      | cons b rest2 =>
        refine ⟨context.result 1
          (Fprint w Sink.stderr (context.hostname ++ ": cat: 文件操作未实现\n".toList)).1
          (Fprint w Sink.stderr (context.hostname ++ ": cat: 文件操作未实现\n".toList)).2,
          fun fuel hf => ?_, Fprint_extends w _ _⟩
        obtain ⟨k, rfl⟩ : ∃ k, fuel = k + 1 := ⟨fuel - 1, by omega⟩
        rw [execute]
        simp only [cmdCat_execute, hargs]
  · obtain ⟨r, hr, hext⟩ := execute_simple cmd context w h1 h2 h3
    refine ⟨r, fun fuel hf => ?_, hext⟩
    obtain ⟨k, rfl⟩ : ∃ k, fuel = k + 1 := ⟨fuel - 1, by omega⟩
    exact hr k

theorem shell_total (n : Nat) : LoopTotal n ∧ ExecTotal n := by
  induction n using Nat.strong_induction_on with
  | _ n ih =>
    have hL : LoopTotal n := loop_total_of n (fun m hm => (ih m hm).1) (fun m hm => (ih m hm).2)
    exact ⟨hL, exec_total_of n hL⟩

/-! ## The shell spawned by su -/

theorem cmdSu_eq (fuel : Nat) (context : commandContext) (w : World) (name u : Str)
    (rest : List Str) (hargs : context.args = name :: u :: rest) :
    cmdSu_execute (fuel + 1) context w =
      (cmdShell_loop fuel
        { args := shellProgram, stdin := context.stdin, pty := context.pty, user := u,
          cwd := none, hostname := [] } (shellInit w) w).map
        (fun r => { r with cwd := context.cwd }) := by
  rw [cmdSu_execute]
  simp only [hargs]
  cases cmdShell_loop fuel
    { args := shellProgram, stdin := context.stdin, pty := context.pty, user := u,
      cwd := none, hostname := [] } (shellInit w) w <;> rfl

/-- C11: in PTY mode the shell spawned by `su u` returns once its input is used up,
and the first thing it writes is the prompt of the user `u` with the process-wide
hostname and the default directory `/home/guest/`; a caller that differs only in its
working directory or its hostname gets the same effects, status and error. -/
theorem cmdSu_first_prompt (context : commandContext) (w : World) (name u : Str)
    (rest : List Str) (hargs : context.args = name :: u :: rest)
    (hpty : context.pty = true) :
    ∃ r, (∀ fuel, 4 * remaining context.stdin w + 3 ≤ fuel →
        cmdSu_execute fuel context w = some r) ∧
      (∃ tail, r.world.trace =
        w.trace ++ Event.write Sink.stdout
          (shellPrompt u (globalHostname w) "/home/guest/".toList) :: tail) ∧
      ∀ (cwd2 : Option Str) (hostname2 : Str), ∃ r2,
        (∀ fuel, 4 * remaining context.stdin w + 3 ≤ fuel →
          cmdSu_execute fuel { context with cwd := cwd2, hostname := hostname2 } w =
            some r2) ∧
        r2.world = r.world ∧ r2.status = r.status ∧ r2.err = r.err := by
  obtain ⟨r, hr, hext⟩ := (shell_total (remaining context.stdin w)).1
    { args := shellProgram, stdin := context.stdin, pty := context.pty, user := u,
      cwd := none, hostname := [] } (shellInit w) w (le_refl _)
  refine ⟨{ r with cwd := context.cwd }, fun fuel hf => ?_, ?_, fun cwd2 hostname2 => ?_⟩
  · obtain ⟨k, rfl⟩ : ∃ k, fuel = k + 1 := ⟨fuel - 1, by omega⟩
    rw [cmdSu_eq k context w name u rest hargs, hr k (by omega)]
    rfl
  · obtain ⟨tail, ht⟩ := hext.1
    refine ⟨tail, ?_⟩
    rw [ht]
    simp only [afterPrompt, hpty, if_true, Fprint, World.attempt, shellInit,
      List.append_assoc, List.singleton_append]
  · refine ⟨{ r with cwd := cwd2 }, fun fuel hf => ?_, rfl, rfl, rfl⟩
    obtain ⟨k, rfl⟩ : ∃ k, fuel = k + 1 := ⟨fuel - 1, by omega⟩
    rw [cmdSu_eq k { context with cwd := cwd2, hostname := hostname2 } w name u rest hargs]
    exact congrArg (Option.map _) (hr k (by omega))

/-- C11 at a concrete input: `su alice`, typed at a terminal by a caller whose working
directory had become `/home/guest/projects`; the new shell starts with the prompt
`alice@vm-000000:/home/guest/$ `. -/
theorem cmdSu_first_prompt_witness :
    shellPrompt "alice".toList (globalHostname (quietWorld [] [])) "/home/guest/".toList =
      "alice@vm-000000:/home/guest/$ ".toList ∧
    ∃ r, (∀ fuel, 4 * remaining readLiner.terminalReadLiner (quietWorld [] []) + 3 ≤ fuel →
        cmdSu_execute fuel
          { args := ["su".toList, "alice".toList], stdin := readLiner.terminalReadLiner,
            pty := true, user := "guest".toList, cwd := some "/home/guest/projects".toList,
            hostname := "vm-000000".toList } (quietWorld [] []) = some r) ∧
      (∃ tail, r.world.trace =
        (quietWorld [] []).trace ++ Event.write Sink.stdout
          (shellPrompt "alice".toList (globalHostname (quietWorld [] []))
            "/home/guest/".toList) :: tail) ∧
      ∀ (cwd2 : Option Str) (hostname2 : Str), ∃ r2,
        (∀ fuel, 4 * remaining readLiner.terminalReadLiner (quietWorld [] []) + 3 ≤ fuel →
          cmdSu_execute fuel
            { args := ["su".toList, "alice".toList], stdin := readLiner.terminalReadLiner,
              pty := true, user := "guest".toList, cwd := cwd2, hostname := hostname2 }
            (quietWorld [] []) = some r2) ∧
        r2.world = r.world ∧ r2.status = r.status ∧ r2.err = r.err :=
  ⟨by decide,
    cmdSu_first_prompt
      { args := ["su".toList, "alice".toList], stdin := readLiner.terminalReadLiner,
        pty := true, user := "guest".toList, cwd := some "/home/guest/projects".toList,
        hostname := "vm-000000".toList } (quietWorld [] []) "su".toList "alice".toList []
      rfl rfl⟩

/-! ## A run of the shell to the end of its input -/

/-- C21, the claim refuted for a name that is no command: when the write of the
not-found message fails, the shell returns status 127 with the write error at once; the
next line, `true`, is never read. -/
theorem cmdShell_notfound_write_aborts :
    (cmdShell_execute 10 guestShellContext
      { brokenWorld with scanLines := ["frobnicate".toList, "true".toList] }).map
        (fun r => (r.status, r.err, r.world.trace, r.world.scanLines)) =
      some (127, some (GoError.other "broken pipe".toList),
        [Event.write Sink.stderr "vm-000000: frobnicate: 指令不存在\n".toList],
        ["true".toList]) := by
  decide

/-- C21, as amended: once the shell has written its prompt and read a line whose first
field `name` is not `exit`, the iteration ends the shell in one case only. When `name`
is a registered command, the command returns and the shell goes on, with the status
of the command as last status and a report on stderr when the command returned an
error, whatever writes failed. When `name` is no command and the not-found message is
written, the shell goes on with last status 127; when that write fails, the shell
returns status 127 and the write error. -/
theorem cmdShell_step_continues (context : commandContext) (st : ShellState) (w w2 : World)
    (line name : Str) (rest : List Str)
    (hread : shellReads context st w line w2) (hfields : Fields line = name :: rest)
    (hname : name ≠ "exit".toList) :
    (∀ cmd, commands name = some cmd →
      ∃ r, ∀ fuel, 4 * remaining context.stdin w2 + 4 ≤ fuel →
        execute fuel cmd { context with args := name :: rest, cwd := some st.currentCwd,
                                        hostname := st.currentHostname } w2 = some r ∧
        cmdShell_step (fuel + 1) context st w = some (ShellStep.next
          { st with currentCwd := r.cwd.getD st.currentCwd, lastStatus := r.status }
          (match r.err with
            | some err =>
              (Fprint r.world Sink.stderr
                ("Shell execution error: ".toList ++ err.Error ++ "\n".toList)).2
            | none => r.world))) ∧
    (commands name = none →
      (∀ fuel w3, Fprint w2 Sink.stderr
          (st.currentHostname ++ ": ".toList ++ name ++ ": 指令不存在\n".toList) = (none, w3) →
        cmdShell_step (fuel + 1) context st w =
          some (ShellStep.next { st with lastStatus := 127 } w3)) ∧
      (∀ fuel err w3, Fprint w2 Sink.stderr
          (st.currentHostname ++ ": ".toList ++ name ++ ": 指令不存在\n".toList) =
            (some err, w3) →
        cmdShell_step (fuel + 1) context st w =
          some (ShellStep.done (context.result 127 (some err) w3)))) := by
  obtain ⟨w1, hp, hr⟩ := hread
  refine ⟨fun cmd hcmd => ?_, fun hcmd => ⟨fun fuel w3 hw => ?_, fun fuel err w3 hw => ?_⟩⟩
  · obtain ⟨r, hex, _⟩ := (shell_total (remaining context.stdin w2)).2 cmd
      { context with args := name :: rest, cwd := some st.currentCwd,
                     hostname := st.currentHostname } w2 (le_refl _)
    refine ⟨r, fun fuel hf => ⟨hex fuel hf, ?_⟩⟩
    rw [cmdShell_step]
    simp only [hp, hr, hfields, hcmd, hex fuel hf, if_neg hname]
  · rw [cmdShell_step]
    simp only [hp, hr, hfields, hcmd, hw]
  · rw [cmdShell_step]
    simp only [hp, hr, hfields, hcmd, hw]

/-- C21 at a concrete input: the line `echo hi` read from the scanner while every write
fails; `echo` returns status 1 with the write error and the shell goes on, reads the
next line, `true`, and returns status 0 without error at the end of the input. -/
theorem cmdShell_step_continues_witness :
    (∃ r, ∀ fuel, 4 * remaining guestShellContext.stdin
        (ReadLine readLiner.scannerReadLiner
          { brokenWorld with scanLines := ["echo hi".toList] }).2.2 + 4 ≤ fuel →
      execute fuel command.cmdEcho
        { guestShellContext with
          args := ["echo".toList, "hi".toList],
          cwd := some (shellInit { brokenWorld with scanLines := ["echo hi".toList] }).currentCwd,
          hostname :=
            (shellInit { brokenWorld with scanLines := ["echo hi".toList] }).currentHostname }
        (ReadLine readLiner.scannerReadLiner
          { brokenWorld with scanLines := ["echo hi".toList] }).2.2 = some r ∧
      cmdShell_step (fuel + 1) guestShellContext
        (shellInit { brokenWorld with scanLines := ["echo hi".toList] })
        { brokenWorld with scanLines := ["echo hi".toList] } = some (ShellStep.next
          { shellInit { brokenWorld with scanLines := ["echo hi".toList] } with
            currentCwd := r.cwd.getD
              (shellInit { brokenWorld with scanLines := ["echo hi".toList] }).currentCwd,
            lastStatus := r.status }
          (match r.err with
            | some err =>
              (Fprint r.world Sink.stderr
                ("Shell execution error: ".toList ++ err.Error ++ "\n".toList)).2
            | none => r.world))) ∧
    (cmdShell_execute 10 guestShellContext
      { brokenWorld with scanLines := ["echo hi".toList, "true".toList] }).map
        (fun r => (r.status, r.err, r.world.trace, r.world.scanLines)) =
      some (0, none,
        [Event.write Sink.stdout "hi\n".toList,
         Event.write Sink.stderr "Shell execution error: broken pipe\n".toList], []) :=
  ⟨(cmdShell_step_continues guestShellContext
    (shellInit { brokenWorld with scanLines := ["echo hi".toList] })
    { brokenWorld with scanLines := ["echo hi".toList] }
    (ReadLine readLiner.scannerReadLiner
      { brokenWorld with scanLines := ["echo hi".toList] }).2.2
    "echo hi".toList "echo".toList ["hi".toList]
    ⟨_, rfl, rfl⟩ (by decide) (by decide)).1 command.cmdEcho (by decide), by decide⟩

/-! ## The end of the input in a session with a pty -/

theorem terminalReadLiner_never_EOF (w : World) :
    (terminalReadLiner_ReadLine w).2.1 ≠ some GoError.EOF := by
  simp only [terminalReadLiner_ReadLine]
  cases ht : w.termLines with
  | nil => simp
  | cons head rest =>
    obtain ⟨line, err⟩ := head
    by_cases he : err = some GoError.EOF
    · simp [he]
    · simp [he]

/-- C22, the code against the claim: the reader of a session with a pty never returns
`io.EOF`, so at the end of the client's input the shell started by `handleProgram`
writes its prompt and nothing after it, no `exit`, and returns the last status with an
error: the client's end-of-file marker, or the error of the prompt write. In the
session of the guest without any input, the channel then sees a CRLF, the exit status
0, the end-of-write notice and the two closes. -/
theorem cmdShell_pty_eof_no_echo (user : Str) (addr : RemoteAddr) (st : ShellState)
    (w : World) (k : Nat) :
    (terminalReadLiner_ReadLine w).2.1 ≠ some GoError.EOF ∧
    (∃ r, cmdShell_loop (k + 2) (handleProgram_context true user addr shellProgram) st
        { w with termLines := [] } = some r ∧
      r.status = st.lastStatus ∧
      r.err = some ((w.outcome w.trace.length).getD GoError.clientEOF) ∧
      r.world.trace = w.trace ++
        [Event.write Sink.stdout (shellPrompt user st.currentHostname st.currentCwd)]) ∧
    (handleProgram_goroutine 3 true "guest".toList sampleAddr shellProgram
      (quietWorld [] [])).map (fun w1 => w1.trace) =
      some [Event.write Sink.stdout "guest@vm-000000:~/$ ".toList,
            Event.channelWrite "\r\n".toList,
            Event.sendRequest "exit-status".toList false (marshalUint32 0),
            Event.sendRequest "eow@openssh.com".toList false [],
            Event.closeWrite, Event.close, Event.closeInputChan] := by
  refine ⟨terminalReadLiner_never_EOF w, ?_, by decide⟩
  have hP : (if (handleProgram_context true user addr shellProgram).pty then
        Fprint { w with termLines := [] } Sink.stdout
          (shellPrompt (handleProgram_context true user addr shellProgram).user
            st.currentHostname st.currentCwd)
      else (none, { w with termLines := [] })) =
      (w.outcome w.trace.length,
        (Fprint { w with termLines := [] } Sink.stdout
          (shellPrompt user st.currentHostname st.currentCwd)).2) := by
    simp only [handleProgram_context, if_true, Fprint, World.attempt]
  cases ho : w.outcome w.trace.length with
  | some e =>
    rw [ho] at hP
    exact ⟨_, loop_prompt_err k _ st _ _ e hP, rfl, rfl, rfl⟩
  | none =>
    rw [ho] at hP
    refine ⟨_, loop_read_err k _ st _ _
      (ReadLine readLiner.terminalReadLiner
        (Fprint { w with termLines := [] } Sink.stdout
          (shellPrompt user st.currentHostname st.currentCwd)).2).2.2
      [] GoError.clientEOF hP ?_ (by decide), rfl, rfl, rfl⟩
    simp [handleProgram_context, ReadLine, terminalReadLiner_ReadLine, Fprint,
      World.attempt]

/-! ## The goroutines that close the input queue -/

theorem started_act (c : sessionContext) (a : Action) :
    started (c.act a).actions = started c.actions ++ started [a] := by
  simp only [sessionContext.act, started_append]

theorem started_act_metric (c : sessionContext) (label : Str) :
    started (c.act (Action.metricInc label)).actions = started c.actions := by
  rw [started_act]; simp [started]

theorem started_act_reply (c : sessionContext) (ok : Bool) (payload : List Nat) :
    started (c.act (Action.reply ok payload)).actions = started c.actions := by
  rw [started_act]; simp [started]

theorem started_act_log (c : sessionContext) (entry : logEntry) :
    started (c.act (Action.logEvent entry)).actions = started c.actions := by
  rw [started_act]; simp [started]

theorem started_act_warning (c : sessionContext) (msg : Str) :
    started (c.act (Action.warning msg)).actions = started c.actions := by
  rw [started_act]; simp [started]

theorem started_act_go (c : sessionContext) (g : Goroutine) :
    started (c.act (Action.go g)).actions = started c.actions ++ [g] := by
  rw [started_act]; simp [started]

theorem started_Reply (c : sessionContext) (request : Request) (ok : Bool)
    (payload : List Nat) : started (c.Reply request ok payload).2.actions = started c.actions := by
  simp only [sessionContext.Reply]
  split
  · exact started_act_reply _ _ _
  · rfl

theorem started_deny (c : sessionContext) (request : Request) (err : GoError) :
    started (c.deny request err).2.actions = started c.actions :=
  started_Reply _ _ _ _

theorem Reply_started_eq (context : sessionContext) (request : Request) (ok : Bool)
    (payload : List Nat) :
    ∃ e c, context.Reply request ok payload = (e, c) ∧ c.active = context.active ∧
      started c.actions = started context.actions :=
  ⟨_, _, rfl, Reply_active _ _ _ _, started_Reply _ _ _ _⟩

theorem launch_none {c c2 : sessionContext} (h : started c2.actions = started c.actions) :
    ∃ gs, started c2.actions = started c.actions ++ gs ∧
      (gs = [] ∨ (gs = [Goroutine.emptyExec] ∧ c.active = false) ∨
        ∃ p, gs = [Goroutine.program p] ∧ c.active = false ∧ c2.active = true) :=
  ⟨[], by rw [h, List.append_nil], Or.inl rfl⟩

theorem handleRequest_started (context : sessionContext) (request : Request) :
    ∃ gs, started (handleRequest context request).2.actions = started context.actions ++ gs ∧
      (gs = [] ∨ (gs = [Goroutine.emptyExec] ∧ context.active = false) ∨
        ∃ p, gs = [Goroutine.program p] ∧ context.active = false ∧
          (handleRequest context request).2.active = true) := by
  have hm := started_act_metric context
  unfold handleRequest
  by_cases h1 : request.Type_ = "pty-req".toList
  · simp only [if_pos h1, act_active, act_pty]
    by_cases ha : context.active = true
    · simp only [if_pos ha]
      exact launch_none ((started_deny _ _ _).trans (hm _))
    · simp only [if_neg ha]
      by_cases hp : context.pty = true
      · simp only [if_pos hp]
        exact launch_none ((started_deny _ _ _).trans (hm _))
      · simp only [if_neg hp]
        cases unmarshalPty request.Payload with
        | none => exact launch_none ((started_deny _ _ _).trans (hm _))
        | some payload =>
          obtain ⟨e, c, hR, _, hcs⟩ := Reply_started_eq
            ((context.act (Action.metricInc request.Type_)).act (Action.logEvent
              (logEntry.ptyLog (context.act (Action.metricInc request.Type_)).channelID
                payload.Term payload.Width payload.Height))) request true []
          simp only [hR]
          cases e <;>
            exact launch_none (hcs.trans ((started_act_log _ _).trans (hm _)))
  · simp only [if_neg h1]
    by_cases h2 : request.Type_ = "shell".toList
    · simp only [if_pos h2, act_active]
      by_cases ha : context.active = true
      · simp only [if_pos ha]
        exact launch_none ((started_deny _ _ _).trans (hm _))
      · simp only [if_neg ha]
        have haf : context.active = false := by simpa using ha
        split_ifs
        · exact launch_none ((started_deny _ _ _).trans (hm _))
        · obtain ⟨e, c, hR, _, hcs⟩ := Reply_started_eq
            ((context.act (Action.metricInc request.Type_)).act (Action.logEvent
              (logEntry.shellLog (context.act (Action.metricInc request.Type_)).channelID)))
            request true []
          simp only [hR]
          cases e with
          | some err => exact launch_none (hcs.trans ((started_act_log _ _).trans (hm _)))
          | none =>
            refine ⟨[Goroutine.program shellProgram], ?_, Or.inr (Or.inr ⟨_, rfl, haf, rfl⟩)⟩
            show started ({ c with active := true }.act _).actions = _
            rw [started_act_go]
            exact congrArg (· ++ _) (hcs.trans ((started_act_log _ _).trans (hm _)))
    · simp only [if_neg h2]
      by_cases h3 : request.Type_ = "exec".toList
      · simp only [if_pos h3, act_active]
        by_cases ha : context.active = true
        · simp only [if_pos ha]
          exact launch_none ((started_deny _ _ _).trans (hm _))
        · simp only [if_neg ha]
          have haf : context.active = false := by simpa using ha
          cases unmarshalExec request.Payload with
          | none => exact launch_none ((started_deny _ _ _).trans (hm _))
          | some payload =>
            obtain ⟨e, c, hR, _, hcs⟩ := Reply_started_eq
              ((context.act (Action.metricInc request.Type_)).act (Action.logEvent
                (logEntry.execLog (context.act (Action.metricInc request.Type_)).channelID
                  payload.Command))) request true []
            simp only [hR]
            cases e with
            | some err => exact launch_none (hcs.trans ((started_act_log _ _).trans (hm _)))
            | none =>
              have hc := hcs.trans ((started_act_log _ _).trans (hm _))
              split_ifs
              · refine ⟨[Goroutine.emptyExec], ?_, Or.inr (Or.inl ⟨rfl, haf⟩)⟩
                show started (c.act _).actions = _
                rw [started_act_go, hc]
              · refine ⟨[Goroutine.program (Fields payload.Command)], ?_,
                  Or.inr (Or.inr ⟨_, rfl, haf, rfl⟩)⟩
                show started ({ c with active := true }.act _).actions = _
                rw [started_act_go]
                exact congrArg (· ++ _) hc
      · simp only [if_neg h3]
        split_ifs <;> (try split) <;>
          exact launch_none (by
            simp only [started_deny, started_Reply, started_act_metric, started_act_log,
              started_act_warning])

theorem handleAll_started (requests : List Request) :
    ∀ c : sessionContext, ∃ k tp,
      started (handleAll c requests).actions =
        started c.actions ++ List.replicate k Goroutine.emptyExec ++ tp ∧
      (tp = [] ∨ ∃ p, tp = [Goroutine.program p]) ∧
      (c.active = false ∨ (k = 0 ∧ tp = [])) := by
  induction requests with
  | nil =>
    intro c
    exact ⟨0, [], by simp [handleAll], Or.inl rfl, Or.inr ⟨rfl, rfl⟩⟩
  | cons r rest ih =>
    intro c
    obtain ⟨k, tp, hs, htp, hact⟩ := ih (handleRequest c r).2
    obtain ⟨gs, hg, hcase⟩ := handleRequest_started c r
    have hall : handleAll c (r :: rest) = handleAll (handleRequest c r).2 rest := rfl
    rw [hall, hs, hg]
    rcases hcase with h | ⟨h, ha⟩ | ⟨p, h, ha, ha2⟩
    · subst h
      refine ⟨k, tp, by rw [List.append_nil], htp, ?_⟩
      cases hc : c.active with
      | false => exact Or.inl rfl
      | true =>
        have h2 := (handleRequest_flags c r).1 hc
        rcases hact with h3 | h3
        · rw [h2] at h3
          exact absurd h3 (by decide)
        · exact Or.inr h3
    · subst h
      refine ⟨k + 1, tp, ?_, htp, Or.inl ha⟩
      simp [List.replicate_succ, List.append_assoc]
    · subst h
      rcases hact with h3 | ⟨hk, ht⟩
      · rw [ha2] at h3
        exact absurd h3 (by decide)
      · subst hk
        subst ht
        exact ⟨0, [Goroutine.program p], by simp, Or.inr ⟨p, rfl⟩, Or.inl ha⟩

/-- C23, the code against the claim: an `exec` request with an empty command starts
the goroutine that closes the input queue and leaves the channel inactive, so the
`shell` request (or the `exec` request, with or without a command) that follows is
accepted and starts a second goroutine; each of the two ends by closing the input
queue. In general the goroutines started on a channel are any number of these no-op
goroutines followed by at most one program goroutine, and none is started once the
channel is active. -/
theorem exec_empty_then_program_closes_twice :
    started (handleAll freshSession
      [⟨"exec".toList, true, [0, 0, 0, 0]⟩, ⟨"shell".toList, true, []⟩]).actions =
      [Goroutine.emptyExec, Goroutine.program shellProgram] ∧
    started (handleAll freshSession
      [⟨"exec".toList, true, [0, 0, 0, 2, 32, 9]⟩, ⟨"exec".toList, true, echoPayload⟩]).actions =
      [Goroutine.emptyExec,
       Goroutine.program ["echo".toList, "hello".toList, "world".toList]] ∧
    started (handleAll freshSession
      [⟨"exec".toList, true, [0, 0, 0, 0]⟩, ⟨"exec".toList, true, [0, 0, 0, 0]⟩]).actions =
      [Goroutine.emptyExec, Goroutine.emptyExec] ∧
    (handleAll freshSession [⟨"exec".toList, true, [0, 0, 0, 0]⟩]).active = false ∧
    (∀ w : World, (exec_emptyGoroutine w).trace.getLast? = some Event.closeInputChan) ∧
    (∀ (fuel : Nat) (pty : Bool) (user : Str) (addr : RemoteAddr) (program : List Str)
        (w : World),
      (handleProgram_goroutine fuel pty user addr program w).map
          (fun w1 => w1.trace.getLast?) =
        (executeProgram fuel (handleProgram_context pty user addr program) w).map
          (fun _ => some Event.closeInputChan)) ∧
    (∀ (c : sessionContext) (requests : List Request), ∃ k tp,
      started (handleAll c requests).actions =
        started c.actions ++ List.replicate k Goroutine.emptyExec ++ tp ∧
      (tp = [] ∨ ∃ p, tp = [Goroutine.program p]) ∧
      (c.active = false ∨ (k = 0 ∧ tp = []))) ∧
    (exec_emptyGoroutine (quietWorld [] [])).trace.count Event.closeInputChan = 1 ∧
    ((handleProgram_goroutine 3 false "guest".toList sampleAddr shellProgram
      (exec_emptyGoroutine (quietWorld [] []))).map
        (fun w1 => w1.trace.count Event.closeInputChan)) = some 2 := by
  refine ⟨by decide, by decide, by decide, by decide, fun w => ?_, ?_,
    fun c requests => handleAll_started requests c, by decide, by decide⟩
  · simp [exec_emptyGoroutine, World.closeInputChan, World.attempt]
  · intro fuel pty user addr program w
    simp only [handleProgram_goroutine]
    cases executeProgram fuel (handleProgram_context pty user addr program) w with
    | none => rfl
    | some r => simp [World.closeInputChan]

/-! ## The hostname on the two activation paths -/

theorem commands_hostname : commands "hostname".toList = some command.cmdHostname := by
  decide

theorem commands_uname : commands "uname".toList = some command.cmdUname := by decide

theorem unameOutput_n (context : commandContext) (name : Str) (rest : List Str)
    (hargs : context.args = name :: "-n".toList :: rest) :
    unameOutput context = context.hostname := by
  have h1 : ¬("-n".toList = "-s".toList ∨ "-n".toList = "--kernel-name".toList) := by decide
  simp only [unameOutput, hargs, if_neg h1, true_or, if_true]

/-- C24, the claim refuted: in one session of a client at 192.0.2.7, `hostname`
dispatched by an `exec` request writes the address of the client, and `hostname` typed
in the default shell writes the generated name `vm-000000`; so does `uname -n`. -/
theorem hostname_differs_by_path :
    (executeProgram 1
      (handleProgram_context false "guest".toList sampleAddr ["hostname".toList])
      (quietWorld [] [])).map (fun r => r.world.trace) =
      some [Event.write Sink.stdout "192.0.2.7\n".toList] ∧
    (executeProgram 6
      (handleProgram_context false "guest".toList sampleAddr shellProgram)
      (quietWorld ["hostname".toList] [])).map (fun r => r.world.trace) =
      some [Event.write Sink.stdout "vm-000000\n".toList] ∧
    (executeProgram 1
      (handleProgram_context false "guest".toList sampleAddr
        ["uname".toList, "-n".toList])
      (quietWorld [] [])).map (fun r => r.world.trace) =
      some [Event.write Sink.stdout "192.0.2.7\n".toList] ∧
    (executeProgram 6
      (handleProgram_context false "guest".toList sampleAddr shellProgram)
      (quietWorld ["uname -n".toList] [])).map (fun r => r.world.trace) =
      some [Event.write Sink.stdout "vm-000000\n".toList] := by
  refine ⟨by decide, by decide, by decide, by decide⟩

/-- C24, as amended: dispatched by an `exec` request, `hostname` and `uname -n` write
the hostname that `handleProgram` puts in the context, the IP of the client's address
(or the full address when it is not a TCP address); typed as a line in the shell, they
write the hostname of the shell, which the shell sets to the process-wide generated
name when it starts, whatever the context says. -/
theorem hostname_by_path (fuel : Nat) (pty : Bool) (user : Str) (addr : RemoteAddr)
    (context : commandContext) (st : ShellState) (w w2 : World) (line : Str)
    (args : List Str) (hread : shellReads context st w line w2)
    (hfields : Fields line = "hostname".toList :: args ∨
      Fields line = "uname".toList :: "-n".toList :: args) :
    (executeProgram (fuel + 1)
      (handleProgram_context pty user addr ("hostname".toList :: args)) w).map
        (fun r => r.world.trace) =
      some (w.trace ++ [Event.write Sink.stdout (remoteAddrStr addr ++ "\n".toList)]) ∧
    (executeProgram (fuel + 1)
      (handleProgram_context pty user addr ("uname".toList :: "-n".toList :: args)) w).map
        (fun r => r.world.trace) =
      some (w.trace ++ [Event.write Sink.stdout (remoteAddrStr addr ++ "\n".toList)]) ∧
    (∀ w0 : World, (shellInit w0).currentHostname = globalHostname w0) ∧
    ∃ st1 w3, cmdShell_step (fuel + 2) context st w = some (ShellStep.next st1 w3) ∧
      st1.currentHostname = st.currentHostname ∧
      ∃ report, w3.trace =
          w2.trace ++ Event.write Sink.stdout (st.currentHostname ++ "\n".toList) :: report ∧
        ∀ e ∈ report, ∃ data, e = Event.write Sink.stderr data := by
  refine ⟨?_, ?_, fun _ => rfl, ?_⟩
  · simp only [executeProgram, handleProgram_context, commands_hostname, execute,
      cmdHostname_execute, commandContext.printOrFail, Fprint, World.attempt]
    cases w.outcome w.trace.length <;> rfl
  · simp only [executeProgram, handleProgram_context, commands_uname, execute,
      cmdUname_execute, commandContext.printOrFail, Fprint, World.attempt]
    rw [unameOutput_n _ "uname".toList args rfl]
    cases w.outcome w.trace.length <;> rfl
  · obtain ⟨w1, hp, hr⟩ := hread
    rcases hfields with hfields | hfields
    · have hne : ¬ ("hostname".toList = "exit".toList) := by decide
      rw [cmdShell_step]
      simp only [hp, hr, hfields, commands_hostname, execute, if_neg hne]
      simp only [cmdHostname_execute, commandContext.printOrFail, Fprint, World.attempt]
      cases ho : w2.outcome w2.trace.length with
      | none =>
        simp only [commandContext.result]
        refine ⟨_, _, rfl, rfl, [], rfl, ?_⟩
        intro e he; simp at he
      | some err =>
        simp only [commandContext.result]
        refine ⟨_, _, rfl, rfl,
          [Event.write Sink.stderr
            ("Shell execution error: ".toList ++ err.Error ++ "\n".toList)], ?_, ?_⟩
        · simp only [List.append_assoc, List.singleton_append]
        · intro e he
          simp only [List.mem_singleton] at he
          exact ⟨_, he⟩
    · have hne : ¬ ("uname".toList = "exit".toList) := by decide
      rw [cmdShell_step]
      simp only [hp, hr, hfields, commands_uname, execute, if_neg hne]
      simp only [cmdUname_execute, commandContext.printOrFail, Fprint, World.attempt]
      rw [unameOutput_n _ "uname".toList args rfl]
      cases ho : w2.outcome w2.trace.length with
      | none =>
        simp only [commandContext.result]
        refine ⟨_, _, rfl, rfl, [], rfl, ?_⟩
        intro e he; simp at he
      | some err =>
        simp only [commandContext.result]
        refine ⟨_, _, rfl, rfl,
          [Event.write Sink.stderr
            ("Shell execution error: ".toList ++ err.Error ++ "\n".toList)], ?_, ?_⟩
        · simp only [List.append_assoc, List.singleton_append]
        · intro e he
          simp only [List.mem_singleton] at he
          exact ⟨_, he⟩

/-- C24 at a concrete input: the guest at 192.0.2.7 runs `hostname` by an `exec`
request, which writes `192.0.2.7`, and types `hostname` as the first line of the
shell, which writes the hostname of the shell. -/
theorem hostname_by_path_witness :
    (executeProgram 1
      (handleProgram_context false "guest".toList sampleAddr ["hostname".toList])
      (quietWorld ["hostname".toList] [])).map (fun r => r.world.trace) =
      some ((quietWorld ["hostname".toList] []).trace ++
        [Event.write Sink.stdout (remoteAddrStr sampleAddr ++ "\n".toList)]) ∧
    remoteAddrStr sampleAddr = "192.0.2.7".toList ∧
    globalHostname (quietWorld ["hostname".toList] []) = "vm-000000".toList ∧
    ∃ st1 w3, cmdShell_step 2
        (handleProgram_context false "guest".toList sampleAddr shellProgram)
        (shellInit (quietWorld ["hostname".toList] []))
        (quietWorld ["hostname".toList] []) = some (ShellStep.next st1 w3) ∧
      st1.currentHostname = (shellInit (quietWorld ["hostname".toList] [])).currentHostname ∧
      ∃ report, w3.trace =
          (ReadLine readLiner.scannerReadLiner (quietWorld ["hostname".toList] [])).2.2.trace ++
            Event.write Sink.stdout
              ((shellInit (quietWorld ["hostname".toList] [])).currentHostname ++
                "\n".toList) :: report ∧
        ∀ e ∈ report, ∃ data, e = Event.write Sink.stderr data :=
  ⟨(hostname_by_path 0 false "guest".toList sampleAddr
      (handleProgram_context false "guest".toList sampleAddr shellProgram)
      (shellInit (quietWorld ["hostname".toList] [])) (quietWorld ["hostname".toList] [])
      (ReadLine readLiner.scannerReadLiner (quietWorld ["hostname".toList] [])).2.2
      "hostname".toList [] ⟨_, rfl, rfl⟩ (Or.inl (by decide))).1,
    by decide, by decide,
    (hostname_by_path 0 false "guest".toList sampleAddr
      (handleProgram_context false "guest".toList sampleAddr shellProgram)
      (shellInit (quietWorld ["hostname".toList] [])) (quietWorld ["hostname".toList] [])
      (ReadLine readLiner.scannerReadLiner (quietWorld ["hostname".toList] [])).2.2
      "hostname".toList [] ⟨_, rfl, rfl⟩ (Or.inl (by decide))).2.2.2⟩

end Sshesame
